import Mathlib

/-!
# Script classification and signature-operation counting (`src/script/script.cpp`)

A shallow embedding of the `CScript` member functions of `script.cpp`.

* A script is the list of its bytes; a `const_iterator` is modelled by the
  suffix of the script that starts at the iterator (`pc < end()` is "the suffix
  is not empty").
* `unsigned int` tallies are natural numbers reduced modulo `2^32` at every
  arithmetic step.
* `vector::at` is modelled by `Option`: `none` stands for the
  `std::out_of_range` exception.
* `while` loops are structural recursions on a fuel argument that is
  initialised with the length of the script; the lemmas `*_fuel` show that the
  fuel never runs out.
* A `std::string` is a `String`, `+=` is `++`, and a returned `const char*` is
  an `Option String` with `none` for `NULL`.
* `ToString` has three outcomes in the model (a returned string, a thrown
  `scriptnum_error`, fuel used up), so that "it returns" is a statement of its
  own.
* Code the functions call that is not among the sources (`GetOp`, the opcode
  values, `DecodeOP_N`, `CScriptNum`, `HexStr`, `strprintf`, the solver) is
  modelled from the specification or taken as a parameter; every such
  definition says so.
-/

namespace CScript

/-! ## Data model -/

/-- One `unsigned char` of a script. -/
abbrev Byte := Fin 256

/-- The raw bytes of a `CScript`. -/
abbrev Script := List Byte

/-! ## Opcode values -/

/-- Modelled from the spec: the `opcodetype` enumeration of `script.h` is not
among the sources; the values used here are the ones the specification and
the claims name (`OP_0 = 0x00`). -/
abbrev OP_0 : Nat := 0x00
/-- Modelled from the spec: `opcodetype` value of `script.h`. -/
abbrev OP_PUSHDATA1 : Nat := 0x4c
/-- Modelled from the spec: `opcodetype` value of `script.h`. -/
abbrev OP_PUSHDATA2 : Nat := 0x4d
/-- Modelled from the spec: `opcodetype` value of `script.h`. -/
abbrev OP_PUSHDATA4 : Nat := 0x4e
/-- Modelled from the spec: `opcodetype` value of `script.h`. -/
abbrev OP_1NEGATE : Nat := 0x4f
/-- Modelled from the spec: `opcodetype` value of `script.h`. -/
abbrev OP_RESERVED : Nat := 0x50
/-- Modelled from the spec: `opcodetype` value of `script.h`. -/
abbrev OP_1 : Nat := 0x51
/-- Modelled from the spec: `opcodetype` value of `script.h`. -/
abbrev OP_16 : Nat := 0x60
/-- Modelled from the spec: `opcodetype` value of `script.h`. -/
abbrev OP_DUP : Nat := 0x76
/-- Modelled from the spec: `opcodetype` value of `script.h`. -/
abbrev OP_EQUAL : Nat := 0x87
/-- Modelled from the spec: `opcodetype` value of `script.h`. -/
abbrev OP_EQUALVERIFY : Nat := 0x88
/-- Modelled from the spec: `opcodetype` value of `script.h`. -/
abbrev OP_HASH160 : Nat := 0xa9
/-- Modelled from the spec: `opcodetype` value of `script.h`. -/
abbrev OP_CHECKSIG : Nat := 0xac
/-- Modelled from the spec: `opcodetype` value of `script.h`. -/
abbrev OP_CHECKSIGVERIFY : Nat := 0xad
/-- Modelled from the spec: `opcodetype` value of `script.h`. -/
abbrev OP_CHECKMULTISIG : Nat := 0xae
/-- Modelled from the spec: `opcodetype` value of `script.h`. -/
abbrev OP_CHECKMULTISIGVERIFY : Nat := 0xaf
/-- Modelled from the spec: `opcodetype` value of `script.h`. -/
abbrev OP_ZEROCOINMINT : Nat := 0xc1
/-- Modelled from the spec: `opcodetype` value of `script.h`. -/
abbrev OP_ZEROCOINSPEND : Nat := 0xc2
/-- Modelled from the spec: `opcodetype` value of `script.h`. -/
abbrev OP_INVALIDOPCODE : Nat := 0xff

/-! ## The token reader -/

/-- Outcome of one call of `GetOp(pc, opcode, data)`.  `ok opcode data pc` is a
`true` return with the out-parameters and the advanced iterator; `bad pc` is
a `false` return, after which `opcode` holds `OP_INVALIDOPCODE`, `data` is
empty and the iterator stands at `pc`. -/
inductive ReadResult where
  | ok (opcode : Nat) (data : Script) (pc : Script)
  | bad (pc : Script)
  deriving DecidableEq, Repr

/-- Modelled from the spec: the tail of `CScript::GetOp2` (`script.h`, not
among the sources) that copies an `nSize`-byte payload: the read is malformed
when fewer than `nSize` bytes remain, otherwise the payload is returned and
the cursor advances past it. -/
def readPayload (opcode nSize : Nat) (pc : Script) : ReadResult :=
  if pc.length < nSize then ReadResult.bad pc
  else ReadResult.ok opcode (pc.take nSize) (pc.drop nSize)

/-- Modelled from the spec: `CScript::GetOp` of `script.h` is not among the
sources.  The specification describes it as the token cursor
`nextToken(buffer, cursor) -> Ok(opcode, payload?) | End | Malformed` that
advances the cursor past the consumed bytes on success and rejects truncated
push encodings as malformed.  Push tokens use the encoding the claims name: an
opcode `0x01..0x4b` is followed by that many payload bytes, and
`OP_PUSHDATA1/2/4` are followed by a 1/2/4-byte little-endian length and then
the payload; every opcode above `OP_PUSHDATA4` is a single byte.  `End` and
`Malformed` are both the `false` return (`ReadResult.bad`); after a malformed
read the cursor stands behind the bytes that were read before the truncation
was detected (the opcode byte and a complete length field). -/
def GetOp : Script → ReadResult
  | [] => ReadResult.bad []
  | b :: pc =>
    let opcode := b.val
    if opcode ≤ OP_PUSHDATA4 then
      if opcode < OP_PUSHDATA1 then readPayload opcode opcode pc
      else if opcode = OP_PUSHDATA1 then
        match pc with
        | n0 :: pc1 => readPayload opcode n0.val pc1
        | _ => ReadResult.bad pc
      else if opcode = OP_PUSHDATA2 then
        match pc with
        | n0 :: n1 :: pc2 => readPayload opcode (n0.val + 256 * n1.val) pc2
        | _ => ReadResult.bad pc
      else
        match pc with
        | n0 :: n1 :: n2 :: n3 :: pc4 =>
          readPayload opcode
            (n0.val + 256 * n1.val + 65536 * n2.val + 16777216 * n3.val) pc4
        | _ => ReadResult.bad pc
    else ReadResult.ok opcode [] pc

/-- The opcode out-parameter after a call of `GetOp`: the decoded opcode, or
`OP_INVALIDOPCODE` after a `false` return. -/
def ReadResult.opcodeRet : ReadResult → Nat
  | ReadResult.ok opcode _ _ => opcode
  | ReadResult.bad _ => OP_INVALIDOPCODE

/-- The iterator after a call of `GetOp`. -/
def ReadResult.pcRet : ReadResult → Script
  | ReadResult.ok _ _ pc => pc
  | ReadResult.bad pc => pc

/-- Modelled from the spec: `DecodeOP_N` of `script.h` is not among the
sources; the specification describes it as the numeral value of a
small-integer opcode (`OP_1..OP_16` denote 1..16, `OP_0` denotes 0). -/
def DecodeOP_N (opcode : Nat) : Nat :=
  if opcode = OP_0 then 0 else opcode - (OP_1 - 1)

/-! ## Pattern classification -/

/-- The accessor `vector::at`: `none` models the `std::out_of_range`
exception. -/
def vectorAt (s : Script) (i : Nat) : Option Byte := s[i]?

/-- The member `CScript::IsPayToScriptHash`: the conjunction is evaluated left
to right with short-circuiting, so an access is only made when the earlier
conjuncts are true. -/
def IsPayToScriptHash (s : Script) : Option Bool :=
  if s.length = 23 then do
    let b0 ← vectorAt s 0
    if b0.val = OP_HASH160 then do
      let b1 ← vectorAt s 1
      if b1.val = 0x14 then do
        let b22 ← vectorAt s 22
        pure (decide (b22.val = OP_EQUAL))
      else pure false
    else pure false
  else pure false

/-- The loop of `CScript::IsNormalPaymentScript`: `i` is the token counter and
`pc` the cursor.  The return value of `GetOp` is ignored, as in the source. -/
def IsNormalPaymentScript.loop : Nat → Nat → Script → Bool
  | 0, _, _ => true
  | fuel + 1, i, pc =>
    if pc = [] then true
    else
      let r := GetOp pc
      let opcode := r.opcodeRet
      if i = 0 ∧ opcode ≠ OP_DUP then false
      else if i = 1 ∧ opcode ≠ OP_HASH160 then false
      else if i = 3 ∧ opcode ≠ OP_EQUALVERIFY then false
      else if i = 4 ∧ opcode ≠ OP_CHECKSIG then false
      else if i = 5 then false
      else IsNormalPaymentScript.loop fuel (i + 1) r.pcRet

/-- The member `CScript::IsNormalPaymentScript`: the size test followed by the
token loop, entered with `i = 0` at `begin()`. -/
def IsNormalPaymentScript (s : Script) : Bool :=
  if s.length ≠ 25 then false
  else IsNormalPaymentScript.loop s.length 0 s

/-- The loop of `CScript::IsPushOnly(const_iterator pc)`. -/
def IsPushOnly.loop : Nat → Script → Bool
  | 0, _ => true
  | fuel + 1, pc =>
    if pc = [] then true
    else
      match GetOp pc with
      | ReadResult.bad _ => false
      | ReadResult.ok opcode _ pc1 =>
        if opcode > OP_16 then false
        else IsPushOnly.loop fuel pc1

/-- The member `CScript::IsPushOnly(const_iterator pc)`, the cursor given as
the suffix that starts at it. -/
def IsPushOnlyFrom (pc : Script) : Bool := IsPushOnly.loop pc.length pc

/-- The member `CScript::IsPushOnly()`, which starts the scan at `begin()`. -/
def IsPushOnly (s : Script) : Bool := IsPushOnlyFrom s

/-! ## Signature-operation counting -/

/-- The body of the loop of `CScript::GetSigOpCount(bool fAccurate)` after a
successful `GetOp`: the new value of the `unsigned int` tally `n`, given the
previous opcode `lastOpcode` and the opcode just read. -/
def GetSigOpCount.body (fAccurate : Bool) (n lastOpcode opcode : Nat) : Nat :=
  if opcode = OP_CHECKSIG ∨ opcode = OP_CHECKSIGVERIFY then
    (n + 1) % 2 ^ 32
  else if opcode = OP_CHECKMULTISIG ∨ opcode = OP_CHECKMULTISIGVERIFY then
    if fAccurate = true ∧ lastOpcode ≥ OP_1 ∧ lastOpcode ≤ OP_16 then
      (n + DecodeOP_N lastOpcode) % 2 ^ 32
    else
      (n + 20) % 2 ^ 32
  else n

/-- The loop of `CScript::GetSigOpCount(bool fAccurate)`: `n` is the
`unsigned int` tally and `lastOpcode` the previous opcode. -/
def GetSigOpCount.loop (fAccurate : Bool) : Nat → Script → Nat → Nat → Nat
  | 0, _, n, _ => n
  | fuel + 1, pc, n, lastOpcode =>
    if pc = [] then n
    else
      match GetOp pc with
      | ReadResult.bad _ => n
      | ReadResult.ok opcode _ pc1 =>
        GetSigOpCount.loop fAccurate fuel pc1
          (GetSigOpCount.body fAccurate n lastOpcode opcode) opcode

/-- The loop of `GetSigOpCount(bool)` entered at cursor `pc` with tally `n`
and previous opcode `lastOpcode`. -/
def GetSigOpCount.run (fAccurate : Bool) (pc : Script) (n lastOpcode : Nat) : Nat :=
  GetSigOpCount.loop fAccurate pc.length pc n lastOpcode

/-- The member `CScript::GetSigOpCount(bool fAccurate)`: the loop entered at
`begin()` with `n = 0` and `lastOpcode = OP_INVALIDOPCODE`. -/
def GetSigOpCount (s : Script) (fAccurate : Bool) : Nat :=
  GetSigOpCount.run fAccurate s 0 OP_INVALIDOPCODE

/-- The loop of `CScript::GetSigOpCount(const CScript& scriptSig)` over the
scriptSig: `data` is the payload of the last token read.  `none` is the early
`return 0`, `some data` is the normal exit of the loop. -/
def GetSigOpCountP2SH.loop : Nat → Script → Script → Option Script
  | 0, _, data => some data
  | fuel + 1, pc, data =>
    if pc = [] then some data
    else
      match GetOp pc with
      | ReadResult.bad _ => none
      | ReadResult.ok opcode data1 pc1 =>
        if opcode > OP_16 then none
        else GetSigOpCountP2SH.loop fuel pc1 data1

/-- The scriptSig loop of the two-argument `GetSigOpCount` entered at cursor
`pc` with `data` holding the payload read last. -/
def GetSigOpCountP2SH.run (pc data : Script) : Option Script :=
  GetSigOpCountP2SH.loop pc.length pc data

/-- The member `CScript::GetSigOpCount(const CScript& scriptSig)`, the
two-argument overload; `this` is the scriptPubKey.  The result is in `Option`
because `IsPayToScriptHash` is written with the throwing accessor `at`. -/
def GetSigOpCountP2SH (scriptPubKey scriptSig : Script) : Option Nat := do
  let p2sh ← IsPayToScriptHash scriptPubKey
  if !p2sh then pure (GetSigOpCount scriptPubKey true)
  else
    match GetSigOpCountP2SH.run scriptSig [] with
    | none => pure 0
    | some data => pure (GetSigOpCount data true)

/-! ## Specification-side notions: the token sequence of a script -/

/-- A decoded token: its opcode and its push payload (empty for an opcode
that carries none). -/
structure Token where
  opcode : Nat
  data : Script
  deriving DecidableEq, Repr

/-- The tokens read from a cursor, left to right, up to (not including) the
first malformed token. -/
def tokens.loop : Nat → Script → List Token
  | 0, _ => []
  | fuel + 1, pc =>
    match GetOp pc with
    | ReadResult.bad _ => []
    | ReadResult.ok opcode data pc1 => Token.mk opcode data :: tokens.loop fuel pc1

/-- The tokens of a script, decoded left to right up to (not including) the
first malformed token. -/
def tokens (s : Script) : List Token := tokens.loop s.length s

/-- Whether the token reader reaches the end of the cursor without meeting a
malformed or truncated token. -/
def decodesCompletely.loop : Nat → Script → Bool
  | 0, pc => decide (pc = [])
  | fuel + 1, pc =>
    if pc = [] then true
    else
      match GetOp pc with
      | ReadResult.bad _ => false
      | ReadResult.ok _ _ pc1 => decodesCompletely.loop fuel pc1

/-- A script decodes completely when reading it token by token reaches its
end without a malformed or truncated token. -/
def decodesCompletely (s : Script) : Bool := decodesCompletely.loop s.length s

/-- The contribution of one token to the signature-operation count, as the
specification words it: 1 for a single-signature check; for a multi-signature
check the numeral of the immediately preceding opcode when the count is
accurate and that opcode is `OP_1..OP_16`, and 20 otherwise (also when there
is no preceding token); 0 for every other token. -/
def sigOpWeight (fAccurate : Bool) (previous : Option Nat) (opcode : Nat) : Nat :=
  if opcode = OP_CHECKSIG ∨ opcode = OP_CHECKSIGVERIFY then 1
  else if opcode = OP_CHECKMULTISIG ∨ opcode = OP_CHECKMULTISIGVERIFY then
    match previous with
    | some p => if fAccurate = true ∧ OP_1 ≤ p ∧ p ≤ OP_16 then p - 0x50 else 20
    | none => 20
  else 0

/-- The sum of the contributions of a token sequence; `previous` is the opcode
of the token before the first one of the list, if any. -/
def sigOpSum (fAccurate : Bool) : Option Nat → List Token → Nat
  | _, [] => 0
  | previous, t :: ts =>
    sigOpWeight fAccurate previous t.opcode + sigOpSum fAccurate (some t.opcode) ts

/-- The canonical 25-byte pay-to-pubkey-hash template
`OP_DUP OP_HASH160 0x14 <h> OP_EQUALVERIFY OP_CHECKSIG`. -/
def p2pkhTemplate (h : Script) : Script :=
  [0x76, 0xa9, 0x14] ++ h ++ [0x88, 0xac]

/-- The small-integer opcode `OP_n` as a script byte (`0x50 + n`). -/
def opN (n : Nat) : Byte := Fin.ofNat (0x50 + n)

/-- The payload of a script that is exactly one well-formed push token (a
token the reader accepts, that ends the script, with an opcode of at most
`OP_16`); `none` for any other script. -/
def pushTokenPayload (t : Script) : Option Script :=
  match GetOp t with
  | ReadResult.ok opcode data [] => if opcode ≤ OP_16 then some data else none
  | _ => none

/-! ## The flagged-prefix table and the zerocoin markers -/

/-- The member `CScript::IsZerocoinMint`; the access `at(0)` is only made when
the size test is true. -/
def IsZerocoinMint (s : Script) : Option Bool :=
  if s.length > 0 then do
    let b0 ← vectorAt s 0
    pure (decide (b0.val = OP_ZEROCOINMINT))
  else pure false

/-- The member `CScript::IsZerocoinSpend`; the access `at(0)` is only made when
the size test is true. -/
def IsZerocoinSpend (s : Script) : Option Bool :=
  if s.length > 0 then do
    let b0 ← vectorAt s 0
    pure (decide (b0.val = OP_ZEROCOINSPEND))
  else pure false

/-- The record `struct QuicksendEntry`: an inclusive range of `uint32_t`
values and its label (the fields `begin` and `end` of the source). -/
structure QuicksendEntry where
  begin_ : Nat
  end_ : Nat
  name : String
  deriving DecidableEq, Repr

/-- The static table `QuicksendedPrefixes`, in declaration order. -/
def QuicksendedPrefixes : List QuicksendEntry := [
  QuicksendEntry.mk 0x33895896 0x33895896 "QuickSend1", QuicksendEntry.mk 0x2E80F403 0x2E80F403 "QuickSend11", QuicksendEntry.mk 0xA7E51453 0xA7E51453 "QuickSend21",
  QuicksendEntry.mk 0x89266EDF 0x89266EDF "QuickSend2", QuicksendEntry.mk 0xCEC2C292 0xCEC2C292 "QuickSend12", QuicksendEntry.mk 0x9A15F301 0x9A15F301 "QuickSend22",
  QuicksendEntry.mk 0xE4FC2461 0xE4FC2461 "QuickSend3", QuicksendEntry.mk 0xCED43186 0xCED43186 "QuickSend13", QuicksendEntry.mk 0x8461CEBF 0x8461CEBF "QuickSend23",
  QuicksendEntry.mk 0x1048766F 0x1048766F "QuickSend4", QuicksendEntry.mk 0x6121D48F 0x6121D48F "QuickSend14", QuicksendEntry.mk 0xB40F4D21 0xB40F4D21 "QuickSend24",
  QuicksendEntry.mk 0x2F6A053E 0x2F6A053E "QuickSend5", QuicksendEntry.mk 0x75BB1A60 0x75BB1A60 "QuickSend15", QuicksendEntry.mk 0x315CAA31 0x315CAA31 "QuickSend25",
  QuicksendEntry.mk 0x7DAF4ED1 0x7DAF4ED1 "QuickSend6", QuicksendEntry.mk 0xCBBE05C3 0xCBBE05C3 "QuickSend16", QuicksendEntry.mk 0xD70BBCE5 0xD70BBCE5 "QuickSend26",
  QuicksendEntry.mk 0x076272A4 0x076272A4 "QuickSend7", QuicksendEntry.mk 0x94F2B502 0x94F2B502 "QuickSend17", QuicksendEntry.mk 0xC444D92C 0xC444D92C "QuickSend27",
  QuicksendEntry.mk 0x4BC41E4D 0x4BC41E4D "QuickSend8", QuicksendEntry.mk 0xEFB42777 0xEFB42777 "QuickSend18", QuicksendEntry.mk 0xCD46BE7A 0xCD46BE7A "QuickSend28",
  QuicksendEntry.mk 0x424ED839 0x424ED839 "QuickSend9", QuicksendEntry.mk 0xFE545F4D 0xFE545F4D "QuickSend19", QuicksendEntry.mk 0x9818CBF2 0x9818CBF2 "QuickSend29",
  QuicksendEntry.mk 0x0D5024D9 0x0D5024D9 "QuickSend10", QuicksendEntry.mk 0xE45C0CC6 0xE45C0CC6 "QuickSend20", QuicksendEntry.mk 0x97F0EFB8 0x97F0EFB8 "QuickSend30",
  QuicksendEntry.mk 0xF46BCB6C 0xF46BCB6C "QuickSend31", QuicksendEntry.mk 0x7EB9F466 0x7EB9F466 "QuickSend32", QuicksendEntry.mk 0x12423CDE 0x12423CDE "QuickSend33",
  QuicksendEntry.mk 0xF9EB7B0D 0xF9EB7B0D "QuickSend34", QuicksendEntry.mk 0x118DCDB2 0x118DCDB2 "QuickSend35", QuicksendEntry.mk 0xC70BCFED 0xC70BCFED "QuickSend36",
  QuicksendEntry.mk 0xC34E75FA 0xC34E75FA "QuickSend37", QuicksendEntry.mk 0xFB78F453 0xFB78F453 "QuickSend38", QuicksendEntry.mk 0x2C0755E9 0x2C0755E9 "QuickSend39",
  QuicksendEntry.mk 0x3A0DE39C 0x3A0DE39C "QuickSend40", QuicksendEntry.mk 0x97B0AFD2 0x97B0AFD2 "QuickSend41", QuicksendEntry.mk 0xAE47218A 0xAE47218A "QuickSend42",
  QuicksendEntry.mk 0xA247F884 0xA247F884 "QuickSend43", QuicksendEntry.mk 0x9E7A69C6 0x9E7A69C6 "QuickSend44", QuicksendEntry.mk 0x06D5E04E 0x06D5E04E "QuickSend45",
  QuicksendEntry.mk 0x7BB26DEE 0x7BB26DEE "QuickSend46", QuicksendEntry.mk 0x216F4375 0x216F4375 "QuickSend47", QuicksendEntry.mk 0xEA180F43 0xEA180F43 "QuickSend48",
  QuicksendEntry.mk 0xF0D5E232 0xF0D5E232 "QuickSend49", QuicksendEntry.mk 0x6B5CD28D 0x6B5CD28D "QuickSend50", QuicksendEntry.mk 0xD29AB8D3 0xD29AB8D3 "QuickSend51",
  QuicksendEntry.mk 0x4F8C6FA7 0x4F8C6FA7 "QuickSend52", QuicksendEntry.mk 0x419A04FF 0x419A04FF "QuickSend53", QuicksendEntry.mk 0x5166479E 0x5166479E "QuickSend54",
  QuicksendEntry.mk 0x866E923D 0x866E923D "QuickSend55", QuicksendEntry.mk 0x4D0C82D0 0x4D0C82D0 "QuickSend56", QuicksendEntry.mk 0x64CCD0C2 0x64CCD0C2 "QuickSend57",
  QuicksendEntry.mk 0x2986DF7C 0x2986DF7C "QuickSend58", QuicksendEntry.mk 0x0C3C0586 0x0C3C0586 "QuickSend59", QuicksendEntry.mk 0x6E284590 0x6E284590 "QuickSend60",
  QuicksendEntry.mk 0x83574F26 0x83574F26 "QuickSend61", QuicksendEntry.mk 0x1842EE53 0x1842EE53 "QuickSend62", QuicksendEntry.mk 0xD2C9A79F 0xD2C9A79F "QuickSend63",
  QuicksendEntry.mk 0x37B19E3B 0x37B19E3B "QuickSend64", QuicksendEntry.mk 0xCEECF274 0xCEECF274 "QuickSend65", QuicksendEntry.mk 0x52A2E32E 0x52A2E32E "QuickSend66",
  QuicksendEntry.mk 0xAF90F8AB 0xAF90F8AB "QuickSend67", QuicksendEntry.mk 0x490AB437 0x490AB437 "QuickSend68", QuicksendEntry.mk 0x9DEE70BF 0x9DEE70BF "QuickSend69",
  QuicksendEntry.mk 0xBE47E4D7 0xBE47E4D7 "QuickSend70", QuicksendEntry.mk 0x7272153D 0x7272153D "QuickSend71", QuicksendEntry.mk 0x791ACC6D 0x791ACC6D "QuickSend72",
  QuicksendEntry.mk 0x391F0A59 0x391F0A59 "QuickSend73", QuicksendEntry.mk 0x7BB12095 0x7BB12095 "QuickSend74", QuicksendEntry.mk 0x47AF9F8C 0x47AF9F8C "QuickSend75",
  QuicksendEntry.mk 0x5C229E7D 0x5C229E7D "QuickSend76", QuicksendEntry.mk 0x769FBD4D 0x769FBD4D "QuickSend77", QuicksendEntry.mk 0x65C798E8 0x65C798E8 "QuickSend78",
  QuicksendEntry.mk 0xFF7E4261 0xFF7E4261 "QuickSend79", QuicksendEntry.mk 0xE7963EF6 0xE7963EF6 "QuickSend80", QuicksendEntry.mk 0xF8DD6C21 0xF8DD6C21 "QuickSend81",
  QuicksendEntry.mk 0x4CF1556E 0x4CF1556E "QuickSend82", QuicksendEntry.mk 0x665AAF76 0x665AAF76 "QuickSend83", QuicksendEntry.mk 0x02B0C417 0x02B0C417 "QuickSend84",
  QuicksendEntry.mk 0x7D37A028 0x7D37A028 "QuickSend85", QuicksendEntry.mk 0xA99C5FD6 0xA99C5FD6 "QuickSend86", QuicksendEntry.mk 0x598BAC95 0x598BAC95 "QuickSend87",
  QuicksendEntry.mk 0x3AC0B794 0x3AC0B794 "QuickSend88", QuicksendEntry.mk 0x4987E8CF 0x4987E8CF "QuickSend89", QuicksendEntry.mk 0x9BE5FE8E 0x9BE5FE8E "QuickSend90",
  QuicksendEntry.mk 0x7644546F 0x7644546F "QuickSend91", QuicksendEntry.mk 0x807D6E54 0x807D6E54 "QuickSend92", QuicksendEntry.mk 0x1430BC32 0x1430BC32 "QuickSend93",
  QuicksendEntry.mk 0xEA7FEDBD 0xEA7FEDBD "QuickSend94", QuicksendEntry.mk 0x253AAE70 0x253AAE70 "QuickSend95", QuicksendEntry.mk 0x0E86A28D 0x0E86A28D "QuickSend96",
  QuicksendEntry.mk 0xE2BD519E 0xE2BD519E "QuickSend97", QuicksendEntry.mk 0x46B0194C 0x46B0194C "QuickSend98", QuicksendEntry.mk 0x97C7B327 0x97C7B327 "QuickSend99",
  QuicksendEntry.mk 0x5D954B73 0x5D954B73 "QuickSend100", QuicksendEntry.mk 0x2AEB609E 0x2AEB609E "QuickSend101", QuicksendEntry.mk 0x3CE1C0C1 0x3CE1C0C1 "QuickSend102",
  QuicksendEntry.mk 0xBD6E37F0 0xBD6E37F0 "QuickSend103", QuicksendEntry.mk 0x3030BA52 0x3030BA52 "QuickSend104", QuicksendEntry.mk 0xFA6F5249 0xFA6F5249 "QuickSend105",
  QuicksendEntry.mk 0xBFD9A382 0xBFD9A382 "QuickSend106", QuicksendEntry.mk 0x96C9F9E0 0x96C9F9E0 "QuickSend107", QuicksendEntry.mk 0x9781B9CD 0x9781B9CD "QuickSend108",
  QuicksendEntry.mk 0xA12CBA29 0xA12CBA29 "QuickSend109", QuicksendEntry.mk 0x21722590 0x21722590 "QuickSend110", QuicksendEntry.mk 0xC8F44639 0xC8F44639 "QuickSend111",
  QuicksendEntry.mk 0xB1D0A80A 0xB1D0A80A "QuickSend112", QuicksendEntry.mk 0xE1672D01 0xE1672D01 "QuickSend113", QuicksendEntry.mk 0x48659097 0x48659097 "QuickSend114",
  QuicksendEntry.mk 0x5C474B86 0x5C474B86 "QuickSend115", QuicksendEntry.mk 0xBDD83303 0xBDD83303 "QuickSend116", QuicksendEntry.mk 0x64B616A3 0x64B616A3 "QuickSend117",
  QuicksendEntry.mk 0xF1F76871 0xF1F76871 "QuickSend118", QuicksendEntry.mk 0xB4A4924C 0xB4A4924C "QuickSend119", QuicksendEntry.mk 0x6D2DB700 0x6D2DB700 "QuickSend120",
  QuicksendEntry.mk 0xDF1B0913 0xDF1B0913 "QuickSend121", QuicksendEntry.mk 0xF78A4F32 0xF78A4F32 "QuickSend122", QuicksendEntry.mk 0xDF50C815 0xDF50C815 "QuickSend123",
  QuicksendEntry.mk 0xEB1B5010 0xEB1B5010 "QuickSend124", QuicksendEntry.mk 0x6B4A57DB 0x6B4A57DB "QuickSend125", QuicksendEntry.mk 0xB6076661 0xB6076661 "QuickSend126",
  QuicksendEntry.mk 0x4B85194A 0x4B85194A "QuickSend127", QuicksendEntry.mk 0xFF763C70 0xFF763C70 "QuickSend128", QuicksendEntry.mk 0xC1E376F5 0xC1E376F5 "QuickSend129",
  QuicksendEntry.mk 0xF9D9DFD9 0xF9D9DFD9 "QuickSend130", QuicksendEntry.mk 0x8A58499E 0x8A58499E "QuickSend131", QuicksendEntry.mk 0xA444261F 0xA444261F "QuickSend132",
  QuicksendEntry.mk 0xFE236A59 0xFE236A59 "QuickSend133", QuicksendEntry.mk 0x22F45D46 0x22F45D46 "QuickSend134", QuicksendEntry.mk 0x5A065D12 0x5A065D12 "QuickSend135",
  QuicksendEntry.mk 0x62C2BA0C 0x62C2BA0C "QuickSend136", QuicksendEntry.mk 0xEC3706F1 0xEC3706F1 "QuickSend137", QuicksendEntry.mk 0x46F8AE11 0x46F8AE11 "QuickSend138",
  QuicksendEntry.mk 0x93C244DD 0x93C244DD "QuickSend139", QuicksendEntry.mk 0x704DA940 0x704DA940 "QuickSend140", QuicksendEntry.mk 0x0AAD229F 0x0AAD229F "QuickSend141",
  QuicksendEntry.mk 0x13F9D38F 0x13F9D38F "QuickSend142", QuicksendEntry.mk 0xC1EC48B4 0xC1EC48B4 "QuickSend143", QuicksendEntry.mk 0x1DED3D4C 0x1DED3D4C "QuickSend144",
  QuicksendEntry.mk 0x399E8C8A 0x399E8C8A "QuickSend145", QuicksendEntry.mk 0x77779095 0x77779095 "QuickSend146", QuicksendEntry.mk 0x59E4C22C 0x59E4C22C "QuickSend147",
  QuicksendEntry.mk 0xBAC70749 0xBAC70749 "QuickSend148", QuicksendEntry.mk 0x76A4730F 0x76A4730F "QuickSend149", QuicksendEntry.mk 0x73F86D7F 0x73F86D7F "QuickSend150",
  QuicksendEntry.mk 0x4A3C17C0 0x4A3C17C0 "QuickSend151", QuicksendEntry.mk 0x02686ED0 0x02686ED0 "QuickSend152", QuicksendEntry.mk 0x5A76C482 0x5A76C482 "QuickSend153",
  QuicksendEntry.mk 0x41302355 0x41302355 "QuickSend154", QuicksendEntry.mk 0x78532FB5 0x78532FB5 "QuickSend155", QuicksendEntry.mk 0xED636669 0xED636669 "QuickSend156",
  QuicksendEntry.mk 0x0FFA057C 0x0FFA057C "QuickSend157", QuicksendEntry.mk 0x6ED03399 0x6ED03399 "QuickSend158", QuicksendEntry.mk 0x5059B174 0x5059B174 "QuickSend159",
  QuicksendEntry.mk 0x5F72EED4 0x5F72EED4 "QuickSend160", QuicksendEntry.mk 0xD8250B15 0xD8250B15 "QuickSend161", QuicksendEntry.mk 0xDCA33305 0xDCA33305 "QuickSend162",
  QuicksendEntry.mk 0xD6BF67EC 0xD6BF67EC "QuickSend163", QuicksendEntry.mk 0x11E3E97B 0x11E3E97B "QuickSend164", QuicksendEntry.mk 0x2D58F25C 0x2D58F25C "QuickSend165",
  QuicksendEntry.mk 0x3A122660 0x3A122660 "QuickSend166", QuicksendEntry.mk 0x73775CBE 0x73775CBE "QuickSend167", QuicksendEntry.mk 0x1F58FD43 0x1F58FD43 "QuickSend168",
  QuicksendEntry.mk 0xBAD52C80 0xBAD52C80 "QuickSend169", QuicksendEntry.mk 0x5E96EE80 0x5E96EE80 "QuickSend170", QuicksendEntry.mk 0xAED06E09 0xAED06E09 "QuickSend171",
  QuicksendEntry.mk 0x8C8FB1D9 0x8C8FB1D9 "QuickSend172", QuicksendEntry.mk 0xDF57E90C 0xDF57E90C "QuickSend173", QuicksendEntry.mk 0x34AD60F3 0x34AD60F3 "QuickSend174",
  QuicksendEntry.mk 0xF73C3404 0xF73C3404 "QuickSend175", QuicksendEntry.mk 0xEF04469C 0xEF04469C "QuickSend176", QuicksendEntry.mk 0x193AFB87 0x193AFB87 "QuickSend177",
  QuicksendEntry.mk 0x73644FF5 0x73644FF5 "QuickSend178", QuicksendEntry.mk 0x3E683405 0x3E683405 "QuickSend179", QuicksendEntry.mk 0x1DAD1F3E 0x1DAD1F3E "QuickSend180",
  QuicksendEntry.mk 0x73E0B218 0x73E0B218 "QuickSend181", QuicksendEntry.mk 0xB9AFA5A1 0xB9AFA5A1 "QuickSend182", QuicksendEntry.mk 0xE27E2432 0xE27E2432 "QuickSend183",
  QuicksendEntry.mk 0x22979825 0x22979825 "QuickSend184", QuicksendEntry.mk 0xEB0D1D0A 0xEB0D1D0A "QuickSend185", QuicksendEntry.mk 0x55A057DF 0x55A057DF "QuickSend186",
  QuicksendEntry.mk 0x0BBBFDFC 0x0BBBFDFC "QuickSend187", QuicksendEntry.mk 0x373823AD 0x373823AD "QuickSend188", QuicksendEntry.mk 0x7CDAA702 0x7CDAA702 "QuickSend189",
  QuicksendEntry.mk 0x2092CB69 0x2092CB69 "QuickSend190", QuicksendEntry.mk 0x6A8ACFD5 0x6A8ACFD5 "QuickSend191", QuicksendEntry.mk 0x599091A9 0x599091A9 "QuickSend192",
  QuicksendEntry.mk 0x87F22EC2 0x87F22EC2 "QuickSend193", QuicksendEntry.mk 0xE2483DD8 0xE2483DD8 "QuickSend194", QuicksendEntry.mk 0x14117C11 0x14117C11 "QuickSend195",
  QuicksendEntry.mk 0x6150C530 0x6150C530 "QuickSend196", QuicksendEntry.mk 0x31D45642 0x31D45642 "QuickSend197", QuicksendEntry.mk 0xCD97D16F 0xCD97D16F "QuickSend198",
  QuicksendEntry.mk 0x9BE45F99 0x9BE45F99 "QuickSend199", QuicksendEntry.mk 0xFB31439A 0xFB31439A "QuickSend200", QuicksendEntry.mk 0x75F77C51 0x75F77C51 "QuickSend201",
  QuicksendEntry.mk 0xD1BCC2B2 0xD1BCC2B2 "QuickSend202", QuicksendEntry.mk 0xE40A3F11 0xE40A3F11 "QuickSend203", QuicksendEntry.mk 0x59DCDA3B 0x59DCDA3B "QuickSend204",
  QuicksendEntry.mk 0xABE22A0F 0xABE22A0F "QuickSend205", QuicksendEntry.mk 0x7D5BE7F8 0x7D5BE7F8 "QuickSend206", QuicksendEntry.mk 0x91B85DAD 0x91B85DAD "QuickSend207",
  QuicksendEntry.mk 0xA2A4ADF3 0xA2A4ADF3 "QuickSend208", QuicksendEntry.mk 0xF8E6196E 0xF8E6196E "QuickSend209", QuicksendEntry.mk 0x51A78015 0x51A78015 "QuickSend210",
  QuicksendEntry.mk 0xC5C58EA9 0xC5C58EA9 "QuickSend211", QuicksendEntry.mk 0x663BF4E3 0x663BF4E3 "QuickSend212", QuicksendEntry.mk 0x088ECA5D 0x088ECA5D "QuickSend213",
  QuicksendEntry.mk 0xD9C7E76F 0xD9C7E76F "QuickSend214", QuicksendEntry.mk 0x432E331C 0x432E331C "QuickSend215", QuicksendEntry.mk 0xE84D5C1F 0xE84D5C1F "QuickSend216",
  QuicksendEntry.mk 0x1AF941CD 0x1AF941CD "QuickSend217", QuicksendEntry.mk 0x5E324B96 0x5E324B96 "QuickSend218", QuicksendEntry.mk 0xA3550273 0xA3550273 "QuickSend219",
  QuicksendEntry.mk 0xAA64D68F 0xAA64D68F "QuickSend220", QuicksendEntry.mk 0x0D3C974F 0x0D3C974F "QuickSend221", QuicksendEntry.mk 0xE9BF849B 0xE9BF849B "QuickSend222",
  QuicksendEntry.mk 0xDD922865 0xDD922865 "QuickSend223", QuicksendEntry.mk 0xD37187F5 0xD37187F5 "QuickSend224", QuicksendEntry.mk 0xBF02B02B 0xBF02B02B "QuickSend225",
  QuicksendEntry.mk 0x9E9EB644 0x9E9EB644 "QuickSend226", QuicksendEntry.mk 0xCB2E5DE9 0xCB2E5DE9 "QuickSend227", QuicksendEntry.mk 0x939C5994 0x939C5994 "QuickSend228",
  QuicksendEntry.mk 0x2A8982FF 0x2A8982FF "QuickSend229", QuicksendEntry.mk 0x1040301D 0x1040301D "QuickSend230", QuicksendEntry.mk 0x20B48FDA 0x20B48FDA "QuickSend231",
  QuicksendEntry.mk 0x5A211F6E 0x5A211F6E "QuickSend232", QuicksendEntry.mk 0x53302C53 0x53302C53 "QuickSend233", QuicksendEntry.mk 0xBD8D5288 0xBD8D5288 "QuickSend234",
  QuicksendEntry.mk 0x252A0972 0x252A0972 "QuickSend235", QuicksendEntry.mk 0xCD7D4293 0xCD7D4293 "QuickSend236", QuicksendEntry.mk 0x9E62CBC9 0x9E62CBC9 "QuickSend237",
  QuicksendEntry.mk 0xB677A770 0xB677A770 "QuickSend238", QuicksendEntry.mk 0xA105A207 0xA105A207 "QuickSend239", QuicksendEntry.mk 0xA58C00AC 0xA58C00AC "QuickSend240",
  QuicksendEntry.mk 0xCAF404AA 0xCAF404AA "QuickSend241", QuicksendEntry.mk 0x666C0021 0x666C0021 "QuickSend242", QuicksendEntry.mk 0xA1783CB2 0xA1783CB2 "QuickSend243",
  QuicksendEntry.mk 0xCB4239B1 0xCB4239B1 "QuickSend244", QuicksendEntry.mk 0x2716300E 0x2716300E "QuickSend245", QuicksendEntry.mk 0xC70AD114 0xC70AD114 "QuickSend246",
  QuicksendEntry.mk 0x64156F94 0x64156F94 "QuickSend247", QuicksendEntry.mk 0x1E0ACFB5 0x1E0ACFB5 "QuickSend248", QuicksendEntry.mk 0xE4D594A5 0xE4D594A5 "QuickSend249",
  QuicksendEntry.mk 0x9E1A7BB0 0x9E1A7BB0 "QuickSend250", QuicksendEntry.mk 0x930C1DA7 0x930C1DA7 "QuickSend251", QuicksendEntry.mk 0x71D15F6D 0x71D15F6D "QuickSend252",
  QuicksendEntry.mk 0x53BE89A1 0x53BE89A1 "QuickSend253", QuicksendEntry.mk 0x42EF010C 0x42EF010C "QuickSend254", QuicksendEntry.mk 0x02BC6F83 0x02BC6F83 "QuickSend255",
  QuicksendEntry.mk 0x0796081B 0x0796081B "QuickSend256", QuicksendEntry.mk 0x7312EE64 0x7312EE64 "QuickSend257", QuicksendEntry.mk 0xD28D871F 0xD28D871F "QuickSend258",
  QuicksendEntry.mk 0xE66332EC 0xE66332EC "QuickSend259", QuicksendEntry.mk 0x40B533DF 0x40B533DF "QuickSend260", QuicksendEntry.mk 0xF00F496B 0xF00F496B "QuickSend261",
  QuicksendEntry.mk 0x167D31D1 0x167D31D1 "QuickSend262", QuicksendEntry.mk 0xA76C1277 0xA76C1277 "QuickSend263", QuicksendEntry.mk 0xC87EF129 0xC87EF129 "QuickSend264",
  QuicksendEntry.mk 0x74DE25C3 0x74DE25C3 "QuickSend265", QuicksendEntry.mk 0xCD20488C 0xCD20488C "QuickSend266", QuicksendEntry.mk 0xC1AE5C4D 0xC1AE5C4D "QuickSend267",
  QuicksendEntry.mk 0xF9CEBF2F 0xF9CEBF2F "QuickSend268", QuicksendEntry.mk 0xC12C9D76 0xC12C9D76 "QuickSend269", QuicksendEntry.mk 0x82E0518B 0x82E0518B "QuickSend270",
  QuicksendEntry.mk 0x2697E5A9 0x2697E5A9 "QuickSend271", QuicksendEntry.mk 0x5C556E04 0x5C556E04 "QuickSend272", QuicksendEntry.mk 0x2054622D 0x2054622D "QuickSend273",
  QuicksendEntry.mk 0xAECB046D 0xAECB046D "QuickSend274", QuicksendEntry.mk 0x59B6EAE4 0x59B6EAE4 "QuickSend275", QuicksendEntry.mk 0xE3707E47 0xE3707E47 "QuickSend276",
  QuicksendEntry.mk 0xB73D4E51 0xB73D4E51 "QuickSend277", QuicksendEntry.mk 0x586A9E50 0x586A9E50 "QuickSend278", QuicksendEntry.mk 0x43470B44 0x43470B44 "QuickSend279",
  QuicksendEntry.mk 0x25BD87AD 0x25BD87AD "QuickSend280", QuicksendEntry.mk 0x2C1F884A 0x2C1F884A "QuickSend281", QuicksendEntry.mk 0x43EF584A 0x43EF584A "QuickSend282",
  QuicksendEntry.mk 0xC0330438 0xC0330438 "QuickSend283", QuicksendEntry.mk 0x84D7D58B 0x84D7D58B "QuickSend284", QuicksendEntry.mk 0x60AA027D 0x60AA027D "QuickSend285",
  QuicksendEntry.mk 0x27EFA296 0x27EFA296 "QuickSend286", QuicksendEntry.mk 0x600B5DE6 0x600B5DE6 "QuickSend287", QuicksendEntry.mk 0x5384B7D6 0x5384B7D6 "QuickSend288",
  QuicksendEntry.mk 0x6E8CCE78 0x6E8CCE78 "QuickSend289", QuicksendEntry.mk 0x48C16041 0x48C16041 "QuickSend290", QuicksendEntry.mk 0x58CC207B 0x58CC207B "QuickSend291",
  QuicksendEntry.mk 0x2B6ED5C9 0x2B6ED5C9 "QuickSend292", QuicksendEntry.mk 0x8481E78A 0x8481E78A "QuickSend293", QuicksendEntry.mk 0xB379357E 0xB379357E "QuickSend294",
  QuicksendEntry.mk 0x87E5C2A6 0x87E5C2A6 "QuickSend295", QuicksendEntry.mk 0x80A56C16 0x80A56C16 "QuickSend296", QuicksendEntry.mk 0xAB2A0180 0xAB2A0180 "QuickSend297",
  QuicksendEntry.mk 0xF1A2B263 0xF1A2B263 "QuickSend298", QuicksendEntry.mk 0x95CF1505 0x95CF1505 "QuickSend299", QuicksendEntry.mk 0x547D83B2 0x547D83B2 "QuickSend300",
  QuicksendEntry.mk 0xB6F06009 0xB6F06009 "QuickSend301", QuicksendEntry.mk 0x79D2A55C 0x79D2A55C "QuickSend302", QuicksendEntry.mk 0x8E323F32 0x8E323F32 "QuickSend303",
  QuicksendEntry.mk 0x6B736076 0x6B736076 "QuickSend304", QuicksendEntry.mk 0x0F7A6A48 0x0F7A6A48 "QuickSend305", QuicksendEntry.mk 0x9AB06A14 0x9AB06A14 "QuickSend306",
  QuicksendEntry.mk 0x5B1FD94C 0x5B1FD94C "QuickSend307", QuicksendEntry.mk 0x9AF24739 0x9AF24739 "QuickSend308", QuicksendEntry.mk 0xE61600E3 0xE61600E3 "QuickSend309",
  QuicksendEntry.mk 0x438F1D16 0x438F1D16 "QuickSend310", QuicksendEntry.mk 0x35E263B1 0x35E263B1 "QuickSend311"
]

/-- The `for` loop of `CScript::IsQuicksended` over the table: the name of
the first entry with `pfx >= begin && pfx <= end`, or `none` when the loop
runs to its end. -/
def QuicksendedLookup : List QuicksendEntry → Nat → Option String
  | [], _ => none
  | e :: rest, pfx =>
    if pfx ≥ e.begin_ ∧ pfx ≤ e.end_ then some e.name
    else QuicksendedLookup rest pfx

/-- The read `ntohl(*(uint32_t*)&data()[off])`: the four bytes at offsets
`off .. off+3` taken as a big-endian unsigned 32-bit integer; `none` when one
of the four bytes lies outside the buffer. -/
def readBE32 (s : Script) (off : Nat) : Option Nat := do
  let b0 ← s[off]?
  let b1 ← s[off + 1]?
  let b2 ← s[off + 2]?
  let b3 ← s[off + 3]?
  pure (b0.val * 2 ^ 24 + b1.val * 2 ^ 16 + b2.val * 2 ^ 8 + b3.val)

/-- Modelled from the spec: the enumeration `txnouttype` of `script/standard.h`
is not among the sources; the specification names the tags of the
output-pattern solver (`PubkeyHash`, `ScriptHash`, `Multisig`, `NonStandard`
and others). -/
inductive txnouttype where
  | TX_NONSTANDARD
  | TX_PUBKEY
  | TX_PUBKEYHASH
  | TX_SCRIPTHASH
  | TX_MULTISIG
  | TX_NULL_DATA
  | TX_ZEROCOINMINT
  deriving DecidableEq, Repr

/-- The branch of `CScript::IsQuicksended` that is taken when the pre-filter
`size() >= 7 && at(0) == OP_DUP` fails: the label `"bare multisig"` when the
flag `fIsBareMultisigStd` is off and the solver reports `TX_MULTISIG`, and
`NULL` otherwise. -/
def IsQuicksended.fallback (Solver : Script → txnouttype) (fIsBareMultisigStd : Bool)
    (s : Script) : Option String :=
  if !fIsBareMultisigStd then
    if Solver s = txnouttype.TX_MULTISIG then some "bare multisig" else none
  else none

/-- The member `CScript::IsQuicksended`.  The output-pattern solver `Solver`
(`script/standard.h`, not among the sources) and the global flag
`fIsBareMultisigStd` are parameters.  The outer `Option` is `none` for an
access outside the buffer; the inner `Option` is the returned `const char*`,
with `none` for `NULL`. -/
def IsQuicksended (Solver : Script → txnouttype) (fIsBareMultisigStd : Bool)
    (s : Script) : Option (Option String) :=
  if s.length ≥ 7 then do
    let b0 ← vectorAt s 0
    if b0.val = OP_DUP then do
      let pfx ← readBE32 s 3
      pure (QuicksendedLookup QuicksendedPrefixes pfx)
    else pure (IsQuicksended.fallback Solver fIsBareMultisigStd s)
  else pure (IsQuicksended.fallback Solver fIsBareMultisigStd s)


/-- The big-endian encoding of an unsigned 32-bit value in four bytes. -/
def encodeBE32 (v : Nat) : Script :=
  [Fin.ofNat (v / 2 ^ 24), Fin.ofNat (v / 2 ^ 16), Fin.ofNat (v / 2 ^ 8), Fin.ofNat v]


/-! ## Opcode names and disassembly -/

/-- Modelled from the spec: `opcodetype` value of `script.h`, a
template-matching pseudo-opcode. -/
abbrev OP_SMALLINTEGER : Nat := 0xfa
/-- Modelled from the spec: `opcodetype` value of `script.h`, a
template-matching pseudo-opcode. -/
abbrev OP_PUBKEYS : Nat := 0xfb
/-- Modelled from the spec: `opcodetype` value of `script.h`, a
template-matching pseudo-opcode. -/
abbrev OP_PUBKEYHASH : Nat := 0xfd
/-- Modelled from the spec: `opcodetype` value of `script.h`, a
template-matching pseudo-opcode. -/
abbrev OP_PUBKEY : Nat := 0xfe

/-- The `case` labels of the `switch` of `GetOpName`, in the order of the
source, each with the string it returns.  Modelled from the spec: the labels
are written with their values in the `opcodetype` enumeration of `script.h`,
which is not among the sources (`OP_0 = 0x00`, `OP_PUSHDATA1 .. OP_16 =
0x4c .. 0x60`, `OP_NOP .. OP_NOP10 = 0x61 .. 0xb9`, `OP_ZEROCOINMINT = 0xc1`,
`OP_ZEROCOINSPEND = 0xc2`, `OP_INVALIDOPCODE = 0xff`). -/
def GetOpName.cases : List (Nat × String) := [
  (0x00, "0"), (0x4c, "OP_PUSHDATA1"), (0x4d, "OP_PUSHDATA2"), (0x4e, "OP_PUSHDATA4"),
  (0x4f, "-1"), (0x50, "OP_RESERVED"), (0x51, "1"), (0x52, "2"),
  (0x53, "3"), (0x54, "4"), (0x55, "5"), (0x56, "6"),
  (0x57, "7"), (0x58, "8"), (0x59, "9"), (0x5a, "10"),
  (0x5b, "11"), (0x5c, "12"), (0x5d, "13"), (0x5e, "14"),
  (0x5f, "15"), (0x60, "16"), (0x61, "OP_NOP"), (0x62, "OP_VER"),
  (0x63, "OP_IF"), (0x64, "OP_NOTIF"), (0x65, "OP_VERIF"), (0x66, "OP_VERNOTIF"),
  (0x67, "OP_ELSE"), (0x68, "OP_ENDIF"), (0x69, "OP_VERIFY"), (0x6a, "OP_RETURN"),
  (0x6b, "OP_TOALTSTACK"), (0x6c, "OP_FROMALTSTACK"), (0x6d, "OP_2DROP"), (0x6e, "OP_2DUP"),
  (0x6f, "OP_3DUP"), (0x70, "OP_2OVER"), (0x71, "OP_2ROT"), (0x72, "OP_2SWAP"),
  (0x73, "OP_IFDUP"), (0x74, "OP_DEPTH"), (0x75, "OP_DROP"), (0x76, "OP_DUP"),
  (0x77, "OP_NIP"), (0x78, "OP_OVER"), (0x79, "OP_PICK"), (0x7a, "OP_ROLL"),
  (0x7b, "OP_ROT"), (0x7c, "OP_SWAP"), (0x7d, "OP_TUCK"), (0x7e, "OP_CAT"),
  (0x7f, "OP_SUBSTR"), (0x80, "OP_LEFT"), (0x81, "OP_RIGHT"), (0x82, "OP_SIZE"),
  (0x83, "OP_INVERT"), (0x84, "OP_AND"), (0x85, "OP_OR"), (0x86, "OP_XOR"),
  (0x87, "OP_EQUAL"), (0x88, "OP_EQUALVERIFY"), (0x89, "OP_RESERVED1"), (0x8a, "OP_RESERVED2"),
  (0x8b, "OP_1ADD"), (0x8c, "OP_1SUB"), (0x8d, "OP_2MUL"), (0x8e, "OP_2DIV"),
  (0x8f, "OP_NEGATE"), (0x90, "OP_ABS"), (0x91, "OP_NOT"), (0x92, "OP_0NOTEQUAL"),
  (0x93, "OP_ADD"), (0x94, "OP_SUB"), (0x95, "OP_MUL"), (0x96, "OP_DIV"),
  (0x97, "OP_MOD"), (0x98, "OP_LSHIFT"), (0x99, "OP_RSHIFT"), (0x9a, "OP_BOOLAND"),
  (0x9b, "OP_BOOLOR"), (0x9c, "OP_NUMEQUAL"), (0x9d, "OP_NUMEQUALVERIFY"), (0x9e, "OP_NUMNOTEQUAL"),
  (0x9f, "OP_LESSTHAN"), (0xa0, "OP_GREATERTHAN"), (0xa1, "OP_LESSTHANOREQUAL"), (0xa2, "OP_GREATERTHANOREQUAL"),
  (0xa3, "OP_MIN"), (0xa4, "OP_MAX"), (0xa5, "OP_WITHIN"), (0xa6, "OP_RIPEMD160"),
  (0xa7, "OP_SHA1"), (0xa8, "OP_SHA256"), (0xa9, "OP_HASH160"), (0xaa, "OP_HASH256"),
  (0xab, "OP_CODESEPARATOR"), (0xac, "OP_CHECKSIG"), (0xad, "OP_CHECKSIGVERIFY"), (0xae, "OP_CHECKMULTISIG"),
  (0xaf, "OP_CHECKMULTISIGVERIFY"), (0xb0, "OP_NOP1"), (0xb1, "OP_NOP2"), (0xb2, "OP_NOP3"),
  (0xb3, "OP_NOP4"), (0xb4, "OP_NOP5"), (0xb5, "OP_NOP6"), (0xb6, "OP_NOP7"),
  (0xb7, "OP_NOP8"), (0xb8, "OP_NOP9"), (0xb9, "OP_NOP10"), (0xc1, "OP_ZEROCOINMINT"),
  (0xc2, "OP_ZEROCOINSPEND"), (0xff, "OP_INVALIDOPCODE")
]

/-- The function `GetOpName`: the string of the matching `case`, and
`"OP_UNKNOWN"` from the `default` branch. -/
def GetOpName (opcode : Nat) : String :=
  match GetOpName.cases.lookup opcode with
  | some name => name
  | none => "OP_UNKNOWN"

/-- The value `Σ vch[i] << 8*i` of a byte vector read as a little-endian
number. -/
def littleEndian : Script → Nat
  | [] => 0
  | b :: rest => b.val + 256 * littleEndian rest

/-- Modelled from the spec: `CScriptNum::set_vch` of `script.h` is not among
the sources; the specification describes the number as a signed little-endian
integer: the bytes are read little-endian, and a set top bit of the last
byte is removed from the result and makes it negative.  The empty vector is
zero. -/
def CScriptNum.set_vch (vch : Script) : Int :=
  match vch.getLast? with
  | none => 0
  | some last =>
    let result := littleEndian vch
    if last.val / 128 = 1 then
      -((result - 0x80 * 2 ^ (8 * (vch.length - 1)) : Nat) : Int)
    else (result : Int)

/-- Modelled from the spec: the constructor `CScriptNum(vch, fRequireMinimal,
nMaxNumSize)` of `script.h` is not among the sources.  It fails with
`scriptnum_error` (here `none`) when the vector is longer than `nMaxNumSize`;
`ValueString` passes `fRequireMinimal = false`, which switches the
minimal-encoding test off. -/
def CScriptNum (vch : Script) (nMaxNumSize : Nat) : Option Int :=
  if vch.length > nMaxNumSize then none else some (CScriptNum.set_vch vch)

/-- Modelled from the spec: `CScriptNum::getint` of `script.h` is not among the
sources; it returns the value clamped to the range of `int`. -/
def CScriptNum.getint (m_value : Int) : Int :=
  if m_value > 2147483647 then 2147483647
  else if m_value < -2147483648 then -2147483648
  else m_value

/-- The sixteen lowercase hexadecimal digits. -/
def hexmap : List Char := "0123456789abcdef".toList

/-- Modelled from the spec: `HexStr` of `utilstrencodings.h` is not among the
sources; the specification describes it as lowercase hexadecimal, two digits
for each byte in order (high nibble first). -/
def HexStr (vch : Script) : String :=
  String.mk
    (vch.flatMap fun b => [hexmap.getD (b.val / 16) '0', hexmap.getD (b.val % 16) '0'])

/-- The function `ValueString` of the anonymous namespace.  The call
`strprintf("%d", n)` (`tinyformat.h`, not among the sources) is modelled by
the decimal numeral of `n`, with a leading `-` for a negative number.  `none`
is a `scriptnum_error` thrown by the constructor of `CScriptNum`, whose
default `nMaxNumSize` is 4. -/
def ValueString (vch : Script) : Option String :=
  if vch.length ≤ 4 then
    (CScriptNum vch 4).map fun num => toString (CScriptNum.getint num)
  else some (HexStr vch)

/-- The ways a call of `CScript::ToString` can end in the model: it returns a
string, an exception leaves it, or the fuel of the loop is used up. -/
inductive ToStringResult where
  | returned (str : String)
  | thrown
  | unfinished
  deriving DecidableEq, Repr

/-- The first statement of the loop body of `CScript::ToString`,
`if (!str.empty()) str += " "`. -/
def ToString.separated (str : String) : String :=
  if str ≠ "" then str ++ " " else str

/-- The loop of `CScript::ToString`: `pc` is the cursor and `str` the string
built so far. -/
def ToString.loop : Nat → Script → String → ToStringResult
  | 0, pc, str => if pc = [] then ToStringResult.returned str else ToStringResult.unfinished
  | fuel + 1, pc, str =>
    if pc = [] then ToStringResult.returned str
    else
      let str1 := ToString.separated str
      match GetOp pc with
      | ReadResult.bad _ => ToStringResult.returned (str1 ++ "[error]")
      | ReadResult.ok opcode vch pc1 =>
        if 0 ≤ opcode ∧ opcode ≤ OP_PUSHDATA4 then
          match ValueString vch with
          | none => ToStringResult.thrown
          | some value => ToString.loop fuel pc1 (str1 ++ value)
        else
          if opcode = OP_ZEROCOINSPEND then
            ToStringResult.returned (str1 ++ GetOpName opcode)
          else ToString.loop fuel pc1 (str1 ++ GetOpName opcode)

/-- The loop of `ToString` entered at cursor `pc` with `str` built so far. -/
def ToString.run (pc : Script) (str : String) : ToStringResult :=
  ToString.loop pc.length pc str

/-- The member `CScript::ToString`: the loop entered at `begin()` with the
empty string. -/
def ToString (s : Script) : ToStringResult := ToString.run s ""

/-- The result of a call of `ToString` with the string `p` put in front of a
returned string. -/
def ToStringResult.prepend (p : String) : ToStringResult → ToStringResult
  | ToStringResult.returned str => ToStringResult.returned (p ++ str)
  | ToStringResult.thrown => ToStringResult.thrown
  | ToStringResult.unfinished => ToStringResult.unfinished

/-- The text `ToString` appends for one decoded token: the value string of the
payload of a push (opcode at most `OP_PUSHDATA4`), the opcode name
otherwise. -/
def renderToken (t : Token) : String :=
  if t.opcode ≤ OP_PUSHDATA4 then (ValueString t.data).getD "" else GetOpName t.opcode


/-- A rendered piece of a disassembly is clean when it is not empty and
contains no space. -/
def CleanPiece (v : String) : Prop := v ≠ "" ∧ ' ' ∉ v.data


/-- The integer a push payload denotes, as the specification words it: the
little-endian magnitude of the bytes with the top bit of the last byte
cleared, negated when that bit is set; the empty payload denotes 0. -/
def signMagnitude (p : Script) : Int :=
  match p.getLast? with
  | none => 0
  | some last =>
    let magnitude := littleEndian (p.dropLast ++ [Fin.ofNat (last.val % 128)])
    if 128 ≤ last.val then -(magnitude : Int) else (magnitude : Int)


/-! ## Checks on the flagged-prefix table that are cheap to evaluate -/

/-- The bit mask with bit `k % p` set for every `k` of the list. -/
def residueMask (p : Nat) : List Nat → Nat
  | [] => 0
  | k :: rest => residueMask p rest ||| 1 <<< (k % p)

/-- Whether the residues modulo `p` of the list are pairwise different and
different from the residues recorded in the mask `m`. -/
def residuesFresh (p : Nat) : Nat → List Nat → Bool
  | _, [] => true
  | m, k :: rest => !(m.testBit (k % p)) && residuesFresh p (m ||| 1 <<< (k % p)) rest

/-- Whether for every `k` of the list the residues of `k + 1` and `k - 1`
modulo `p` are not recorded in the mask `m`. -/
def neighboursFree (p m : Nat) : List Nat → Bool
  | [] => true
  | k :: rest =>
    !(m.testBit ((k + 1) % p)) && !(m.testBit ((k - 1) % p)) && neighboursFree p m rest

/-- Whether every range of the list is a single value `v` with
`1 ≤ v` and `v + 1 < 2^32`. -/
def singlePoints : List QuicksendEntry → Bool
  | [] => true
  | e :: rest => Nat.beq e.begin_ e.end_ && Nat.ble 1 e.begin_ && Nat.blt (e.end_ + 1) (2 ^ 32)
      && singlePoints rest

/-- A number computed from the characters of a name.  Equal names have equal
numbers, so two names with different numbers are different. -/
def nameCode (name : String) : Nat :=
  name.data.foldl (fun a ch => a * 256 + ch.toNat) 0


/-! ## Example scripts -/

/-- A pay-to-script-hash scriptPubKey: `OP_HASH160 0x14 <20 zero bytes> OP_EQUAL`. -/
def exampleP2SH : Script := [0xa9, 0x14] ++ List.replicate 20 0 ++ [0x87]


/-- A 25-byte script of five tokens whose third token is an `OP_PUSHDATA1`
push of 19 bytes: `OP_DUP OP_HASH160 0x4c 0x13 <19 zero bytes> OP_EQUALVERIFY
OP_CHECKSIG`. -/
def exampleFiveTokens : Script :=
  [0x76, 0xa9, 0x4c, 0x13] ++ List.replicate 19 0 ++ [0x88, 0xac]


/-- A redeem script `OP_2 <aa> <bb> <cc> OP_3 OP_CHECKMULTISIG` with one-byte
stand-ins for the keys; its accurate count is 3. -/
def exampleRedeem : Script := [0x52, 0x01, 0xaa, 0x01, 0xbb, 0x01, 0xcc, 0x53, 0xae]

/-- A push-only scriptSig: `OP_0`, a push of the byte `0xac`, and a push of
`exampleRedeem`. -/
def exampleScriptSig : Script := [0x00, 0x01, 0xac] ++ (0x09 :: exampleRedeem)

/-- A scriptSig that is not push-only: `OP_ADD` stands between two pushes of
`exampleRedeem`. -/
def exampleScriptSigAdd : Script :=
  (0x09 :: exampleRedeem) ++ [0x93] ++ (0x09 :: exampleRedeem)

/-- A script of 214748365 `OP_CHECKMULTISIG` bytes. -/
def exampleMultisigRun : Script := List.replicate 214748365 0xae


/-- A pay-to-pubkey-hash script whose hash starts with the flagged prefix
`33 89 58 96` (the first table entry). -/
def exampleFlagged : Script :=
  p2pkhTemplate ([0x33, 0x89, 0x58, 0x96] ++ List.replicate 16 0)

/-- A 7-byte buffer that starts with `OP_DUP` and carries the prefix of the
first table entry at offset 3. -/
def exampleFlaggedShort : Script := [0x76, 0x00, 0x00, 0x33, 0x89, 0x58, 0x96]

/-- A 7-byte buffer that starts with `OP_DUP` and carries the value just below
the first table entry at offset 3. -/
def exampleNotFlagged : Script := [0x76, 0x00, 0x00, 0x33, 0x89, 0x58, 0x95]


/-- A script of four tokens: `OP_0`, a push of `81`, a push of five bytes and
`OP_DUP`. -/
def exampleDisasm : Script := [0x00, 0x01, 0x81, 0x05, 0x01, 0x02, 0x03, 0x04, 0xff, 0x76]


/-- A bare one-of-one multisig script: `OP_1 <33-byte key> OP_1 OP_CHECKMULTISIG`. -/
def exampleBareMultisig : Script :=
  [0x51, 0x21, 0x02] ++ List.replicate 32 0x11 ++ [0x51, 0xae]

/-- A stand-in for the pattern solver of `standard.cpp`, which reports
`TX_MULTISIG` for `exampleBareMultisig`. -/
def exampleSolver (s : Script) : txnouttype :=
  if s = exampleBareMultisig then txnouttype.TX_MULTISIG else txnouttype.TX_NONSTANDARD

/-- A script of 214748364 `OP_CHECKMULTISIG` bytes: its tally,
`20 * 214748364 = 4294967280`, is the largest multiple of 20 below `2^32`. -/
def exampleMultisigShortRun : Script := List.replicate 214748364 0xae

/-- The pair `OP_16 OP_CHECKMULTISIG` repeated 214748365 times: the accurate
tally is `16 * 214748365 = 3435973840`, the conservative one passes `2^32`. -/
def exampleAccurateRun : Script := (List.replicate 214748365 [0x60, 0xae]).flatten


/-- A 25-byte script of three tokens: `OP_DUP OP_HASH160` and a direct push of
22 zero bytes, which occupies bytes 2..24. -/
def exampleThreeTokens : Script := [0x76, 0xa9, 0x16] ++ List.replicate 22 0x00


/-- A 25-byte script of six tokens: `OP_DUP OP_HASH160`, a push of 19 zero
bytes, `OP_EQUALVERIFY OP_CHECKSIG OP_NOP`. -/
def exampleSixTokens : Script :=
  [0x76, 0xa9, 0x13] ++ List.replicate 19 0x00 ++ [0x88, 0xac, 0x61]


/-! ## The token reader: basic facts -/

theorem readPayload_ok_length {opcode nSize : Nat} {pc : Script} {op : Nat} {d rest : Script}
    (h : readPayload opcode nSize pc = ReadResult.ok op d rest) :
    rest.length ≤ pc.length := by
  unfold readPayload at h
  split at h
  · cases h
  · cases h
    simp

theorem readPayload_append {opcode nSize : Nat} {pc : Script} {op : Nat} {d rest : Script}
    (h : readPayload opcode nSize pc = ReadResult.ok op d rest) (T : Script) :
    readPayload opcode nSize (pc ++ T) = ReadResult.ok op d (rest ++ T) := by
  unfold readPayload at h ⊢
  split at h
  · cases h
  · rename_i hlen
    cases h
    have hle : nSize ≤ pc.length := Nat.le_of_not_lt hlen
    have h2 : ¬ (pc ++ T).length < nSize := by
      simp only [List.length_append]; omega
    rw [if_neg h2, List.take_append_of_le_length hle, List.drop_append_of_le_length hle]

/-- A successful read consumes at least one byte. -/
theorem GetOp_ok_length {s : Script} {op : Nat} {d rest : Script}
    (h : GetOp s = ReadResult.ok op d rest) : rest.length < s.length := by
  unfold GetOp at h
  split at h
  · cases h
  · rename_i b pc
    simp only at h
    split at h
    · split at h
      · have := readPayload_ok_length h; simp; omega
      · split at h
        · split at h
          · have := readPayload_ok_length h; simp; omega
          · cases h
        · split at h
          · split at h
            · have := readPayload_ok_length h; simp; omega
            · cases h
          · split at h
            · have := readPayload_ok_length h; simp; omega
            · cases h
    · cases h
      simp

/-- A successful read is not disturbed by bytes appended to the script. -/
theorem GetOp_append {s : Script} {op : Nat} {d rest : Script}
    (h : GetOp s = ReadResult.ok op d rest) (T : Script) :
    GetOp (s ++ T) = ReadResult.ok op d (rest ++ T) := by
  unfold GetOp at h
  split at h
  · cases h
  · rename_i b pc
    simp only at h
    rw [List.cons_append]
    unfold GetOp
    simp only
    split at h
    · rename_i h1
      rw [if_pos h1]
      split at h
      · rename_i h2
        rw [if_pos h2]
        exact readPayload_append h T
      · rename_i h2
        rw [if_neg h2]
        split at h
        · rename_i h3
          rw [if_pos h3]
          split at h
          · exact readPayload_append h T
          · cases h
        · rename_i h3
          rw [if_neg h3]
          split at h
          · rename_i h4
            rw [if_pos h4]
            split at h
            · exact readPayload_append h T
            · cases h
          · rename_i h4
            rw [if_neg h4]
            split at h
            · exact readPayload_append h T
            · cases h
    · rename_i h1
      rw [if_neg h1]
      cases h
      rfl

theorem GetOp_ok_ne_nil {s : Script} {op : Nat} {d rest : Script}
    (h : GetOp s = ReadResult.ok op d rest) : s ≠ [] := by
  intro hs
  subst hs
  cases h

/-- Induction over the tokens of a script: the empty script, a script whose
first token is malformed, and a script whose first token is read
successfully. -/
theorem script_induction {P : Script → Prop} (hnil : P [])
    (hbad : ∀ s r, s ≠ [] → GetOp s = ReadResult.bad r → P s)
    (hok : ∀ s op d rest, GetOp s = ReadResult.ok op d rest → P rest → P s) :
    ∀ s, P s := by
  suffices h : ∀ n, ∀ s : Script, s.length = n → P s from fun s => h s.length s rfl
  intro n
  induction n using Nat.strong_induction_on with
  | _ n ih =>
    intro s hn
    by_cases hs : s = []
    · subst hs; exact hnil
    · cases hg : GetOp s with
      | bad r => exact hbad s r hs hg
      | ok op d rest =>
        have hl := GetOp_ok_length hg
        exact hok s op d rest hg (ih rest.length (by omega) rest rfl)

/-! ## The loops never run out of fuel -/

theorem IsPushOnly_loop_fuel : ∀ (f1 f2 : Nat) (pc : Script),
    pc.length ≤ f1 → pc.length ≤ f2 →
    IsPushOnly.loop f1 pc = IsPushOnly.loop f2 pc := by
  intro f1
  induction f1 with
  | zero =>
    intro f2 pc h1 _
    have hpc : pc = [] := List.length_eq_zero.mp (Nat.le_zero.mp h1)
    subst hpc
    cases f2 <;> simp [IsPushOnly.loop]
  | succ f1 ih =>
    intro f2 pc h1 h2
    cases f2 with
    | zero =>
      have hpc : pc = [] := List.length_eq_zero.mp (Nat.le_zero.mp h2)
      subst hpc
      simp [IsPushOnly.loop]
    | succ f2 =>
      simp only [IsPushOnly.loop]
      split
      · rfl
      · cases hg : GetOp pc with
        | bad r => rfl
        | ok op d pc1 =>
          simp only
          have hl := GetOp_ok_length hg
          split
          · rfl
          · exact ih f2 pc1 (by omega) (by omega)

theorem GetSigOpCount_loop_fuel (acc : Bool) : ∀ (f1 f2 : Nat) (pc : Script) (n last : Nat),
    pc.length ≤ f1 → pc.length ≤ f2 →
    GetSigOpCount.loop acc f1 pc n last = GetSigOpCount.loop acc f2 pc n last := by
  intro f1
  induction f1 with
  | zero =>
    intro f2 pc n last h1 _
    have hpc : pc = [] := List.length_eq_zero.mp (Nat.le_zero.mp h1)
    subst hpc
    cases f2 <;> simp [GetSigOpCount.loop]
  | succ f1 ih =>
    intro f2 pc n last h1 h2
    cases f2 with
    | zero =>
      have hpc : pc = [] := List.length_eq_zero.mp (Nat.le_zero.mp h2)
      subst hpc
      simp [GetSigOpCount.loop]
    | succ f2 =>
      simp only [GetSigOpCount.loop]
      split
      · rfl
      · cases hg : GetOp pc with
        | bad r => rfl
        | ok op d pc1 =>
          simp only
          have hl := GetOp_ok_length hg
          exact ih f2 pc1 _ _ (by omega) (by omega)

theorem GetSigOpCountP2SH_loop_fuel : ∀ (f1 f2 : Nat) (pc data : Script),
    pc.length ≤ f1 → pc.length ≤ f2 →
    GetSigOpCountP2SH.loop f1 pc data = GetSigOpCountP2SH.loop f2 pc data := by
  intro f1
  induction f1 with
  | zero =>
    intro f2 pc data h1 _
    have hpc : pc = [] := List.length_eq_zero.mp (Nat.le_zero.mp h1)
    subst hpc
    cases f2 <;> simp [GetSigOpCountP2SH.loop]
  | succ f1 ih =>
    intro f2 pc data h1 h2
    cases f2 with
    | zero =>
      have hpc : pc = [] := List.length_eq_zero.mp (Nat.le_zero.mp h2)
      subst hpc
      simp [GetSigOpCountP2SH.loop]
    | succ f2 =>
      simp only [GetSigOpCountP2SH.loop]
      split
      · rfl
      · cases hg : GetOp pc with
        | bad r => rfl
        | ok op d pc1 =>
          simp only
          have hl := GetOp_ok_length hg
          split
          · rfl
          · exact ih f2 pc1 _ (by omega) (by omega)

theorem tokens_loop_fuel : ∀ (f1 f2 : Nat) (pc : Script),
    pc.length ≤ f1 → pc.length ≤ f2 →
    tokens.loop f1 pc = tokens.loop f2 pc := by
  intro f1
  induction f1 with
  | zero =>
    intro f2 pc h1 _
    have hpc : pc = [] := List.length_eq_zero.mp (Nat.le_zero.mp h1)
    subst hpc
    cases f2 <;> simp [tokens.loop, GetOp]
  | succ f1 ih =>
    intro f2 pc h1 h2
    cases f2 with
    | zero =>
      have hpc : pc = [] := List.length_eq_zero.mp (Nat.le_zero.mp h2)
      subst hpc
      simp [tokens.loop, GetOp]
    | succ f2 =>
      simp only [tokens.loop]
      cases hg : GetOp pc with
      | bad r => rfl
      | ok op d pc1 =>
        simp only
        have hl := GetOp_ok_length hg
        rw [ih f2 pc1 (by omega) (by omega)]

theorem decodesCompletely_loop_fuel : ∀ (f1 f2 : Nat) (pc : Script),
    pc.length ≤ f1 → pc.length ≤ f2 →
    decodesCompletely.loop f1 pc = decodesCompletely.loop f2 pc := by
  intro f1
  induction f1 with
  | zero =>
    intro f2 pc h1 _
    have hpc : pc = [] := List.length_eq_zero.mp (Nat.le_zero.mp h1)
    subst hpc
    cases f2 <;> simp [decodesCompletely.loop]
  | succ f1 ih =>
    intro f2 pc h1 h2
    cases f2 with
    | zero =>
      have hpc : pc = [] := List.length_eq_zero.mp (Nat.le_zero.mp h2)
      subst hpc
      simp [decodesCompletely.loop]
    | succ f2 =>
      simp only [decodesCompletely.loop]
      split
      · rfl
      · cases hg : GetOp pc with
        | bad r => rfl
        | ok op d pc1 =>
          simp only
          have hl := GetOp_ok_length hg
          exact ih f2 pc1 (by omega) (by omega)

/-! ## One step of each loop -/

theorem IsPushOnly_nil : IsPushOnly [] = true := by
  simp [IsPushOnly, IsPushOnlyFrom, IsPushOnly.loop]

theorem IsPushOnly_bad {s r : Script} (hs : s ≠ []) (hg : GetOp s = ReadResult.bad r) :
    IsPushOnly s = false := by
  cases s with
  | nil => exact absurd rfl hs
  | cons b pc =>
    simp only [IsPushOnly, IsPushOnlyFrom, List.length_cons, IsPushOnly.loop, hg]
    simp

theorem IsPushOnly_ok {s : Script} {op : Nat} {d rest : Script}
    (hg : GetOp s = ReadResult.ok op d rest) :
    IsPushOnly s = if op > OP_16 then false else IsPushOnly rest := by
  have hl := GetOp_ok_length hg
  cases s with
  | nil => cases hg
  | cons b pc =>
    simp only [IsPushOnly, IsPushOnlyFrom, List.length_cons, IsPushOnly.loop, hg]
    simp only [List.length_cons] at hl
    rw [IsPushOnly_loop_fuel pc.length rest.length rest (by omega) (Nat.le_refl _)]
    simp

theorem tokens_nil : tokens [] = [] := by
  simp [tokens, tokens.loop]

theorem tokens_bad {s r : Script} (hg : GetOp s = ReadResult.bad r) : tokens s = [] := by
  cases s with
  | nil => exact tokens_nil
  | cons b pc => simp only [tokens, List.length_cons, tokens.loop, hg]

theorem tokens_ok {s : Script} {op : Nat} {d rest : Script}
    (hg : GetOp s = ReadResult.ok op d rest) :
    tokens s = Token.mk op d :: tokens rest := by
  have hl := GetOp_ok_length hg
  cases s with
  | nil => cases hg
  | cons b pc =>
    simp only [tokens, List.length_cons, tokens.loop, hg]
    simp only [List.length_cons] at hl
    rw [tokens_loop_fuel pc.length rest.length rest (by omega) (Nat.le_refl _)]

theorem decodesCompletely_nil : decodesCompletely [] = true := by
  simp [decodesCompletely, decodesCompletely.loop]

theorem decodesCompletely_bad {s r : Script} (hs : s ≠ [])
    (hg : GetOp s = ReadResult.bad r) : decodesCompletely s = false := by
  cases s with
  | nil => exact absurd rfl hs
  | cons b pc =>
    simp only [decodesCompletely, List.length_cons, decodesCompletely.loop, hg]
    simp

theorem decodesCompletely_ok {s : Script} {op : Nat} {d rest : Script}
    (hg : GetOp s = ReadResult.ok op d rest) :
    decodesCompletely s = decodesCompletely rest := by
  have hl := GetOp_ok_length hg
  cases s with
  | nil => cases hg
  | cons b pc =>
    simp only [decodesCompletely, List.length_cons, decodesCompletely.loop, hg]
    simp only [List.length_cons] at hl
    rw [decodesCompletely_loop_fuel pc.length rest.length rest (by omega) (Nat.le_refl _)]
    simp

theorem GetSigOpCount_run_nil (acc : Bool) (n last : Nat) :
    GetSigOpCount.run acc [] n last = n := by
  simp [GetSigOpCount.run, GetSigOpCount.loop]

theorem GetSigOpCount_run_bad (acc : Bool) {s r : Script} (n last : Nat)
    (hg : GetOp s = ReadResult.bad r) : GetSigOpCount.run acc s n last = n := by
  cases s with
  | nil => exact GetSigOpCount_run_nil acc n last
  | cons b pc =>
    simp only [GetSigOpCount.run, List.length_cons, GetSigOpCount.loop, hg]
    simp

theorem GetSigOpCount_run_ok (acc : Bool) {s : Script} {op : Nat} {d rest : Script}
    (n last : Nat) (hg : GetOp s = ReadResult.ok op d rest) :
    GetSigOpCount.run acc s n last =
      GetSigOpCount.run acc rest (GetSigOpCount.body acc n last op) op := by
  have hl := GetOp_ok_length hg
  cases s with
  | nil => cases hg
  | cons b pc =>
    simp only [GetSigOpCount.run, List.length_cons, GetSigOpCount.loop, hg]
    simp only [List.length_cons] at hl
    rw [GetSigOpCount_loop_fuel acc pc.length rest.length rest _ _ (by omega) (Nat.le_refl _)]
    simp

theorem GetSigOpCountP2SH_run_nil (data : Script) :
    GetSigOpCountP2SH.run [] data = some data := by
  simp [GetSigOpCountP2SH.run, GetSigOpCountP2SH.loop]

theorem GetSigOpCountP2SH_run_bad {s r : Script} (data : Script) (hs : s ≠ [])
    (hg : GetOp s = ReadResult.bad r) : GetSigOpCountP2SH.run s data = none := by
  cases s with
  | nil => exact absurd rfl hs
  | cons b pc =>
    simp only [GetSigOpCountP2SH.run, List.length_cons, GetSigOpCountP2SH.loop, hg]
    simp

theorem GetSigOpCountP2SH_run_ok {s : Script} {op : Nat} {d rest : Script}
    (data : Script) (hg : GetOp s = ReadResult.ok op d rest) :
    GetSigOpCountP2SH.run s data =
      if op > OP_16 then none else GetSigOpCountP2SH.run rest d := by
  have hl := GetOp_ok_length hg
  cases s with
  | nil => cases hg
  | cons b pc =>
    simp only [GetSigOpCountP2SH.run, List.length_cons, GetSigOpCountP2SH.loop, hg]
    simp only [List.length_cons] at hl
    rw [GetSigOpCountP2SH_loop_fuel pc.length rest.length rest _ (by omega) (Nat.le_refl _)]
    simp

/-! ## Scripts that are concatenated at a token boundary, and the token view of the loops -/

theorem IsPushOnly_append {A : Script} (hA : IsPushOnly A = true) (B : Script) :
    IsPushOnly (A ++ B) = IsPushOnly B := by
  revert hA
  induction A using script_induction with
  | hnil => intro _; rfl
  | hbad s r hs hg => intro hA; rw [IsPushOnly_bad hs hg] at hA; cases hA
  | hok s op d rest hg ih =>
    intro hA
    rw [IsPushOnly_ok hg] at hA
    rw [IsPushOnly_ok (GetOp_append hg B)]
    split at hA
    · cases hA
    · rename_i hop
      rw [if_neg hop]
      exact ih hA

theorem IsPushOnly_iff_tokens (s : Script) :
    IsPushOnly s = true ↔
      decodesCompletely s = true ∧ ∀ t ∈ tokens s, t.opcode ≤ OP_16 := by
  induction s using script_induction with
  | hnil => simp [IsPushOnly_nil, decodesCompletely_nil, tokens_nil]
  | hbad s r hs hg => simp [IsPushOnly_bad hs hg, decodesCompletely_bad hs hg]
  | hok s op d rest hg ih =>
    rw [IsPushOnly_ok hg, decodesCompletely_ok hg, tokens_ok hg]
    by_cases hop : op > OP_16
    · simp only [if_pos hop, List.mem_cons, forall_eq_or_imp]
      constructor
      · intro h; cases h
      · rintro ⟨_, h, _⟩; omega
    · simp only [if_neg hop, List.mem_cons, forall_eq_or_imp, ih]
      constructor
      · rintro ⟨h1, h2⟩; exact ⟨h1, by omega, h2⟩
      · rintro ⟨h1, _, h2⟩; exact ⟨h1, h2⟩

theorem tokens_append {A : Script} (hA : decodesCompletely A = true) (B : Script) :
    tokens (A ++ B) = tokens A ++ tokens B := by
  revert hA
  induction A using script_induction with
  | hnil => intro _; simp [tokens_nil]
  | hbad s r hs hg => intro hA; rw [decodesCompletely_bad hs hg] at hA; cases hA
  | hok s op d rest hg ih =>
    intro hA
    rw [decodesCompletely_ok hg] at hA
    rw [tokens_ok (GetOp_append hg B), tokens_ok hg, ih hA]
    rfl

theorem decodesCompletely_append {A : Script} (hA : decodesCompletely A = true) (B : Script) :
    decodesCompletely (A ++ B) = decodesCompletely B := by
  revert hA
  induction A using script_induction with
  | hnil => intro _; rfl
  | hbad s r hs hg => intro hA; rw [decodesCompletely_bad hs hg] at hA; cases hA
  | hok s op d rest hg ih =>
    intro hA
    rw [decodesCompletely_ok hg] at hA
    rw [decodesCompletely_ok (GetOp_append hg B), ih hA]

theorem GetSigOpCountP2SH_run_none_iff (s : Script) : ∀ data : Script,
    GetSigOpCountP2SH.run s data = none ↔ IsPushOnly s = false := by
  induction s using script_induction with
  | hnil => intro data; simp [GetSigOpCountP2SH_run_nil, IsPushOnly_nil]
  | hbad s r hs hg =>
    intro data; simp [GetSigOpCountP2SH_run_bad data hs hg, IsPushOnly_bad hs hg]
  | hok s op d rest hg ih =>
    intro data
    rw [GetSigOpCountP2SH_run_ok data hg, IsPushOnly_ok hg]
    split
    · simp
    · exact ih d

theorem GetSigOpCountP2SH_run_append {S : Script} (hS : IsPushOnly S = true) (T : Script) :
    ∀ data : Script, ∃ data1 : Script,
      GetSigOpCountP2SH.run (S ++ T) data = GetSigOpCountP2SH.run T data1 := by
  revert hS
  induction S using script_induction with
  | hnil => intro _ data; exact ⟨data, rfl⟩
  | hbad s r hs hg => intro hS; rw [IsPushOnly_bad hs hg] at hS; cases hS
  | hok s op d rest hg ih =>
    intro hS data
    rw [IsPushOnly_ok hg] at hS
    rw [GetSigOpCountP2SH_run_ok data (GetOp_append hg T)]
    split at hS
    · cases hS
    · rename_i hop
      rw [if_neg hop]
      exact ih hS d

theorem GetSigOpCount_body_eq (acc : Bool) (n last op : Nat) (hn : n < 2 ^ 32) :
    GetSigOpCount.body acc n last op = (n + sigOpWeight acc (some last) op) % 2 ^ 32 := by
  unfold GetSigOpCount.body sigOpWeight
  by_cases h1 : op = OP_CHECKSIG ∨ op = OP_CHECKSIGVERIFY
  · simp only [if_pos h1]
  · simp only [if_neg h1]
    by_cases h2 : op = OP_CHECKMULTISIG ∨ op = OP_CHECKMULTISIGVERIFY
    · simp only [if_pos h2]
      by_cases h3 : acc = true ∧ last ≥ OP_1 ∧ last ≤ OP_16
      · have h0 : last ≠ OP_0 := by
          have := h3.2.1
          simp only [OP_0, OP_1] at *
          omega
        rw [if_pos h3, if_pos (show acc = true ∧ OP_1 ≤ last ∧ last ≤ OP_16 from h3)]
        simp only [DecodeOP_N, if_neg h0]
        rfl
      · rw [if_neg h3, if_neg (show ¬ (acc = true ∧ OP_1 ≤ last ∧ last ≤ OP_16) from h3)]
    · simp only [if_neg h2, Nat.add_zero]
      exact (Nat.mod_eq_of_lt hn).symm

theorem GetSigOpCount_body_lt (acc : Bool) (n last op : Nat) (hn : n < 2 ^ 32) :
    GetSigOpCount.body acc n last op < 2 ^ 32 := by
  rw [GetSigOpCount_body_eq acc n last op hn]
  exact Nat.mod_lt _ (by norm_num)

theorem GetSigOpCount_run_eq_sum (acc : Bool) (s : Script) : ∀ n last : Nat, n < 2 ^ 32 →
    GetSigOpCount.run acc s n last = (n + sigOpSum acc (some last) (tokens s)) % 2 ^ 32 := by
  induction s using script_induction with
  | hnil =>
    intro n last hn
    rw [GetSigOpCount_run_nil, tokens_nil]
    simp only [sigOpSum, Nat.add_zero]
    exact (Nat.mod_eq_of_lt hn).symm
  | hbad s r hs hg =>
    intro n last hn
    rw [GetSigOpCount_run_bad acc n last hg, tokens_bad hg]
    simp only [sigOpSum, Nat.add_zero]
    exact (Nat.mod_eq_of_lt hn).symm
  | hok s op d rest hg ih =>
    intro n last hn
    rw [GetSigOpCount_run_ok acc n last hg, tokens_ok hg,
      ih _ op (GetSigOpCount_body_lt acc n last op hn), GetSigOpCount_body_eq acc n last op hn]
    simp only [sigOpSum]
    rw [Nat.mod_add_mod, Nat.add_assoc]

theorem sigOpWeight_invalid (acc : Bool) (op : Nat) :
    sigOpWeight acc (some OP_INVALIDOPCODE) op = sigOpWeight acc none op := by
  unfold sigOpWeight
  simp [OP_INVALIDOPCODE, OP_16]

theorem sigOpSum_invalid (acc : Bool) (ts : List Token) :
    sigOpSum acc (some OP_INVALIDOPCODE) ts = sigOpSum acc none ts := by
  cases ts with
  | nil => rfl
  | cons t ts => simp only [sigOpSum, sigOpWeight_invalid]

theorem sigOpWeight_le (acc : Bool) (prev : Option Nat) (op : Nat) :
    sigOpWeight acc prev op ≤ 20 := by
  unfold sigOpWeight
  split
  · omega
  · split
    · cases prev with
      | none => simp
      | some p =>
        simp only
        split
        · rename_i h; simp only [OP_16] at h; omega
        · omega
    · omega

theorem sigOpSum_le (acc : Bool) (ts : List Token) : ∀ prev : Option Nat,
    sigOpSum acc prev ts ≤ 20 * ts.length := by
  induction ts with
  | nil => intro prev; simp [sigOpSum]
  | cons t ts ih =>
    intro prev
    simp only [sigOpSum, List.length_cons]
    have h1 := sigOpWeight_le acc prev t.opcode
    have h2 := ih (some t.opcode)
    omega

theorem tokens_length_le (s : Script) : (tokens s).length ≤ s.length := by
  induction s using script_induction with
  | hnil => simp [tokens_nil]
  | hbad s r hs hg => simp [tokens_bad hg]
  | hok s op d rest hg ih =>
    have hl := GetOp_ok_length hg
    rw [tokens_ok hg]
    simp only [List.length_cons]
    omega

/-! ## Fixed-offset tests and single tokens -/

/-- Closed form of `IsPayToScriptHash`: no access is out of range, and the
result is the conjunction of the four structural tests. -/
theorem IsPayToScriptHash_eq (b : Script) :
    IsPayToScriptHash b = some (decide
      (b.length = 23 ∧ b[0]? = some 0xa9 ∧ b[1]? = some 0x14 ∧ b[22]? = some 0x87)) := by
  unfold IsPayToScriptHash vectorAt
  by_cases hlen : b.length = 23
  · rw [if_pos hlen]
    have h0 : 0 < b.length := by omega
    have h1 : 1 < b.length := by omega
    have h22 : 22 < b.length := by omega
    rw [List.getElem?_eq_getElem h0, List.getElem?_eq_getElem h1, List.getElem?_eq_getElem h22]
    simp only [Option.bind_eq_bind, Option.some_bind, Option.some.injEq, OP_HASH160, OP_EQUAL]
    have e0 : ((169 : Fin 256) : Nat) = 169 := rfl
    have e1 : ((20 : Fin 256) : Nat) = 20 := rfl
    have e22 : ((135 : Fin 256) : Nat) = 135 := rfl
    by_cases c0 : (b[0]).val = 169
    · by_cases c1 : (b[1]).val = 20
      · by_cases c22 : (b[22]).val = 135
        · simp [c0, c1, c22, hlen, Fin.ext_iff, e0, e1, e22]
        · simp [c0, c1, c22, hlen, Fin.ext_iff, e0, e1, e22]
      · simp [c0, c1, hlen, Fin.ext_iff, e0, e1, e22]
    · simp [c0, hlen, Fin.ext_iff, e0, e1, e22]
  · simp [hlen]

theorem GetOp_opcode {b : Byte} (pc : Script) (hb : b.val > OP_PUSHDATA4) :
    GetOp (b :: pc) = ReadResult.ok b.val [] pc := by
  unfold GetOp
  simp only
  rw [if_neg (by omega)]

theorem GetOp_direct {b : Byte} (d T : Script) (hb : b.val < OP_PUSHDATA1)
    (hd : d.length = b.val) : GetOp (b :: (d ++ T)) = ReadResult.ok b.val d T := by
  unfold GetOp
  simp only
  have h1 : b.val ≤ OP_PUSHDATA4 := by simp only [OP_PUSHDATA1, OP_PUSHDATA4] at *; omega
  rw [if_pos h1, if_pos hb]
  unfold readPayload
  rw [if_neg (by simp only [List.length_append]; omega), ← hd]
  simp


/-! ## The normal-payment test, token by token -/

theorem readPayload_ok_opcode {opcode nSize : Nat} {pc : Script} {op : Nat} {d rest : Script}
    (h : readPayload opcode nSize pc = ReadResult.ok op d rest) : op = opcode := by
  unfold readPayload at h
  split at h
  · cases h
  · cases h; rfl

/-- A successful read returns the byte under the cursor as the opcode. -/
theorem GetOp_ok_opcode {x : Byte} {pc : Script} {op : Nat} {d rest : Script}
    (h : GetOp (x :: pc) = ReadResult.ok op d rest) : op = x.val := by
  unfold GetOp at h
  simp only at h
  split at h
  · split at h
    · exact readPayload_ok_opcode h
    · split at h
      · split at h
        · exact readPayload_ok_opcode h
        · cases h
      · split at h
        · split at h
          · exact readPayload_ok_opcode h
          · cases h
        · split at h
          · exact readPayload_ok_opcode h
          · cases h
  · cases h
    rfl

/-- The opcode out-parameter is the byte under the cursor or, after a failed
read, `OP_INVALIDOPCODE`. -/
theorem opcodeRet_cons (x : Byte) (pc : Script) :
    (GetOp (x :: pc)).opcodeRet = x.val ∨ (GetOp (x :: pc)).opcodeRet = OP_INVALIDOPCODE := by
  cases hg : GetOp (x :: pc) with
  | bad r => right; rfl
  | ok op d rest => left; exact GetOp_ok_opcode hg

theorem tokens_cons_inv {s : Script} {t : Token} {ts : List Token}
    (h : tokens s = t :: ts) :
    ∃ rest, GetOp s = ReadResult.ok t.opcode t.data rest ∧ tokens rest = ts := by
  cases hg : GetOp s with
  | bad r => rw [tokens_bad hg] at h; cases h
  | ok op d rest =>
    rw [tokens_ok hg] at h
    injection h with h1 h2
    subst h1
    exact ⟨rest, rfl, h2⟩

theorem eq_nil_of_tokens_nil {s : Script} (hd : decodesCompletely s = true)
    (h : tokens s = []) : s = [] := by
  by_cases hs : s = []
  · exact hs
  · cases hg : GetOp s with
    | bad r => rw [decodesCompletely_bad hs hg] at hd; cases hd
    | ok op d rest => rw [tokens_ok hg] at h; cases h

theorem IsNormalPaymentScript_loop_ok {pc : Script} {op : Nat} {d rest : Script}
    (fuel i : Nat) (hg : GetOp pc = ReadResult.ok op d rest) :
    IsNormalPaymentScript.loop (fuel + 1) i pc =
      if i = 0 ∧ op ≠ OP_DUP then false
      else if i = 1 ∧ op ≠ OP_HASH160 then false
      else if i = 3 ∧ op ≠ OP_EQUALVERIFY then false
      else if i = 4 ∧ op ≠ OP_CHECKSIG then false
      else if i = 5 then false
      else IsNormalPaymentScript.loop fuel (i + 1) rest := by
  simp only [IsNormalPaymentScript.loop, if_neg (GetOp_ok_ne_nil hg), hg,
    ReadResult.opcodeRet, ReadResult.pcRet]

theorem IsNormalPaymentScript_loop_nil (fuel i : Nat) :
    IsNormalPaymentScript.loop fuel i [] = true := by
  cases fuel <;> simp [IsNormalPaymentScript.loop]

theorem IsNormalPaymentScript_of_five {b : Script} {t0 t1 t2 t3 t4 : Token}
    (hlen : b.length = 25) (hd : decodesCompletely b = true)
    (ht : tokens b = [t0, t1, t2, t3, t4]) :
    IsNormalPaymentScript b = true ↔
      t0.opcode = OP_DUP ∧ t1.opcode = OP_HASH160 ∧
      t3.opcode = OP_EQUALVERIFY ∧ t4.opcode = OP_CHECKSIG := by
  obtain ⟨r0, g0, ht⟩ := tokens_cons_inv ht
  obtain ⟨r1, g1, ht⟩ := tokens_cons_inv ht
  obtain ⟨r2, g2, ht⟩ := tokens_cons_inv ht
  obtain ⟨r3, g3, ht⟩ := tokens_cons_inv ht
  obtain ⟨r4, g4, ht⟩ := tokens_cons_inv ht
  rw [decodesCompletely_ok g0, decodesCompletely_ok g1, decodesCompletely_ok g2,
    decodesCompletely_ok g3, decodesCompletely_ok g4] at hd
  have h4 : r4 = [] := eq_nil_of_tokens_nil hd ht
  subst h4
  unfold IsNormalPaymentScript
  rw [if_neg (by rw [hlen]; simp), hlen]
  rw [IsNormalPaymentScript_loop_ok 24 0 g0, IsNormalPaymentScript_loop_ok 23 1 g1,
    IsNormalPaymentScript_loop_ok 22 2 g2, IsNormalPaymentScript_loop_ok 21 3 g3,
    IsNormalPaymentScript_loop_ok 20 4 g4, IsNormalPaymentScript_loop_nil]
  simp

theorem IsNormalPaymentScript_loop_cons (fuel i : Nat) (x : Byte) (pc : Script) :
    IsNormalPaymentScript.loop (fuel + 1) i (x :: pc) =
      if i = 0 ∧ (GetOp (x :: pc)).opcodeRet ≠ OP_DUP then false
      else if i = 1 ∧ (GetOp (x :: pc)).opcodeRet ≠ OP_HASH160 then false
      else if i = 3 ∧ (GetOp (x :: pc)).opcodeRet ≠ OP_EQUALVERIFY then false
      else if i = 4 ∧ (GetOp (x :: pc)).opcodeRet ≠ OP_CHECKSIG then false
      else if i = 5 then false
      else IsNormalPaymentScript.loop fuel (i + 1) (GetOp (x :: pc)).pcRet := by
  simp only [IsNormalPaymentScript.loop, if_neg (List.cons_ne_nil x pc)]

/-- A byte under the cursor whose read leaves a non-push opcode `op` in the
out-parameter is that opcode, read as a one-byte token. -/
theorem GetOp_of_opcodeRet {x : Byte} {pc : Script} {op : Nat}
    (h : (GetOp (x :: pc)).opcodeRet = op) (h1 : op > OP_PUSHDATA4)
    (h2 : op ≠ OP_INVALIDOPCODE) :
    x.val = op ∧ GetOp (x :: pc) = ReadResult.ok op [] pc := by
  rcases opcodeRet_cons x pc with h0 | h0
  · rw [h0] at h
    subst h
    exact ⟨rfl, GetOp_opcode pc h1⟩
  · rw [h0] at h
    exact absurd h.symm h2

theorem IsNormalPaymentScript_head {b : Script} (h : IsNormalPaymentScript b = true) :
    b.length = 25 ∧ b[0]? = some 0x76 ∧ b[1]? = some 0xa9 := by
  unfold IsNormalPaymentScript at h
  by_cases hlen : b.length = 25
  · rw [if_neg (by rw [hlen]; simp), hlen] at h
    refine ⟨hlen, ?_⟩
    match b, hlen with
    | x0 :: x1 :: pc, hlen =>
      rw [IsNormalPaymentScript_loop_cons 24 0 x0 (x1 :: pc)] at h
      by_cases c0 : (GetOp (x0 :: x1 :: pc)).opcodeRet = OP_DUP
      · obtain ⟨e0, g0⟩ := GetOp_of_opcodeRet c0 (by decide) (by decide)
        simp only [g0, ReadResult.opcodeRet, ReadResult.pcRet] at h
        rw [IsNormalPaymentScript_loop_cons 23 1 x1 pc] at h
        by_cases c1 : (GetOp (x1 :: pc)).opcodeRet = OP_HASH160
        · obtain ⟨e1, g1⟩ := GetOp_of_opcodeRet c1 (by decide) (by decide)
          have f0 : x0 = 0x76 := Fin.ext e0
          have f1 : x1 = 0xa9 := Fin.ext e1
          simp [f0, f1]
        · simp [c1] at h
      · simp [c0] at h
  · rw [if_pos hlen] at h
    cases h

/-- The opcode out-parameter differs from a genuine opcode `op` whenever the
byte under the cursor does. -/
theorem opcodeRet_ne {x : Byte} (pc : Script) {op : Nat} (hx : x.val ≠ op)
    (hop : op ≠ OP_INVALIDOPCODE) : (GetOp (x :: pc)).opcodeRet ≠ op := by
  rcases opcodeRet_cons x pc with h | h
  · rw [h]; exact hx
  · rw [h]; exact fun e => hop e.symm

theorem IsNormalPaymentScript_mutated (h : Script) (hh : h.length = 20) (i : Nat) (v : Byte)
    (hi : i = 0 ∨ i = 1 ∨ i = 23 ∨ i = 24) (hv : (p2pkhTemplate h)[i]? ≠ some v) :
    IsNormalPaymentScript ((p2pkhTemplate h).set i v) = false := by
  have hlen : ((p2pkhTemplate h).set i v).length = 25 := by simp [p2pkhTemplate, hh]
  have g0 : ∀ pc : Script, GetOp ((0x76 : Byte) :: pc) = ReadResult.ok 0x76 [] pc :=
    fun pc => GetOp_opcode pc (by decide)
  have g1 : ∀ pc : Script, GetOp ((0xa9 : Byte) :: pc) = ReadResult.ok 0xa9 [] pc :=
    fun pc => GetOp_opcode pc (by decide)
  have g2 : ∀ T : Script, GetOp ((0x14 : Byte) :: (h ++ T)) = ReadResult.ok 0x14 h T :=
    fun T => GetOp_direct h T (by decide) (by rw [hh]; rfl)
  have g3 : ∀ pc : Script, GetOp ((0x88 : Byte) :: pc) = ReadResult.ok 0x88 [] pc :=
    fun pc => GetOp_opcode pc (by decide)
  unfold IsNormalPaymentScript
  rw [if_neg (by rw [hlen]; simp), hlen]
  rcases hi with rfl | rfl | rfl | rfl
  · have ht : (p2pkhTemplate h)[0]? = some 0x76 := rfl
    have hne : v.val ≠ OP_DUP := by
      intro e
      have e1 : v = 0x76 := Fin.ext e
      exact hv (by rw [ht, e1])
    have e : (p2pkhTemplate h).set 0 v = v :: 0xa9 :: 0x14 :: (h ++ [0x88, 0xac]) := by
      simp [p2pkhTemplate]
    rw [e, IsNormalPaymentScript_loop_cons 24 0]
    simp [opcodeRet_ne _ hne (by decide)]
  · have ht : (p2pkhTemplate h)[1]? = some 0xa9 := rfl
    have hne : v.val ≠ OP_HASH160 := by
      intro e
      have e1 : v = 0xa9 := Fin.ext e
      exact hv (by rw [ht, e1])
    have e : (p2pkhTemplate h).set 1 v = 0x76 :: v :: 0x14 :: (h ++ [0x88, 0xac]) := by
      simp [p2pkhTemplate]
    rw [e, IsNormalPaymentScript_loop_ok 24 0 (g0 _), IsNormalPaymentScript_loop_cons 23 1]
    simp [opcodeRet_ne _ hne (by decide)]
  · have ht : (p2pkhTemplate h)[23]? = some 0x88 := by
      unfold p2pkhTemplate
      rw [List.getElem?_append_right (by simp [hh])]
      simp [hh]
    have hne : v.val ≠ OP_EQUALVERIFY := by
      intro e
      have e1 : v = 0x88 := Fin.ext e
      exact hv (by rw [ht, e1])
    have e : (p2pkhTemplate h).set 23 v = 0x76 :: 0xa9 :: 0x14 :: (h ++ [v, 0xac]) := by
      simp [p2pkhTemplate, List.set_append, hh]
    rw [e, IsNormalPaymentScript_loop_ok 24 0 (g0 _), IsNormalPaymentScript_loop_ok 23 1 (g1 _),
      IsNormalPaymentScript_loop_ok 22 2 (g2 _), IsNormalPaymentScript_loop_cons 21 3]
    simp [opcodeRet_ne _ hne (by decide)]
  · have ht : (p2pkhTemplate h)[24]? = some 0xac := by
      unfold p2pkhTemplate
      rw [List.getElem?_append_right (by simp [hh])]
      simp [hh]
    have hne : v.val ≠ OP_CHECKSIG := by
      intro e
      have e1 : v = 0xac := Fin.ext e
      exact hv (by rw [ht, e1])
    have e : (p2pkhTemplate h).set 24 v = 0x76 :: 0xa9 :: 0x14 :: (h ++ [0x88, v]) := by
      simp [p2pkhTemplate, List.set_append, hh]
    rw [e, IsNormalPaymentScript_loop_ok 24 0 (g0 _), IsNormalPaymentScript_loop_ok 23 1 (g1 _),
      IsNormalPaymentScript_loop_ok 22 2 (g2 _), IsNormalPaymentScript_loop_ok 21 3 (g3 _),
      IsNormalPaymentScript_loop_cons 20 4]
    simp [opcodeRet_ne _ hne (by decide)]


/-! ## Pay-to-script-hash accounting and the modular tally -/

theorem pushTokenPayload_some {t R : Script} (h : pushTokenPayload t = some R) :
    ∃ op, GetOp t = ReadResult.ok op R [] ∧ op ≤ OP_16 := by
  unfold pushTokenPayload at h
  split at h
  · rename_i op d hg
    split at h
    · rename_i hop
      cases h
      exact ⟨op, hg, hop⟩
    · cases h
  · cases h

theorem IsPayToScriptHash_total (b : Script) :
    IsPayToScriptHash b = some true ∨ IsPayToScriptHash b = some false := by
  rw [IsPayToScriptHash_eq]
  by_cases h : b.length = 23 ∧ b[0]? = some 0xa9 ∧ b[1]? = some 0x14 ∧ b[22]? = some 0x87
  · left; simp [h]
  · right; simp [h]

theorem GetSigOpCount_eq_sumMod (s : Script) (acc : Bool) :
    GetSigOpCount s acc = sigOpSum acc none (tokens s) % 2 ^ 32 := by
  unfold GetSigOpCount
  rw [GetSigOpCount_run_eq_sum acc s 0 OP_INVALIDOPCODE (by norm_num), sigOpSum_invalid,
    Nat.zero_add]

theorem tokens_replicate_opcode (x : Byte) (hx : x.val > OP_PUSHDATA4) (k : Nat) :
    tokens (List.replicate k x) = List.replicate k (Token.mk x.val []) := by
  induction k with
  | zero => exact tokens_nil
  | succ k ih =>
    rw [List.replicate_succ, tokens_ok (GetOp_opcode _ hx), ih, List.replicate_succ]

theorem sigOpSum_replicate_multisig (acc : Bool) (k : Nat) (prev : Option Nat)
    (hp : prev = none ∨ prev = some OP_CHECKMULTISIG) :
    sigOpSum acc prev (List.replicate k (Token.mk OP_CHECKMULTISIG [])) = 20 * k := by
  induction k generalizing prev with
  | zero => rfl
  | succ k ih =>
    rw [List.replicate_succ]
    simp only [sigOpSum]
    rw [ih (some OP_CHECKMULTISIG) (Or.inr rfl)]
    have hw : sigOpWeight acc prev OP_CHECKMULTISIG = 20 := by
      rcases hp with rfl | rfl <;> simp [sigOpWeight, OP_CHECKMULTISIG, OP_16]
    rw [hw]
    omega

theorem IsPushOnly_join (ts : List Script) (h : ∀ t ∈ ts, (pushTokenPayload t).isSome = true) :
    IsPushOnly ts.flatten = true := by
  induction ts with
  | nil => exact IsPushOnly_nil
  | cons t ts ih =>
    rw [List.flatten_cons]
    have ht := h t (List.mem_cons_self t ts)
    obtain ⟨R, hR⟩ := Option.isSome_iff_exists.mp ht
    obtain ⟨op, hg, hop⟩ := pushTokenPayload_some hR
    have h1 : IsPushOnly t = true := by
      rw [IsPushOnly_ok hg, if_neg (by omega)]
      exact IsPushOnly_nil
    rw [IsPushOnly_append h1]
    exact ih (fun u hu => h u (List.mem_cons_of_mem t hu))

/-- The loop of `IsNormalPaymentScript` leaves by a `return` before its
counter exceeds 5, so six units of fuel are as good as any larger amount. -/
theorem IsNormalPaymentScript_loop_fuel : ∀ (f1 f2 i : Nat) (pc : Script),
    i ≤ 5 → 6 - i ≤ f1 → 6 - i ≤ f2 →
    IsNormalPaymentScript.loop f1 i pc = IsNormalPaymentScript.loop f2 i pc := by
  intro f1
  induction f1 with
  | zero => intro f2 i pc hi h1 _; omega
  | succ f1 ih =>
    intro f2 i pc hi h1 h2
    cases f2 with
    | zero => omega
    | succ f2 =>
      simp only [IsNormalPaymentScript.loop]
      split
      · rfl
      · split
        · rfl
        · split
          · rfl
          · split
            · rfl
            · split
              · rfl
              · split
                · rfl
                · rename_i h5
                  exact ih f2 (i + 1) _ (by omega) (by omega) (by omega)


/-! ## The flagged-prefix table -/

theorem testBit_one_shiftLeft (r j : Nat) : (1 <<< r).testBit j = decide (r = j) := by
  rw [Nat.one_shiftLeft, Nat.testBit_two_pow]

theorem residuesFresh_sound (p : Nat) (keys : List Nat) : ∀ m : Nat,
    residuesFresh p m keys = true →
    (∀ k ∈ keys, m.testBit (k % p) = false) ∧ keys.Pairwise (fun a b => a ≠ b) := by
  induction keys with
  | nil => intro m _; simp
  | cons k rest ih =>
    intro m h
    simp only [residuesFresh, Bool.and_eq_true, Bool.not_eq_true'] at h
    obtain ⟨h1, h2⟩ := ih _ h.2
    have hrest : ∀ k1 ∈ rest, m.testBit (k1 % p) = false ∧ k % p ≠ k1 % p := by
      intro k1 hk1
      have := h1 k1 hk1
      rw [Nat.testBit_or, testBit_one_shiftLeft] at this
      simp only [Bool.or_eq_false_iff, decide_eq_false_iff_not] at this
      exact this
    constructor
    · intro k1 hk1
      rcases List.mem_cons.mp hk1 with e | e
      · rw [e]; exact h.1
      · exact (hrest k1 e).1
    · refine List.Pairwise.cons ?_ h2
      intro k1 hk1 e
      exact (hrest k1 hk1).2 (by rw [e])

theorem residueMask_mem (p : Nat) (keys : List Nat) (k : Nat) (hk : k ∈ keys) :
    (residueMask p keys).testBit (k % p) = true := by
  induction keys with
  | nil => cases hk
  | cons k0 rest ih =>
    simp only [residueMask, Nat.testBit_or, testBit_one_shiftLeft, Bool.or_eq_true,
      decide_eq_true_eq]
    rcases List.mem_cons.mp hk with e | e
    · right; rw [e]
    · left; exact ih e

theorem neighboursFree_sound (p : Nat) (keys all : List Nat) :
    neighboursFree p (residueMask p all) keys = true →
    ∀ k ∈ keys, k + 1 ∉ all ∧ k - 1 ∉ all := by
  induction keys with
  | nil => intro _ k hk; cases hk
  | cons k0 rest ih =>
    intro h k hk
    simp only [neighboursFree, Bool.and_eq_true, Bool.not_eq_true'] at h
    rcases List.mem_cons.mp hk with e | e
    · subst e
      constructor
      · intro hm
        have := residueMask_mem p all _ hm
        rw [h.1.1] at this
        cases this
      · intro hm
        have := residueMask_mem p all _ hm
        rw [h.1.2] at this
        cases this
    · exact ih h.2 k e

theorem singlePoints_sound (T : List QuicksendEntry) (h : singlePoints T = true) :
    ∀ e ∈ T, e.begin_ = e.end_ ∧ 1 ≤ e.begin_ ∧ e.end_ + 1 < 2 ^ 32 := by
  induction T with
  | nil => intro e he; cases he
  | cons e0 rest ih =>
    intro e he
    simp only [singlePoints, Bool.and_eq_true] at h
    rcases List.mem_cons.mp he with e1 | e1
    · rw [e1]
      have h3 : (e0.end_ + 1).succ ≤ 2 ^ 32 := Nat.le_of_ble_eq_true h.1.2
      exact ⟨Nat.eq_of_beq_eq_true h.1.1.1, Nat.le_of_ble_eq_true h.1.1.2, by omega⟩
    · exact ih h.2 e e1

theorem QuicksendedLookup_miss (T : List QuicksendEntry) (v : Nat)
    (hs : ∀ e ∈ T, e.begin_ = e.end_) (hv : v ∉ T.map QuicksendEntry.begin_) :
    QuicksendedLookup T v = none := by
  induction T with
  | nil => rfl
  | cons e0 rest ih =>
    have h0 := hs e0 (List.mem_cons_self _ _)
    have hne : v ≠ e0.begin_ := fun e => hv (by simp [e])
    have hc : ¬ (v ≥ e0.begin_ ∧ v ≤ e0.end_) := by omega
    simp only [QuicksendedLookup, if_neg hc]
    exact ih (fun e he => hs e (List.mem_cons_of_mem _ he))
      (fun hm => hv (by simp only [List.map_cons]; exact List.mem_cons_of_mem _ hm))

theorem QuicksendedLookup_hit (T : List QuicksendEntry)
    (hs : ∀ e ∈ T, e.begin_ = e.end_)
    (hd : (T.map QuicksendEntry.begin_).Pairwise (fun a b => a ≠ b)) :
    ∀ e ∈ T, QuicksendedLookup T e.begin_ = some e.name := by
  induction T with
  | nil => intro e he; cases he
  | cons e0 rest ih =>
    intro e he
    have h0 := hs e0 (List.mem_cons_self _ _)
    simp only [List.map_cons, List.pairwise_cons] at hd
    rcases List.mem_cons.mp he with e1 | e1
    · subst e1
      have hc : e.begin_ ≥ e.begin_ ∧ e.begin_ ≤ e.end_ := by omega
      simp only [QuicksendedLookup, if_pos hc]
    · have hne : e0.begin_ ≠ e.begin_ := hd.1 _ (List.mem_map_of_mem _ e1)
      have hc : ¬ (e.begin_ ≥ e0.begin_ ∧ e.begin_ ≤ e0.end_) := by omega
      simp only [QuicksendedLookup, if_neg hc]
      exact ih (fun e2 he2 => hs e2 (List.mem_cons_of_mem _ he2)) hd.2 e e1

theorem QuicksendedPrefixes_fresh :
    residuesFresh 18450 0 (QuicksendedPrefixes.map QuicksendEntry.begin_) = true := by
  decide!

theorem QuicksendedPrefixes_neighboursFree :
    neighboursFree 18450 (residueMask 18450 (QuicksendedPrefixes.map QuicksendEntry.begin_))
      (QuicksendedPrefixes.map QuicksendEntry.begin_) = true := by
  decide!

theorem QuicksendedPrefixes_singlePoints : singlePoints QuicksendedPrefixes = true := by
  decide!

/-- Looking up the `begin` value of a table entry finds that entry first. -/
theorem QuicksendedPrefixes_own_label :
    ∀ e ∈ QuicksendedPrefixes,
      QuicksendedLookup QuicksendedPrefixes e.begin_ = some e.name :=
  QuicksendedLookup_hit QuicksendedPrefixes
    (fun e he => (singlePoints_sound _ QuicksendedPrefixes_singlePoints e he).1)
    (residuesFresh_sound 18450 _ 0 QuicksendedPrefixes_fresh).2

/-- The values just below and just above every range of the table lie in no
range of the table, and are unsigned 32-bit values. -/
theorem QuicksendedPrefixes_neighbours :
    ∀ e ∈ QuicksendedPrefixes,
      QuicksendedLookup QuicksendedPrefixes (e.begin_ - 1) = none ∧
      QuicksendedLookup QuicksendedPrefixes (e.end_ + 1) = none ∧
      1 ≤ e.begin_ ∧ e.begin_ ≤ e.end_ ∧ e.end_ + 1 < 2 ^ 32 := by
  intro e he
  have hs := singlePoints_sound _ QuicksendedPrefixes_singlePoints
  have hn := neighboursFree_sound 18450 _ _ QuicksendedPrefixes_neighboursFree e.begin_
    (List.mem_map_of_mem _ he)
  obtain ⟨h1, h2, h3⟩ := hs e he
  refine ⟨?_, ?_, h2, by omega, h3⟩
  · exact QuicksendedLookup_miss _ _ (fun e1 he1 => (hs e1 he1).1) hn.2
  · rw [← h1]
    exact QuicksendedLookup_miss _ _ (fun e1 he1 => (hs e1 he1).1) hn.1

theorem QuicksendedPrefixes_length : QuicksendedPrefixes.length = 311 := by
  decide!

theorem QuicksendedLookup_eq_find (l : List QuicksendEntry) (v : Nat) :
    QuicksendedLookup l v =
      (l.find? (fun e => decide (e.begin_ ≤ v ∧ v ≤ e.end_))).map QuicksendEntry.name := by
  induction l with
  | nil => rfl
  | cons e rest ih =>
    simp only [QuicksendedLookup, List.find?_cons]
    by_cases h : e.begin_ ≤ v ∧ v ≤ e.end_
    · simp [h]
    · simp [h, ih]

theorem readBE32_eq (s : Script) (h : 7 ≤ s.length) :
    readBE32 s 3 = some (s[3].val * 2 ^ 24 + s[4].val * 2 ^ 16 + s[5].val * 2 ^ 8 + s[6].val) := by
  unfold readBE32
  simp [List.getElem?_eq_getElem, show 3 < s.length by omega, show 4 < s.length by omega,
    show 5 < s.length by omega, show 6 < s.length by omega]

theorem IsQuicksended_prefilter (Solver : Script → txnouttype) (flag : Bool) (s : Script)
    (hlen : 7 ≤ s.length) (h0 : s[0]? = some 0x76) :
    IsQuicksended Solver flag s = some (QuicksendedLookup QuicksendedPrefixes
      (s[3].val * 2 ^ 24 + s[4].val * 2 ^ 16 + s[5].val * 2 ^ 8 + s[6].val)) := by
  unfold IsQuicksended vectorAt
  rw [if_pos hlen, h0, readBE32_eq s hlen]
  rfl

theorem prefix_of_encodeBE32 (s : Script) (v : Nat) (hlen : 7 ≤ s.length) (hv : v < 2 ^ 32)
    (h : (s.drop 3).take 4 = encodeBE32 v) :
    s[3].val * 2 ^ 24 + s[4].val * 2 ^ 16 + s[5].val * 2 ^ 8 + s[6].val = v := by
  have e0 := congrArg (fun l : Script => l[0]?) h
  have e1 := congrArg (fun l : Script => l[1]?) h
  have e2 := congrArg (fun l : Script => l[2]?) h
  have e3 := congrArg (fun l : Script => l[3]?) h
  simp only [List.getElem?_take, List.getElem?_drop, encodeBE32] at e0 e1 e2 e3
  simp [List.getElem?_eq_getElem, show 3 < s.length by omega, show 4 < s.length by omega,
    show 5 < s.length by omega, show 6 < s.length by omega] at e0 e1 e2 e3
  rw [e0, e1, e2, e3]
  simp only [Fin.ofNat, Fin.val_mk]
  omega


/-! ## Rendered pieces are not empty and contain no space -/

theorem digitChar_ne_space (n : Nat) : Nat.digitChar (n % 10) ≠ ' ' := by
  have h : ∀ d : Fin 10, Nat.digitChar d.val ≠ ' ' := by decide
  exact h ⟨n % 10, Nat.mod_lt n (by decide)⟩

theorem toDigitsCore_no_space : ∀ (fuel n : Nat) (ds : List Char),
    ' ' ∉ ds → ' ' ∉ Nat.toDigitsCore 10 fuel n ds := by
  intro fuel
  induction fuel with
  | zero => intro n ds h; simpa [Nat.toDigitsCore] using h
  | succ fuel ih =>
    intro n ds h
    simp only [Nat.toDigitsCore]
    have h1 : ' ' ∉ Nat.digitChar (n % 10) :: ds := by
      intro hm
      rcases List.mem_cons.mp hm with e | e
      · exact digitChar_ne_space _ e.symm
      · exact h e
    split
    · exact h1
    · exact ih _ _ h1

theorem toDigitsCore_ne_nil : ∀ (fuel n : Nat) (ds : List Char),
    ds ≠ [] ∨ 0 < fuel → Nat.toDigitsCore 10 fuel n ds ≠ [] := by
  intro fuel
  induction fuel with
  | zero =>
    intro n ds h
    rcases h with h | h
    · simpa [Nat.toDigitsCore] using h
    · omega
  | succ fuel ih =>
    intro n ds _
    simp only [Nat.toDigitsCore]
    split
    · simp
    · exact ih _ _ (Or.inl (by simp))

theorem natRepr_clean (n : Nat) : CleanPiece (toString n) := by
  constructor
  · intro h
    have h1 := congrArg String.data h
    exact toDigitsCore_ne_nil (n + 1) n [] (Or.inr (by omega)) h1
  · exact toDigitsCore_no_space (n + 1) n [] (by simp)

theorem intToString_clean (i : Int) : CleanPiece (toString i) := by
  cases i with
  | ofNat m => exact natRepr_clean m
  | negSucc m =>
    have h := natRepr_clean (m + 1)
    show CleanPiece ("-" ++ toString (m + 1))
    constructor
    · intro e
      have e1 := congrArg String.data e
      simp [String.data_append] at e1
    · intro e
      rw [String.data_append] at e
      rcases List.mem_append.mp e with e | e
      · revert e; decide
      · exact h.2 e

theorem hexmap_no_space (n : Nat) : hexmap.getD n '0' ≠ ' ' := by
  unfold hexmap
  rcases Nat.lt_or_ge n 16 with h | h
  · interval_cases n <;> decide
  · rw [List.getD_eq_default _ _ (by simpa using h)]
    decide

theorem HexStr_clean (vch : Script) (h : vch ≠ []) : CleanPiece (HexStr vch) := by
  constructor
  · intro e
    have e1 := congrArg String.data e
    cases vch with
    | nil => exact h rfl
    | cons b rest => simp [HexStr] at e1
  · intro e
    simp only [HexStr, List.mem_flatMap] at e
    obtain ⟨b, _, hb⟩ := e
    simp only [List.mem_cons, List.mem_singleton] at hb
    rcases hb with hb | hb | hb
    · exact hexmap_no_space _ hb.symm
    · exact hexmap_no_space _ hb.symm
    · cases hb

theorem ValueString_clean (vch : Script) : ∃ v, ValueString vch = some v ∧ CleanPiece v := by
  unfold ValueString
  by_cases h : vch.length ≤ 4
  · rw [if_pos h]
    simp only [CScriptNum, if_neg (Nat.not_lt.mpr h), Option.map_some']
    exact ⟨_, rfl, intToString_clean _⟩
  · rw [if_neg h]
    refine ⟨_, rfl, HexStr_clean vch ?_⟩
    intro e
    rw [e] at h
    simp at h

theorem GetOpName_lookup_mem {k : Nat} {v : String} : ∀ {l : List (Nat × String)},
    l.lookup k = some v → (k, v) ∈ l := by
  intro l
  induction l with
  | nil => intro h; cases h
  | cons p rest ih =>
    intro h
    obtain ⟨k0, v0⟩ := p
    simp only [List.lookup] at h
    split at h
    · rename_i heq
      cases h
      have : k = k0 := by simpa using heq
      rw [this]
      exact List.mem_cons_self _ _
    · exact List.mem_cons_of_mem _ (ih h)

theorem GetOpName_lookup_none {k : Nat} : ∀ {l : List (Nat × String)},
    k ∉ l.map Prod.fst → l.lookup k = none := by
  intro l
  induction l with
  | nil => intro _; rfl
  | cons p rest ih =>
    intro h
    obtain ⟨k0, v0⟩ := p
    simp only [List.map_cons, List.mem_cons, not_or] at h
    simp only [List.lookup]
    split
    · rename_i heq
      exact absurd (by simpa using heq) h.1
    · exact ih h.2

theorem GetOpName_cases_clean :
    ∀ p ∈ GetOpName.cases, p.2 ≠ "" ∧ ' ' ∉ p.2.data := by
  decide!

theorem GetOpName_cases_keys :
    ∀ p ∈ GetOpName.cases, p.1 ≤ 0xb9 ∨ p.1 = 0xc1 ∨ p.1 = 0xc2 ∨ p.1 = 0xff := by
  decide!

theorem GetOpName_clean (n : Nat) : GetOpName n ≠ "" ∧ ' ' ∉ (GetOpName n).data := by
  unfold GetOpName
  cases h : GetOpName.cases.lookup n with
  | none => constructor <;> decide
  | some v => exact GetOpName_cases_clean _ (GetOpName_lookup_mem h)

theorem GetOpName_clean_byte :
    ∀ x : Byte, GetOpName x.val ≠ "" ∧ ' ' ∉ (GetOpName x.val).data :=
  fun x => GetOpName_clean x.val

theorem GetOpName_default {n : Nat} (h : n ∉ GetOpName.cases.map Prod.fst) :
    GetOpName n = "OP_UNKNOWN" := by
  unfold GetOpName
  rw [GetOpName_lookup_none h]

theorem GetOpName_unassigned {n : Nat}
    (h : (0xba ≤ n ∧ n ≤ 0xc0) ∨ (0xc3 ≤ n ∧ n ≤ 0xfe)) : GetOpName n = "OP_UNKNOWN" := by
  apply GetOpName_default
  intro hm
  obtain ⟨p, hp, e⟩ := List.mem_map.mp hm
  have := GetOpName_cases_keys p hp
  omega

/-! ## The disassembly loop -/

theorem ToString_loop_fuel : ∀ (f1 f2 : Nat) (pc : Script) (str : String),
    pc.length ≤ f1 → pc.length ≤ f2 →
    ToString.loop f1 pc str = ToString.loop f2 pc str := by
  intro f1
  induction f1 with
  | zero =>
    intro f2 pc str h1 _
    have hpc : pc = [] := List.length_eq_zero.mp (Nat.le_zero.mp h1)
    subst hpc
    cases f2 <;> simp [ToString.loop]
  | succ f1 ih =>
    intro f2 pc str h1 h2
    cases f2 with
    | zero =>
      have hpc : pc = [] := List.length_eq_zero.mp (Nat.le_zero.mp h2)
      subst hpc
      simp [ToString.loop]
    | succ f2 =>
      simp only [ToString.loop]
      split
      · rfl
      · cases hg : GetOp pc with
        | bad r => rfl
        | ok op d pc1 =>
          simp only
          have hl := GetOp_ok_length hg
          split
          · cases ValueString d with
            | none => rfl
            | some v => exact ih f2 pc1 _ (by omega) (by omega)
          · split
            · rfl
            · exact ih f2 pc1 _ (by omega) (by omega)

theorem ToString_run_nil (str : String) :
    ToString.run [] str = ToStringResult.returned str := by
  simp [ToString.run, ToString.loop]

theorem ToString_run_bad {s r : Script} (str : String) (hs : s ≠ [])
    (hg : GetOp s = ReadResult.bad r) :
    ToString.run s str = ToStringResult.returned (ToString.separated str ++ "[error]") := by
  cases s with
  | nil => exact absurd rfl hs
  | cons b pc =>
    simp only [ToString.run, List.length_cons, ToString.loop, hg]
    simp

theorem renderToken_clean {x : Byte} {pc : Script} {op : Nat} {d rest : Script}
    (hg : GetOp (x :: pc) = ReadResult.ok op d rest) : CleanPiece (renderToken (Token.mk op d)) := by
  unfold renderToken
  simp only
  split
  · obtain ⟨v, hv, hc⟩ := ValueString_clean d
    rw [hv]
    exact hc
  · rw [GetOp_ok_opcode hg]
    exact GetOpName_clean_byte x

/-- One iteration of the loop of `ToString` on a well-formed token. -/
theorem ToString_run_ok {s : Script} {op : Nat} {d rest : Script}
    (str : String) (hg : GetOp s = ReadResult.ok op d rest) :
    ToString.run s str =
      if op = OP_ZEROCOINSPEND then
        ToStringResult.returned (ToString.separated str ++ renderToken (Token.mk op d))
      else ToString.run rest (ToString.separated str ++ renderToken (Token.mk op d)) := by
  have hl := GetOp_ok_length hg
  cases s with
  | nil => cases hg
  | cons b pc =>
    simp only [ToString.run, List.length_cons, ToString.loop, hg, renderToken]
    simp only [List.length_cons] at hl
    have hf : ∀ acc : String,
        ToString.loop pc.length rest acc = ToString.loop rest.length rest acc :=
      fun acc => ToString_loop_fuel pc.length rest.length rest acc (by omega) (Nat.le_refl _)
    obtain ⟨v, hv, _⟩ := ValueString_clean d
    by_cases hop : op ≤ OP_PUSHDATA4
    · have h2 : op ≠ OP_ZEROCOINSPEND := by
        simp only [OP_PUSHDATA4, OP_ZEROCOINSPEND] at *
        omega
      simp [hop, hv, h2, hf]
    · simp [hop, hf]

theorem String_ne_empty_iff (s : String) : s ≠ "" ↔ s.data ≠ [] := by
  constructor
  · intro h e
    apply h
    exact String.ext e
  · intro h e
    apply h
    rw [e]

theorem String_append_ne_empty_right (a b : String) (hb : b ≠ "") : a ++ b ≠ "" := by
  rw [String_ne_empty_iff] at *
  simp [String.data_append, hb]

theorem String_append_ne_empty_left (a b : String) (ha : a ≠ "") : a ++ b ≠ "" := by
  rw [String_ne_empty_iff] at *
  simp [String.data_append, ha]

theorem separated_of_ne {str : String} (h : str ≠ "") : ToString.separated str = str ++ " " := by
  simp [ToString.separated, h]

theorem separated_empty : ToString.separated "" = "" := by
  simp [ToString.separated]

/-- A leading text in front of a non-empty accumulator is carried through the
loop unchanged. -/
theorem ToString_run_shift (pc : Script) : ∀ (acc p : String), acc ≠ "" →
    ToString.run pc (p ++ acc) = (ToString.run pc acc).prepend p := by
  induction pc using script_induction with
  | hnil => intro acc p _; simp [ToString_run_nil, ToStringResult.prepend]
  | hbad s r hs hg =>
    intro acc p ha
    rw [ToString_run_bad _ hs hg, ToString_run_bad _ hs hg,
      separated_of_ne ha, separated_of_ne (String_append_ne_empty_right p acc ha)]
    simp [ToStringResult.prepend, String.append_assoc]
  | hok s op d rest hg ih =>
    intro acc p ha
    rw [ToString_run_ok _ hg, ToString_run_ok _ hg,
      separated_of_ne ha, separated_of_ne (String_append_ne_empty_right p acc ha)]
    split
    · simp [ToStringResult.prepend, String.append_assoc]
    · have h1 : acc ++ " " ++ renderToken (Token.mk op d) ≠ "" :=
        String_append_ne_empty_left _ _ (String_append_ne_empty_left _ _ ha)
      rw [← ih _ p h1]
      simp [String.append_assoc]

/-- Entering the loop with a non-empty accumulator puts the accumulator and one
space in front of what the loop produces from the empty string. -/
theorem ToString_run_from (pc : Script) (acc : String) (hpc : pc ≠ []) (ha : acc ≠ "") :
    ToString.run pc acc = (ToString.run pc "").prepend (acc ++ " ") := by
  cases hg : GetOp pc with
  | bad r =>
    rw [ToString_run_bad _ hpc hg, ToString_run_bad _ hpc hg, separated_of_ne ha,
      separated_empty]
    simp [ToStringResult.prepend]
  | ok op d rest =>
    cases pc with
    | nil => exact absurd rfl hpc
    | cons x pc1 =>
      have hc := renderToken_clean hg
      rw [ToString_run_ok _ hg, ToString_run_ok _ hg, separated_of_ne ha, separated_empty]
      split
      · simp [ToStringResult.prepend]
      · rw [ToString_run_shift rest _ (acc ++ " ") hc.1]
        simp


/-- The loop of `ToString` always leaves by a `return`. -/
theorem ToString_run_returns (pc : Script) : ∀ acc : String,
    ∃ s, ToString.run pc acc = ToStringResult.returned s := by
  induction pc using script_induction with
  | hnil => intro acc; exact ⟨acc, ToString_run_nil acc⟩
  | hbad s r hs hg => intro acc; exact ⟨_, ToString_run_bad acc hs hg⟩
  | hok s op d rest hg ih =>
    intro acc
    rw [ToString_run_ok acc hg]
    split
    · exact ⟨_, rfl⟩
    · exact ih _

/-- The loop of `ToString` only appends to the string built so far. -/
theorem ToString_run_extends (pc : Script) : ∀ (acc s : String),
    ToString.run pc acc = ToStringResult.returned s → ∃ t, s = acc ++ t := by
  have hsep : ∀ acc : String, ∃ u, ToString.separated acc = acc ++ u := by
    intro acc
    by_cases h : acc = ""
    · exact ⟨"", by simp [ToString.separated, h]⟩
    · exact ⟨" ", separated_of_ne h⟩
  induction pc using script_induction with
  | hnil =>
    intro acc s h
    rw [ToString_run_nil] at h
    cases h
    exact ⟨"", by simp⟩
  | hbad s0 r hs hg =>
    intro acc s h
    rw [ToString_run_bad acc hs hg] at h
    cases h
    obtain ⟨u, hu⟩ := hsep acc
    exact ⟨u ++ "[error]", by rw [hu, String.append_assoc]⟩
  | hok s0 op d rest hg ih =>
    intro acc s h
    rw [ToString_run_ok acc hg] at h
    obtain ⟨u, hu⟩ := hsep acc
    split at h
    · cases h
      exact ⟨u ++ renderToken (Token.mk op d), by rw [hu, String.append_assoc]⟩
    · obtain ⟨t, ht⟩ := ih _ _ h
      exact ⟨u ++ renderToken (Token.mk op d) ++ t, by
        rw [ht, hu, String.append_assoc, String.append_assoc, String.append_assoc]⟩

theorem CleanPiece_head {v : String} (h : CleanPiece v) (t : String) :
    (v ++ t) ≠ "" ∧ (v ++ t).data.head? ≠ some ' ' := by
  refine ⟨String_append_ne_empty_left v t h.1, ?_⟩
  have h1 := (String_ne_empty_iff v).mp h.1
  rw [String.data_append]
  cases hv : v.data with
  | nil => exact absurd hv h1
  | cons c cs =>
    simp only [List.cons_append, List.head?_cons, ne_eq, Option.some.injEq]
    intro e
    apply h.2
    rw [hv, e]
    exact List.mem_cons_self _ _

theorem CleanPiece_last {v : String} (h : CleanPiece v) (t : String) :
    (t ++ v).data.getLast? ≠ some ' ' := by
  have h1 := (String_ne_empty_iff v).mp h.1
  rw [String.data_append, List.getLast?_append_of_ne_nil _ h1]
  intro e
  exact h.2 (List.mem_of_getLast?_eq_some e)

theorem CleanPiece_error : CleanPiece "[error]" := by
  constructor <;> decide

/-- What `ToString` returns for a non-empty script is not empty and does not
start with a space. -/
theorem ToString_head {pc : Script} {s : String} (hpc : pc ≠ [])
    (h : ToString.run pc "" = ToStringResult.returned s) :
    s ≠ "" ∧ s.data.head? ≠ some ' ' := by
  cases hg : GetOp pc with
  | bad r =>
    rw [ToString_run_bad _ hpc hg, separated_empty] at h
    cases h
    constructor <;> decide
  | ok op d rest =>
    cases pc with
    | nil => exact absurd rfl hpc
    | cons x pc1 =>
      have hc := renderToken_clean hg
      rw [ToString_run_ok _ hg, separated_empty, String.empty_append] at h
      split at h
      · cases h
        have := CleanPiece_head hc ""
        simpa using this
      · obtain ⟨t, ht⟩ := ToString_run_extends _ _ _ h
        rw [ht]
        exact CleanPiece_head hc t

/-- The loop of `ToString` never leaves a space at the end of the string. -/
theorem ToString_last (pc : Script) : ∀ (acc s : String),
    acc.data.getLast? ≠ some ' ' →
    ToString.run pc acc = ToStringResult.returned s → s.data.getLast? ≠ some ' ' := by
  induction pc using script_induction with
  | hnil =>
    intro acc s ha h
    rw [ToString_run_nil] at h
    cases h
    exact ha
  | hbad s0 r hs hg =>
    intro acc s _ h
    rw [ToString_run_bad acc hs hg] at h
    cases h
    exact CleanPiece_last CleanPiece_error _
  | hok s0 op d rest hg ih =>
    intro acc s _ h
    cases s0 with
    | nil => cases hg
    | cons x pc1 =>
      have hc := renderToken_clean hg
      rw [ToString_run_ok acc hg] at h
      split at h
      · cases h
        exact CleanPiece_last hc _
      · exact ih _ _ (CleanPiece_last hc _) h

theorem tokens_clean (s : Script) : ∀ t ∈ tokens s, CleanPiece (renderToken t) := by
  induction s using script_induction with
  | hnil => simp [tokens_nil]
  | hbad s r hs hg => simp [tokens_bad hg]
  | hok s op d rest hg ih =>
    cases s with
    | nil => cases hg
    | cons x pc1 =>
      rw [tokens_ok hg]
      intro t ht
      rcases List.mem_cons.mp ht with e | e
      · rw [e]; exact renderToken_clean hg
      · exact ih t e

/-- Over a script that decodes completely and has no `OP_ZEROCOINSPEND` token
the loop runs to the end of the script; entered with a non-empty accumulator
it appends a space and the text of each token in turn. -/
theorem ToString_run_complete (A : Script) : decodesCompletely A = true →
    (∀ t ∈ tokens A, t.opcode ≠ OP_ZEROCOINSPEND) → ∀ acc : String, acc ≠ "" →
    ToString.run A acc = ToStringResult.returned
      (String.intercalate.go acc " " ((tokens A).map renderToken)) ∧
    ∀ B : Script, ToString.run (A ++ B) acc =
      ToString.run B (String.intercalate.go acc " " ((tokens A).map renderToken)) := by
  induction A using script_induction with
  | hnil =>
    intro _ _ acc _
    simp [ToString_run_nil, tokens_nil, String.intercalate.go]
  | hbad s r hs hg => intro hd; rw [decodesCompletely_bad hs hg] at hd; cases hd
  | hok s op d rest hg ih =>
    intro hd hsp acc ha
    rw [decodesCompletely_ok hg] at hd
    rw [tokens_ok hg] at hsp ⊢
    have hop : op ≠ OP_ZEROCOINSPEND := hsp _ (List.mem_cons_self _ _)
    have hrest : ∀ t ∈ tokens rest, t.opcode ≠ OP_ZEROCOINSPEND :=
      fun t ht => hsp t (List.mem_cons_of_mem _ ht)
    have h1 : acc ++ " " ++ renderToken (Token.mk op d) ≠ "" :=
      String_append_ne_empty_left _ _ (String_append_ne_empty_left _ _ ha)
    obtain ⟨i1, i2⟩ := ih hd hrest _ h1
    simp only [List.map_cons, String.intercalate.go]
    constructor
    · rw [ToString_run_ok acc hg, if_neg hop, separated_of_ne ha, i1]
    · intro B
      rw [ToString_run_ok acc (GetOp_append hg B), if_neg hop, separated_of_ne ha, i2 B]

/-- The same from the empty string: the texts of the tokens joined by single
spaces. -/
theorem ToString_complete (A : Script) (hd : decodesCompletely A = true)
    (hsp : ∀ t ∈ tokens A, t.opcode ≠ OP_ZEROCOINSPEND) :
    ToString A = ToStringResult.returned (" ".intercalate ((tokens A).map renderToken)) ∧
    ∀ B : Script, ToString.run (A ++ B) "" =
      ToString.run B (" ".intercalate ((tokens A).map renderToken)) := by
  by_cases hA : A = []
  · subst hA
    simp [ToString, ToString_run_nil, tokens_nil, String.intercalate]
  · cases hg : GetOp A with
    | bad r => rw [decodesCompletely_bad hA hg] at hd; cases hd
    | ok op d rest =>
      cases A with
      | nil => exact absurd rfl hA
      | cons x pc1 =>
        have hc := renderToken_clean hg
        rw [decodesCompletely_ok hg] at hd
        rw [tokens_ok hg] at hsp ⊢
        have hop : op ≠ OP_ZEROCOINSPEND := hsp _ (List.mem_cons_self _ _)
        have hrest : ∀ t ∈ tokens rest, t.opcode ≠ OP_ZEROCOINSPEND :=
          fun t ht => hsp t (List.mem_cons_of_mem _ ht)
        obtain ⟨i1, i2⟩ := ToString_run_complete rest hd hrest _ hc.1
        simp only [List.map_cons, String.intercalate]
        constructor
        · rw [ToString, ToString_run_ok _ hg, if_neg hop, separated_empty,
            String.empty_append, i1]
        · intro B
          rw [ToString_run_ok _ (GetOp_append hg B), if_neg hop, separated_empty,
            String.empty_append, i2 B]


/-! ## Value strings -/

theorem littleEndian_append (a : Script) (x : Byte) :
    littleEndian (a ++ [x]) = littleEndian a + 256 ^ a.length * x.val := by
  induction a with
  | nil => simp [littleEndian]
  | cons b rest ih =>
    show b.val + 256 * littleEndian (rest ++ [x])
      = b.val + 256 * littleEndian rest + 256 ^ (rest.length + 1) * x.val
    rw [ih, Nat.pow_succ]
    ring

theorem littleEndian_lt (a : Script) : littleEndian a < 256 ^ a.length := by
  induction a with
  | nil => simp [littleEndian]
  | cons b rest ih =>
    simp only [littleEndian, List.length_cons, Nat.pow_succ]
    have := b.isLt
    omega

theorem set_vch_eq_signMagnitude (p : Script) : CScriptNum.set_vch p = signMagnitude p := by
  unfold CScriptNum.set_vch signMagnitude
  cases hl : p.getLast? with
  | none => rfl
  | some last =>
    obtain ⟨a, rfl⟩ := List.getLast?_eq_some_iff.mp hl
    simp only [List.dropLast_concat, littleEndian_append, List.length_append, List.length_singleton,
      Nat.add_sub_cancel]
    have hlast := last.isLt
    have hm : (Fin.ofNat (last.val % 128) : Byte).val = last.val % 128 := by
      simp only [Fin.ofNat, Fin.val_mk]
      omega
    rw [littleEndian_append, hm]
    have hp : (2 : Nat) ^ (8 * a.length) = 256 ^ a.length := by
      rw [Nat.pow_mul]
    rw [hp]
    generalize 256 ^ a.length = k
    by_cases h : 128 ≤ last.val
    · have h1 : last.val / 128 = 1 := by omega
      have h2 : last.val % 128 = last.val - 128 := by omega
      rw [if_pos h1, if_pos h, h2]
      have h3 : k * last.val = k * (last.val - 128) + 128 * k := by
        have e : last.val = (last.val - 128) + 128 := by omega
        conv_lhs => rw [e]
        ring
      have h4 : littleEndian a + k * last.val - 128 * k
          = littleEndian a + k * (last.val - 128) := by
        rw [h3]
        omega
      rw [h4]
    · have h1 : ¬ last.val / 128 = 1 := by omega
      have h2 : last.val % 128 = last.val := by omega
      rw [if_neg h1, if_neg h, h2]

theorem signMagnitude_bounds (p : Script) (hp : p.length ≤ 4) :
    -2147483647 ≤ signMagnitude p ∧ signMagnitude p ≤ 2147483647 := by
  unfold signMagnitude
  cases hl : p.getLast? with
  | none => simp
  | some last =>
    obtain ⟨a, rfl⟩ := List.getLast?_eq_some_iff.mp hl
    simp only [List.dropLast_concat, littleEndian_append]
    have hm : (Fin.ofNat (last.val % 128) : Byte).val = last.val % 128 := by
      simp only [Fin.ofNat, Fin.val_mk]
      omega
    rw [littleEndian_append, hm]
    have ha : a.length ≤ 3 := by
      simp only [List.length_append, List.length_singleton] at hp
      omega
    have h1 := littleEndian_lt a
    have h2 : 256 ^ a.length ≤ 256 ^ 3 := Nat.pow_le_pow_right (by decide) ha
    have h3 : last.val % 128 ≤ 127 := by omega
    have h4 : 256 ^ a.length * (last.val % 128) ≤ 256 ^ a.length * 127 :=
      Nat.mul_le_mul_left _ h3
    have h5 : littleEndian a + 256 ^ a.length * (last.val % 128) ≤ 2147483647 := by
      norm_num at h2
      omega
    split <;> omega

theorem HexStr_length (p : Script) : (HexStr p).length = 2 * p.length := by
  simp only [HexStr, String.length]
  induction p with
  | nil => rfl
  | cons b rest ih =>
    simp only [List.flatMap_cons, List.length_append, List.length_cons, List.length_nil, ih]
    omega

theorem hexmap_getD_mem (n : Nat) (h : n < 16) : hexmap.getD n '0' ∈ hexmap := by
  unfold hexmap
  interval_cases n <;> decide

theorem HexStr_digits (p : Script) : ∀ ch ∈ (HexStr p).data, ch ∈ hexmap := by
  intro ch hc
  simp only [HexStr, List.mem_flatMap] at hc
  obtain ⟨b, _, hb⟩ := hc
  simp only [List.mem_cons, List.mem_singleton] at hb
  have := b.isLt
  rcases hb with hb | hb | hb
  · rw [hb]; exact hexmap_getD_mem _ (by omega)
  · rw [hb]; exact hexmap_getD_mem _ (by omega)
  · cases hb

theorem ValueString_small (p : Script) (hp : p.length ≤ 4) :
    ValueString p = some (toString (signMagnitude p)) := by
  have hb := signMagnitude_bounds p hp
  simp only [ValueString, if_pos hp, CScriptNum, if_neg (Nat.not_lt.mpr hp), Option.map_some',
    set_vch_eq_signMagnitude, CScriptNum.getint]
  rw [if_neg (by omega), if_neg (by omega)]


/-! ## Further facts used by the claims on classification and counting -/

theorem IsQuicksended_outside (Solver : Script → txnouttype) (flag : Bool) (s : Script)
    (h : ¬ (7 ≤ s.length ∧ s[0]? = some 0x76)) :
    IsQuicksended Solver flag s = some (IsQuicksended.fallback Solver flag s) := by
  unfold IsQuicksended vectorAt
  by_cases hlen : 7 ≤ s.length
  · rw [if_pos hlen]
    cases s with
    | nil => simp at hlen
    | cons x rest =>
      have hx : x ≠ 0x76 := fun e => h ⟨hlen, by simp [e]⟩
      have hx1 : ¬ x.val = OP_DUP := fun e => hx (Fin.ext e)
      simp [hx1]
  · rw [if_neg hlen]
    rfl

theorem IsZerocoinMint_total (b : Script) : (IsZerocoinMint b).isSome = true := by
  cases b <;> simp [IsZerocoinMint, vectorAt]

theorem IsZerocoinSpend_total (b : Script) : (IsZerocoinSpend b).isSome = true := by
  cases b <;> simp [IsZerocoinSpend, vectorAt]

theorem IsQuicksended_total (Solver : Script → txnouttype) (flag : Bool) (s : Script) :
    (IsQuicksended Solver flag s).isSome = true := by
  by_cases h : 7 ≤ s.length ∧ s[0]? = some 0x76
  · rw [IsQuicksended_prefilter Solver flag s h.1 h.2]; rfl
  · rw [IsQuicksended_outside Solver flag s h]; rfl

theorem tokens_append_bad {P T r : Script} (hd : decodesCompletely P = true)
    (hg : GetOp T = ReadResult.bad r) : tokens (P ++ T) = tokens P := by
  rw [tokens_append hd, tokens_bad hg, List.append_nil]

theorem tokens_prefix (A B : Script) : ∃ ts, tokens (A ++ B) = tokens A ++ ts := by
  induction A using script_induction with
  | hnil => exact ⟨tokens B, by simp [tokens_nil]⟩
  | hbad s r hs hg => exact ⟨tokens (s ++ B), by simp [tokens_bad hg]⟩
  | hok s op d rest hg ih =>
    obtain ⟨ts, hts⟩ := ih
    exact ⟨ts, by rw [tokens_ok (GetOp_append hg B), tokens_ok hg, hts]; rfl⟩

theorem sigOpSum_append_ge (acc : Bool) (xs ys : List Token) : ∀ prev : Option Nat,
    sigOpSum acc prev xs ≤ sigOpSum acc prev (xs ++ ys) := by
  induction xs with
  | nil => intro prev; simp [sigOpSum]
  | cons t ts ih =>
    intro prev
    rw [List.cons_append]
    simp only [sigOpSum]
    exact Nat.add_le_add_left (ih (some t.opcode)) _

theorem GetSigOpCount_exact (s : Script) (acc : Bool) (hlen : 20 * s.length < 2 ^ 32) :
    GetSigOpCount s acc = sigOpSum acc none (tokens s) := by
  rw [GetSigOpCount_eq_sumMod]
  apply Nat.mod_eq_of_lt
  have h1 := sigOpSum_le acc (tokens s) none
  have h2 := tokens_length_le s
  omega

theorem sigOpWeight_accurate_le (prev : Option Nat) (op : Nat) :
    sigOpWeight true prev op ≤ sigOpWeight false prev op := by
  unfold sigOpWeight
  split
  · exact Nat.le_refl _
  · split
    · cases prev with
      | none => exact Nat.le_refl _
      | some p =>
        simp only
        split
        · rename_i h
          simp only [OP_16] at h
          simp
          omega
        · simp
    · exact Nat.le_refl _

theorem sigOpSum_accurate_le (ts : List Token) : ∀ prev : Option Nat,
    sigOpSum true prev ts ≤ sigOpSum false prev ts := by
  induction ts with
  | nil => intro prev; simp [sigOpSum]
  | cons t ts ih =>
    intro prev
    simp only [sigOpSum]
    have h1 := sigOpWeight_accurate_le prev t.opcode
    have h2 := ih (some t.opcode)
    omega

theorem tokens_replicate_pair (x y : Byte) (hx : x.val > OP_PUSHDATA4)
    (hy : y.val > OP_PUSHDATA4) (k : Nat) :
    tokens (List.replicate k [x, y]).flatten =
      (List.replicate k [Token.mk x.val [], Token.mk y.val []]).flatten := by
  induction k with
  | zero => exact tokens_nil
  | succ k ih =>
    rw [List.replicate_succ, List.flatten_cons, List.replicate_succ, List.flatten_cons]
    show tokens (x :: y :: (List.replicate k [x, y]).flatten) = _
    rw [tokens_ok (GetOp_opcode _ hx), tokens_ok (GetOp_opcode _ hy), ih]
    rfl

theorem sigOpSum_replicate_pair (acc : Bool) (k : Nat) : ∀ prev : Option Nat,
    sigOpSum acc prev
      (List.replicate k [Token.mk OP_16 [], Token.mk OP_CHECKMULTISIG []]).flatten =
      (if acc = true then 16 else 20) * k := by
  induction k with
  | zero => intro prev; simp [sigOpSum]
  | succ k ih =>
    intro prev
    rw [List.replicate_succ, List.flatten_cons]
    have e : [Token.mk OP_16 [], Token.mk OP_CHECKMULTISIG []] ++
        (List.replicate k [Token.mk OP_16 [], Token.mk OP_CHECKMULTISIG []]).flatten =
        Token.mk OP_16 [] :: Token.mk OP_CHECKMULTISIG [] ::
          (List.replicate k [Token.mk OP_16 [], Token.mk OP_CHECKMULTISIG []]).flatten := rfl
    rw [e]
    simp only [sigOpSum]
    rw [ih (some OP_CHECKMULTISIG)]
    have h1 : sigOpWeight acc prev OP_16 = 0 := by
      simp [sigOpWeight, OP_16, OP_CHECKSIG, OP_CHECKSIGVERIFY, OP_CHECKMULTISIG,
        OP_CHECKMULTISIGVERIFY]
    have h2 : sigOpWeight acc (some OP_16) OP_CHECKMULTISIG = if acc = true then 16 else 20 := by
      cases acc <;> simp [sigOpWeight, OP_16, OP_1, OP_CHECKSIG, OP_CHECKSIGVERIFY,
        OP_CHECKMULTISIG]
    rw [h1, h2]
    cases acc <;> simp <;> omega

theorem GetOpName_cases_fresh :
    residuesFresh 1321 0
      (nameCode "OP_UNKNOWN" :: GetOpName.cases.map fun p => nameCode p.2) = true := by
  decide!

theorem GetOpName_lookup_some {k : Nat} : ∀ {l : List (Nat × String)},
    k ∈ l.map Prod.fst → ∃ v, l.lookup k = some v := by
  intro l
  induction l with
  | nil => intro h; cases h
  | cons p rest ih =>
    intro h
    obtain ⟨k0, v0⟩ := p
    simp only [List.lookup]
    by_cases e : k = k0
    · subst e
      exact ⟨v0, by simp⟩
    · have hr : k ∈ rest.map Prod.fst := by
        simp only [List.map_cons, List.mem_cons] at h
        rcases h with h | h
        · exact absurd h e
        · exact h
      have hb : (k == k0) = false := by simpa using e
      simp only [hb]
      exact ih hr

theorem GetOpName_cases_names :
    (∀ p ∈ GetOpName.cases, p.2 ≠ "OP_UNKNOWN") ∧
    ∀ p ∈ GetOpName.cases, ∀ q ∈ GetOpName.cases, p.2 = q.2 → p = q := by
  have h := (residuesFresh_sound 1321 _ 0 GetOpName_cases_fresh).2
  rw [List.pairwise_cons] at h
  constructor
  · intro p hp e
    exact h.1 (nameCode p.2) (List.mem_map.mpr ⟨p, hp, rfl⟩) (by rw [e])
  · intro p hp q hq e
    exact List.inj_on_of_nodup_map h.2 hp hq (by simp only [e])

theorem GetOpName_catalogued (n : Nat) :
    n ∈ GetOpName.cases.map Prod.fst ↔ GetOpName n ≠ "OP_UNKNOWN" := by
  constructor
  · intro h
    obtain ⟨v, hv⟩ := GetOpName_lookup_some h
    unfold GetOpName
    rw [hv]
    exact GetOpName_cases_names.1 _ (GetOpName_lookup_mem hv)
  · intro h
    by_contra hn
    exact h (GetOpName_default hn)


/-! ## Further facts on push-only scripts, the conservative count and the normal-payment loop -/

theorem sigOpWeight_push (acc : Bool) (prev : Option Nat) {op : Nat} (h : op ≤ OP_16) :
    sigOpWeight acc prev op = 0 := by
  unfold sigOpWeight
  simp only [OP_16, OP_CHECKSIG, OP_CHECKSIGVERIFY, OP_CHECKMULTISIG,
    OP_CHECKMULTISIGVERIFY] at *
  rw [if_neg (by omega), if_neg (by omega)]

theorem sigOpSum_push (acc : Bool) (ts : List Token) (h : ∀ t ∈ ts, t.opcode ≤ OP_16) :
    ∀ prev : Option Nat, sigOpSum acc prev ts = 0 := by
  induction ts with
  | nil => intro prev; rfl
  | cons t ts ih =>
    intro prev
    simp only [sigOpSum]
    rw [sigOpWeight_push acc prev (h t (List.mem_cons_self t ts)),
      ih (fun u hu => h u (List.mem_cons_of_mem t hu))]

theorem sigOpWeight_conservative (p q : Option Nat) (op : Nat) :
    sigOpWeight false p op = sigOpWeight false q op := by
  unfold sigOpWeight
  cases p <;> cases q <;> simp

theorem sigOpSum_conservative_append (xs ys : List Token) : ∀ p q : Option Nat,
    sigOpSum false p (xs ++ ys) = sigOpSum false p xs + sigOpSum false q ys := by
  induction xs with
  | nil =>
    intro p q
    cases ys with
    | nil => rfl
    | cons y ys =>
      simp only [List.nil_append, sigOpSum, Nat.zero_add]
      rw [sigOpWeight_conservative p q]
  | cons t ts ih =>
    intro p q
    rw [List.cons_append]
    simp only [sigOpSum]
    rw [ih (some t.opcode) q, Nat.add_assoc]

theorem decodesCompletely_replicate_opcode (x : Byte) (hx : x.val > OP_PUSHDATA4) (k : Nat) :
    decodesCompletely (List.replicate k x) = true := by
  induction k with
  | zero => exact decodesCompletely_nil
  | succ k ih =>
    rw [List.replicate_succ, decodesCompletely_ok (GetOp_opcode _ hx), ih]

theorem readPayload_bad {opcode nSize : Nat} {pc r : Script}
    (h : readPayload opcode nSize pc = ReadResult.bad r) : r = pc := by
  unfold readPayload at h
  split at h
  · cases h; rfl
  · cases h

theorem GetOp_bad_length {s r : Script} (h : GetOp s = ReadResult.bad r) :
    s.length ≤ r.length + 5 := by
  unfold GetOp at h
  split at h
  · cases h; simp
  · rename_i b pc
    simp only at h
    split at h
    · split at h
      · rw [readPayload_bad h]; simp
      · split at h
        · split at h
          · rw [readPayload_bad h]; simp
          · cases h; simp
        · split at h
          · split at h
            · rw [readPayload_bad h]; simp
            · cases h; simp
          · split at h
            · rw [readPayload_bad h]; simp
            · cases h; simp
    · cases h

theorem IsNormalPaymentScript_loop_five (fuel : Nat) (x : Byte) (pc : Script) :
    IsNormalPaymentScript.loop (fuel + 1) 5 (x :: pc) = false := by
  rw [IsNormalPaymentScript_loop_cons]
  simp

theorem IsNormalPaymentScript_loop_three (fuel : Nat) (rest : Script) :
    IsNormalPaymentScript.loop (fuel + 3) 3 rest = true ↔
      rest = [0x88, 0xac] ∨ rest = [0x88] ∨ rest = [] := by
  constructor
  · intro h
    cases rest with
    | nil => exact Or.inr (Or.inr rfl)
    | cons x r1 =>
      rw [IsNormalPaymentScript_loop_cons (fuel + 2) 3 x r1] at h
      by_cases c3 : (GetOp (x :: r1)).opcodeRet = OP_EQUALVERIFY
      · obtain ⟨e3, g3⟩ := GetOp_of_opcodeRet c3 (by decide) (by decide)
        have f3 : x = 0x88 := Fin.ext e3
        simp only [g3, ReadResult.opcodeRet, ReadResult.pcRet] at h
        simp only [OP_EQUALVERIFY] at h
        norm_num at h
        cases r1 with
        | nil => exact Or.inr (Or.inl (by rw [f3]))
        | cons y r2 =>
          rw [IsNormalPaymentScript_loop_cons (fuel + 1) 4 y r2] at h
          by_cases c4 : (GetOp (y :: r2)).opcodeRet = OP_CHECKSIG
          · obtain ⟨e4, g4⟩ := GetOp_of_opcodeRet c4 (by decide) (by decide)
            have f4 : y = 0xac := Fin.ext e4
            simp only [g4, ReadResult.opcodeRet, ReadResult.pcRet] at h
            simp only [OP_CHECKSIG] at h
            norm_num at h
            cases r2 with
            | nil => exact Or.inl (by rw [f3, f4])
            | cons z r3 =>
              rw [IsNormalPaymentScript_loop_five] at h
              cases h
          · simp [c4] at h
      · simp [c3] at h
  · intro h
    rcases h with rfl | rfl | rfl
    · rw [IsNormalPaymentScript_loop_ok (fuel + 2) 3 (GetOp_opcode [0xac] (by decide)),
        IsNormalPaymentScript_loop_ok (fuel + 1) 4 (GetOp_opcode [] (by decide)),
        IsNormalPaymentScript_loop_nil]
      decide
    · rw [IsNormalPaymentScript_loop_ok (fuel + 2) 3 (GetOp_opcode [] (by decide)),
        IsNormalPaymentScript_loop_nil]
      decide
    · exact IsNormalPaymentScript_loop_nil _ _


/-! ## The scripts accepted by the normal-payment test -/

theorem readPayload_ok_split {opcode nSize : Nat} {pc : Script} {op : Nat} {d rest : Script}
    (h : readPayload opcode nSize pc = ReadResult.ok op d rest) :
    pc = d ++ rest ∧ readPayload opcode nSize d = ReadResult.ok op d [] := by
  unfold readPayload at h
  split at h
  · cases h
  · rename_i hlen
    cases h
    refine ⟨(List.take_append_drop nSize pc).symm, ?_⟩
    unfold readPayload
    have hl : (pc.take nSize).length = nSize := by
      rw [List.length_take]
      omega
    rw [if_neg (by omega)]
    have h1 : (pc.take nSize).take nSize = pc.take nSize := by
      rw [List.take_take]
      simp
    have h2 : (pc.take nSize).drop nSize = [] := by
      apply List.drop_eq_nil_of_le
      omega
    rw [h1, h2]

/-- A token that is read successfully is a prefix of the cursor and is read
in the same way when it stands alone. -/
theorem GetOp_ok_split {s : Script} {op : Nat} {d rest : Script}
    (h : GetOp s = ReadResult.ok op d rest) :
    ∃ t : Script, s = t ++ rest ∧ GetOp t = ReadResult.ok op d [] := by
  unfold GetOp at h
  split at h
  · cases h
  · rename_i b pc
    simp only at h
    split at h
    · rename_i h0
      split at h
      · rename_i h1
        obtain ⟨e, g⟩ := readPayload_ok_split h
        refine ⟨b :: d, by rw [e]; rfl, ?_⟩
        unfold GetOp
        simp only
        rw [if_pos h0, if_pos h1]
        exact g
      · rename_i h1
        split at h
        · rename_i h2
          split at h
          · rename_i n0 pc1
            obtain ⟨e, g⟩ := readPayload_ok_split h
            refine ⟨b :: n0 :: d, by rw [e]; rfl, ?_⟩
            unfold GetOp
            simp only
            rw [if_pos h0, if_neg h1, if_pos h2]
            exact g
          · cases h
        · rename_i h2
          split at h
          · rename_i h3
            split at h
            · rename_i n0 n1 pc2
              obtain ⟨e, g⟩ := readPayload_ok_split h
              refine ⟨b :: n0 :: n1 :: d, by rw [e]; rfl, ?_⟩
              unfold GetOp
              simp only
              rw [if_pos h0, if_neg h1, if_neg h2, if_pos h3]
              exact g
            · cases h
          · rename_i h3
            split at h
            · rename_i n0 n1 n2 n3 pc4
              obtain ⟨e, g⟩ := readPayload_ok_split h
              refine ⟨b :: n0 :: n1 :: n2 :: n3 :: d, by rw [e]; rfl, ?_⟩
              unfold GetOp
              simp only
              rw [if_pos h0, if_neg h1, if_neg h2, if_neg h3]
              exact g
            · cases h
    · rename_i h0
      cases h
      refine ⟨[b], rfl, ?_⟩
      unfold GetOp
      simp only
      rw [if_neg h0]

theorem GetOp_push (v : Byte) (pc : Script) (hv : v.val < OP_PUSHDATA1) :
    GetOp (v :: pc) = readPayload v.val v.val pc := by
  unfold GetOp
  simp only
  rw [if_pos (by simp only [OP_PUSHDATA1, OP_PUSHDATA4] at *; omega), if_pos hv]

/-- The buffers that `IsNormalPaymentScript` accepts. -/
theorem IsNormalPaymentScript_accepts (b : Script) :
    IsNormalPaymentScript b = true ↔
      b.length = 25 ∧ ∃ (pc : Script) (op : Nat) (d rest : Script),
        b = 0x76 :: 0xa9 :: pc ∧ GetOp pc = ReadResult.ok op d rest ∧
        (rest = [0x88, 0xac] ∨ rest = [0x88] ∨ rest = []) := by
  have g0 : ∀ pc : Script, GetOp ((0x76 : Byte) :: pc) = ReadResult.ok 0x76 [] pc :=
    fun pc => GetOp_opcode pc (by decide)
  have g1 : ∀ pc : Script, GetOp ((0xa9 : Byte) :: pc) = ReadResult.ok 0xa9 [] pc :=
    fun pc => GetOp_opcode pc (by decide)
  have hstep : ∀ pc : Script, IsNormalPaymentScript.loop 25 0 (0x76 :: 0xa9 :: pc) =
      IsNormalPaymentScript.loop 23 2 pc := by
    intro pc
    rw [IsNormalPaymentScript_loop_ok 24 0 (g0 _), IsNormalPaymentScript_loop_ok 23 1 (g1 _)]
    simp [OP_DUP, OP_HASH160]
  constructor
  · intro h
    obtain ⟨hlen, h0, h1⟩ := IsNormalPaymentScript_head h
    refine ⟨hlen, ?_⟩
    match b, hlen, h0, h1 with
    | x0 :: x1 :: pc, hlen, h0, h1 =>
      have f0 : x0 = 0x76 := by simpa using h0
      have f1 : x1 = 0xa9 := by simpa using h1
      subst f0 f1
      have hpc : pc.length = 23 := by simpa using hlen
      unfold IsNormalPaymentScript at h
      rw [if_neg (by rw [hlen]; simp), hlen, hstep] at h
      match pc, hpc with
      | x2 :: pc3, hpc =>
        rw [IsNormalPaymentScript_loop_cons 22 2 x2 pc3] at h
        norm_num at h
        cases hg : GetOp (x2 :: pc3) with
        | ok op d rest =>
          rw [hg] at h
          simp only [ReadResult.pcRet] at h
          exact ⟨_, op, d, rest, rfl, hg, (IsNormalPaymentScript_loop_three 19 rest).mp h⟩
        | bad r =>
          rw [hg] at h
          simp only [ReadResult.pcRet] at h
          have hr := GetOp_bad_length hg
          rcases (IsNormalPaymentScript_loop_three 19 r).mp h with e | e | e <;>
            · rw [e] at hr
              simp only [List.length_cons, List.length_nil] at hr hpc
              omega
  · rintro ⟨hlen, pc, op, d, rest, rfl, hg, hrest⟩
    unfold IsNormalPaymentScript
    rw [if_neg (by rw [hlen]; simp), hlen, hstep, IsNormalPaymentScript_loop_ok 22 2 hg]
    norm_num
    exact (IsNormalPaymentScript_loop_three 19 rest).mpr hrest

theorem IsNormalPaymentScript_cases {b : Script} (h : IsNormalPaymentScript b = true) :
    b.length = 25 ∧ decodesCompletely b = true ∧ ∃ t2 : Token,
      tokens b = [Token.mk OP_DUP [], Token.mk OP_HASH160 [], t2,
        Token.mk OP_EQUALVERIFY [], Token.mk OP_CHECKSIG []] ∨
      tokens b = [Token.mk OP_DUP [], Token.mk OP_HASH160 [], t2,
        Token.mk OP_EQUALVERIFY []] ∨
      tokens b = [Token.mk OP_DUP [], Token.mk OP_HASH160 [], t2] := by
  obtain ⟨hlen, pc, op, d, rest, rfl, hg, hrest⟩ := (IsNormalPaymentScript_accepts b).mp h
  have g0 : GetOp ((0x76 : Byte) :: 0xa9 :: pc) = ReadResult.ok 0x76 [] (0xa9 :: pc) :=
    GetOp_opcode _ (by decide)
  have g1 : GetOp ((0xa9 : Byte) :: pc) = ReadResult.ok 0xa9 [] pc :=
    GetOp_opcode _ (by decide)
  have ht : tokens ((0x76 : Byte) :: 0xa9 :: pc) =
      Token.mk OP_DUP [] :: Token.mk OP_HASH160 [] :: Token.mk op d :: tokens rest := by
    rw [tokens_ok g0, tokens_ok g1, tokens_ok hg]
  have hd : decodesCompletely ((0x76 : Byte) :: 0xa9 :: pc) = decodesCompletely rest := by
    rw [decodesCompletely_ok g0, decodesCompletely_ok g1, decodesCompletely_ok hg]
  refine ⟨hlen, ?_, Token.mk op d, ?_⟩
  · rw [hd]
    rcases hrest with rfl | rfl | rfl <;> decide
  · have e2 : tokens ([0x88, 0xac] : Script) =
        [Token.mk OP_EQUALVERIFY [], Token.mk OP_CHECKSIG []] := by decide
    have e1 : tokens ([0x88] : Script) = [Token.mk OP_EQUALVERIFY []] := by decide
    rw [ht]
    rcases hrest with rfl | rfl | rfl
    · exact Or.inl (by rw [e2])
    · exact Or.inr (Or.inl (by rw [e1]))
    · exact Or.inr (Or.inr (by rw [tokens_nil]))

/-- In a 25-byte script of the five tokens `OP_DUP OP_HASH160 t2 OP_EQUALVERIFY
OP_CHECKSIG` the third token occupies bytes 2..22. -/
theorem five_tokens_bytes {b : Script} {t2 : Token} (hlen : b.length = 25)
    (hd : decodesCompletely b = true)
    (ht : tokens b = [Token.mk OP_DUP [], Token.mk OP_HASH160 [], t2,
      Token.mk OP_EQUALVERIFY [], Token.mk OP_CHECKSIG []]) :
    ∃ t : Script, t.length = 21 ∧ b = [0x76, 0xa9] ++ t ++ [0x88, 0xac] ∧ tokens t = [t2] := by
  obtain ⟨r0, g0, ht⟩ := tokens_cons_inv ht
  obtain ⟨r1, g1, ht⟩ := tokens_cons_inv ht
  obtain ⟨r2, g2, ht⟩ := tokens_cons_inv ht
  obtain ⟨r3, g3, ht⟩ := tokens_cons_inv ht
  obtain ⟨r4, g4, ht⟩ := tokens_cons_inv ht
  rw [decodesCompletely_ok g0, decodesCompletely_ok g1, decodesCompletely_ok g2,
    decodesCompletely_ok g3, decodesCompletely_ok g4] at hd
  have h4 : r4 = [] := eq_nil_of_tokens_nil hd ht
  subst h4
  have one : ∀ (x : Byte) {s rest : Script}, x.val > OP_PUSHDATA4 →
      GetOp s = ReadResult.ok x.val [] rest → s = x :: rest := by
    intro x s rest hx hg
    cases s with
    | nil => cases hg
    | cons y pc =>
      have e := GetOp_ok_opcode hg
      have ey : y = x := Fin.ext e.symm
      subst ey
      rw [GetOp_opcode pc hx] at hg
      cases hg
      rfl
  have e0 : b = 0x76 :: r0 := one 0x76 (by decide) g0
  have e1 : r0 = 0xa9 :: r1 := one 0xa9 (by decide) g1
  have e3 : r2 = 0x88 :: r3 := one 0x88 (by decide) g3
  have e4 : r3 = [0xac] := one 0xac (by decide) g4
  obtain ⟨t, e2, gt⟩ := GetOp_ok_split g2
  subst e4 e3
  refine ⟨t, ?_, ?_, ?_⟩
  · rw [e0, e1, e2] at hlen
    simp only [List.length_cons, List.length_append, List.length_nil] at hlen
    omega
  · rw [e0, e1, e2]
    simp
  · rw [tokens_ok gt, tokens_nil]

theorem IsNormalPaymentScript_mutated_push (h : Script) (hh : h.length = 20) (v : Byte)
    (h14 : v ≠ 0x14) (h16 : v ≠ 0x16)
    (hpd : ¬ (OP_PUSHDATA1 ≤ v.val ∧ v.val ≤ OP_PUSHDATA4)) :
    IsNormalPaymentScript ((p2pkhTemplate h).set 2 v) = false := by
  have e : (p2pkhTemplate h).set 2 v = 0x76 :: 0xa9 :: v :: (h ++ [0x88, 0xac]) := by
    simp [p2pkhTemplate]
  cases hn : IsNormalPaymentScript ((p2pkhTemplate h).set 2 v) with
  | false => rfl
  | true =>
    exfalso
    obtain ⟨_, pc, op, d, rest, hb, hg, hrest⟩ := (IsNormalPaymentScript_accepts _).mp hn
    rw [e] at hb
    have hpc : pc = v :: (h ++ [0x88, 0xac]) := by
      injection hb with _ hb
      injection hb with _ hb
      exact hb.symm
    subst hpc
    have hr2 : rest.length ≤ 2 := by
      rcases hrest with rfl | rfl | rfl <;> simp
    have v14 : v.val ≠ 0x14 := fun c => h14 (Fin.ext c)
    have v16 : v.val ≠ 0x16 := fun c => h16 (Fin.ext c)
    by_cases hv : v.val < OP_PUSHDATA1
    · rw [GetOp_push v _ hv] at hg
      unfold readPayload at hg
      split at hg
      · cases hg
      · rename_i hl
        simp only [List.length_append, List.length_cons, List.length_nil, hh] at hl
        injection hg with _ _ hrest2
        have hlen : rest.length = 22 - v.val := by
          rw [← hrest2]
          simp [hh]
        have hv21 : v.val = 21 := by omega
        have h0 : rest[0]? = some 0xac := by
          rw [← hrest2, List.getElem?_drop, hv21,
            List.getElem?_append_right (by rw [hh]; omega)]
          simp [hh]
        rcases hrest with rfl | rfl | rfl
        · simp at hlen; omega
        · revert h0; decide
        · simp at h0
    · have hv2 : v.val > OP_PUSHDATA4 := by
        simp only [OP_PUSHDATA1, OP_PUSHDATA4] at *
        omega
      rw [GetOp_opcode _ hv2] at hg
      injection hg with _ _ hrest2
      rw [← hrest2] at hr2
      simp [hh] at hr2

/-! ## Claims -/

/-- C1: `IsPayToScriptHash(b)` is true exactly when `b` has 23 bytes, `b[0]` is
`OP_HASH160` (0xa9), `b[1]` is 0x14 and `b[22]` is `OP_EQUAL` (0x87), and it
never throws; the result depends on nothing but the length and these three
bytes (so bytes 2..21 never affect it); and changing one of the three bytes,
or the length, of a matching script makes the result false. -/
theorem IsPayToScriptHash_iff (b : Script) :
    (IsPayToScriptHash b = some true ↔
      b.length = 23 ∧ b[0]? = some 0xa9 ∧ b[1]? = some 0x14 ∧ b[22]? = some 0x87) ∧
    (IsPayToScriptHash b = some true ∨ IsPayToScriptHash b = some false) ∧
    (∀ b2 : Script, b2.length = b.length → b2[0]? = b[0]? → b2[1]? = b[1]? →
      b2[22]? = b[22]? → IsPayToScriptHash b2 = IsPayToScriptHash b) ∧
    (IsPayToScriptHash b = some true →
      (∀ (i : Nat) (v : Byte), i = 0 ∨ i = 1 ∨ i = 22 → b[i]? ≠ some v →
        IsPayToScriptHash (b.set i v) = some false) ∧
      (∀ b2 : Script, b2.length ≠ b.length → IsPayToScriptHash b2 = some false)) := by
  refine ⟨?_, ?_, ?_, ?_⟩
  · rw [IsPayToScriptHash_eq]; simp
  · rw [IsPayToScriptHash_eq]
    by_cases h : b.length = 23 ∧ b[0]? = some 0xa9 ∧ b[1]? = some 0x14 ∧ b[22]? = some 0x87
    · left; simp [h]
    · right; simp [h]
  · intro c hl h0 h1 h22
    rw [IsPayToScriptHash_eq, IsPayToScriptHash_eq, hl, h0, h1, h22]
  · intro hb
    rw [IsPayToScriptHash_eq] at hb
    simp only [Option.some.injEq, decide_eq_true_eq] at hb
    obtain ⟨hl, h0, h1, h22⟩ := hb
    constructor
    · intro i v hi hv
      rw [IsPayToScriptHash_eq]
      simp only [Option.some.injEq, decide_eq_false_iff_not, List.length_set]
      rintro ⟨_, g0, g1, g22⟩
      rcases hi with rfl | rfl | rfl
      · rw [List.getElem?_set_self (by omega)] at g0
        rw [h0] at hv
        exact hv g0.symm
      · rw [List.getElem?_set_self (by omega)] at g1
        rw [h1] at hv
        exact hv g1.symm
      · rw [List.getElem?_set_self (by omega)] at g22
        rw [h22] at hv
        exact hv g22.symm
    · intro c hc
      rw [IsPayToScriptHash_eq]
      simp only [Option.some.injEq, decide_eq_false_iff_not]
      rintro ⟨hcl, _⟩
      omega

/-- C1 at a concrete pay-to-script-hash script. -/
theorem IsPayToScriptHash_iff_witness :
    IsPayToScriptHash exampleP2SH = some true ∧
    IsPayToScriptHash (exampleP2SH.set 22 0x88) = some false :=
  ⟨by decide,
   ((IsPayToScriptHash_iff exampleP2SH).2.2.2 (by decide)).1 22 0x88 (by decide) (by decide)⟩

/-- C2: for every 20-byte payload `h`, whatever its bytes, the canonical
25-byte template `OP_DUP OP_HASH160 0x14 h OP_EQUALVERIFY OP_CHECKSIG` is a
normal payment script. -/
theorem IsNormalPaymentScript_template (h : Script) (hh : h.length = 20) :
    IsNormalPaymentScript (p2pkhTemplate h) = true := by
  have hlen : (p2pkhTemplate h).length = 25 := by simp [p2pkhTemplate, hh]
  unfold IsNormalPaymentScript
  rw [if_neg (by rw [hlen]; simp), hlen]
  have g0 : ∀ pc : Script, GetOp ((0x76 : Byte) :: pc) = ReadResult.ok 0x76 [] pc :=
    fun pc => GetOp_opcode pc (by decide)
  have g1 : ∀ pc : Script, GetOp ((0xa9 : Byte) :: pc) = ReadResult.ok 0xa9 [] pc :=
    fun pc => GetOp_opcode pc (by decide)
  have g2 : ∀ T : Script, GetOp ((0x14 : Byte) :: (h ++ T)) = ReadResult.ok 0x14 h T :=
    fun T => GetOp_direct h T (by decide) (by rw [hh]; rfl)
  have g3 : ∀ pc : Script, GetOp ((0x88 : Byte) :: pc) = ReadResult.ok 0x88 [] pc :=
    fun pc => GetOp_opcode pc (by decide)
  have g4 : ∀ pc : Script, GetOp ((0xac : Byte) :: pc) = ReadResult.ok 0xac [] pc :=
    fun pc => GetOp_opcode pc (by decide)
  simp [p2pkhTemplate, IsNormalPaymentScript.loop, g0, g1, g2, g3, g4,
    ReadResult.opcodeRet, ReadResult.pcRet]

/-- C2 at a payload made of twenty `OP_CHECKSIG` bytes. -/
theorem IsNormalPaymentScript_template_witness :
    (List.replicate 20 (0xac : Byte)).length = 20 ∧
    IsNormalPaymentScript (p2pkhTemplate (List.replicate 20 0xac)) = true :=
  ⟨by decide, IsNormalPaymentScript_template (List.replicate 20 0xac) (by decide)⟩


/-- C3, refuted as stated: the 25-byte script `76 a9 4c 13 <19 bytes> 88 ac`
is accepted by `IsNormalPaymentScript` although it is not of the form
`76 a9 14 <20 bytes> 88 ac` (its third token is an `OP_PUSHDATA1` push of 19
bytes); it is the canonical template with payload `13 00 .. 00` whose
structural byte at offset 2 was replaced by `0x4c`. -/
theorem IsNormalPaymentScript_pushdata_counterexample :
    IsNormalPaymentScript exampleFiveTokens = true ∧
    exampleFiveTokens.length = 25 ∧
    (¬ ∃ h : Script, h.length = 20 ∧ exampleFiveTokens = p2pkhTemplate h) ∧
    (tokens exampleFiveTokens).map (fun t => (t.opcode, t.data.length))
      = [(0x76, 0), (0xa9, 0), (0x4c, 19), (0x88, 0), (0xac, 0)] ∧
    exampleFiveTokens = (p2pkhTemplate (0x13 :: List.replicate 19 0)).set 2 0x4c ∧
    (p2pkhTemplate (0x13 :: List.replicate 19 0))[2]? = some 0x14 := by
  refine ⟨by decide, by decide, ?_, by decide, by decide, by decide⟩
  rintro ⟨h, _, e⟩
  have e1 : (p2pkhTemplate h)[2]? = some 0x14 := by simp [p2pkhTemplate]
  have e2 : exampleFiveTokens[2]? = some 0x14 := by rw [e, e1]
  revert e2
  decide

/-- C3 (amended): leaving aside the 25-byte scripts that decode completely
into only `OP_DUP OP_HASH160` and one more token, optionally followed by
`OP_EQUALVERIFY`, a buffer is a normal payment script exactly when it has 25
bytes and decodes completely into the five tokens `OP_DUP`, `OP_HASH160`, any
one token, `OP_EQUALVERIFY`, `OP_CHECKSIG`.  A buffer with six or more tokens
and a buffer that does not decode completely are rejected.  In the five-token
form the third token occupies bytes 2..22; it is not inspected.  Every normal
payment script has 25 bytes and starts with `OP_DUP OP_HASH160`.  For every
20-byte payload, replacing the byte at offset 0, 1, 23 or 24 of the canonical
template by another value makes the result false, and so does replacing the
byte at offset 2 by any value other than `0x16` and `OP_PUSHDATA1/2/4`. -/
theorem IsNormalPaymentScript_five_tokens :
    (∀ b : Script,
      ¬ (b.length = 25 ∧ decodesCompletely b = true ∧ ∃ t2 : Token,
          tokens b = [Token.mk OP_DUP [], Token.mk OP_HASH160 [], t2] ∨
          tokens b = [Token.mk OP_DUP [], Token.mk OP_HASH160 [], t2,
            Token.mk OP_EQUALVERIFY []]) →
      (IsNormalPaymentScript b = true ↔
        b.length = 25 ∧ decodesCompletely b = true ∧ ∃ t2 : Token,
          tokens b = [Token.mk OP_DUP [], Token.mk OP_HASH160 [], t2,
            Token.mk OP_EQUALVERIFY [], Token.mk OP_CHECKSIG []])) ∧
    (∀ b : Script, 6 ≤ (tokens b).length → IsNormalPaymentScript b = false) ∧
    (∀ b : Script, decodesCompletely b = false → IsNormalPaymentScript b = false) ∧
    (∀ (b : Script) (t2 : Token), b.length = 25 → decodesCompletely b = true →
      tokens b = [Token.mk OP_DUP [], Token.mk OP_HASH160 [], t2,
        Token.mk OP_EQUALVERIFY [], Token.mk OP_CHECKSIG []] →
      ∃ t : Script, t.length = 21 ∧ b = [0x76, 0xa9] ++ t ++ [0x88, 0xac] ∧ tokens t = [t2]) ∧
    (∀ (b : Script) (t0 t1 t2 t3 t4 : Token), b.length = 25 →
      decodesCompletely b = true → tokens b = [t0, t1, t2, t3, t4] →
      (IsNormalPaymentScript b = true ↔
        t0.opcode = OP_DUP ∧ t1.opcode = OP_HASH160 ∧
        t3.opcode = OP_EQUALVERIFY ∧ t4.opcode = OP_CHECKSIG)) ∧
    (∀ b : Script, IsNormalPaymentScript b = true →
      b.length = 25 ∧ b[0]? = some 0x76 ∧ b[1]? = some 0xa9) ∧
    (∀ (h : Script) (i : Nat) (v : Byte), h.length = 20 →
      i = 0 ∨ i = 1 ∨ i = 23 ∨ i = 24 → (p2pkhTemplate h)[i]? ≠ some v →
      IsNormalPaymentScript ((p2pkhTemplate h).set i v) = false) ∧
    (∀ (h : Script) (v : Byte), h.length = 20 → v ≠ 0x14 → v ≠ 0x16 →
      ¬ (OP_PUSHDATA1 ≤ v.val ∧ v.val ≤ OP_PUSHDATA4) →
      IsNormalPaymentScript ((p2pkhTemplate h).set 2 v) = false) := by
  refine ⟨?_, ?_, ?_, fun _ _ hlen hd ht => five_tokens_bytes hlen hd ht,
    fun _ _ _ _ _ _ hlen hd ht => IsNormalPaymentScript_of_five hlen hd ht,
    fun _ hb => IsNormalPaymentScript_head hb,
    fun h i v hh hi hv => IsNormalPaymentScript_mutated h hh i v hi hv,
    fun h v hh h14 h16 hpd => IsNormalPaymentScript_mutated_push h hh v h14 h16 hpd⟩
  · intro b hne
    constructor
    · intro h
      obtain ⟨hlen, hd, t2, h5 | h4 | h3⟩ := IsNormalPaymentScript_cases h
      · exact ⟨hlen, hd, t2, h5⟩
      · exact absurd ⟨hlen, hd, t2, Or.inr h4⟩ hne
      · exact absurd ⟨hlen, hd, t2, Or.inl h3⟩ hne
    · rintro ⟨hlen, hd, t2, ht⟩
      exact (IsNormalPaymentScript_of_five hlen hd ht).mpr ⟨rfl, rfl, rfl, rfl⟩
  · intro b h6
    cases hn : IsNormalPaymentScript b with
    | false => rfl
    | true =>
      obtain ⟨_, _, t2, h5 | h4 | h3⟩ := IsNormalPaymentScript_cases hn
      · rw [h5] at h6; simp at h6
      · rw [h4] at h6; simp at h6
      · rw [h3] at h6; simp at h6
  · intro b hd
    cases hn : IsNormalPaymentScript b with
    | false => rfl
    | true =>
      rw [(IsNormalPaymentScript_cases hn).2.1] at hd
      cases hd

/-- C3 (amended) at the five-token script `76 a9 4c 13 <19 bytes> 88 ac`, at a
six-token script, and at the canonical template with its last byte replaced
by `OP_CHECKSIGVERIFY` and with its third byte replaced by `0x15`. -/
theorem IsNormalPaymentScript_five_tokens_witness :
    IsNormalPaymentScript exampleFiveTokens = true ∧
    IsNormalPaymentScript exampleSixTokens = false ∧
    IsNormalPaymentScript ((p2pkhTemplate (List.replicate 20 0)).set 24 0xad) = false ∧
    IsNormalPaymentScript ((p2pkhTemplate (List.replicate 20 0)).set 2 0x15) = false :=
  ⟨(IsNormalPaymentScript_five_tokens.1 exampleFiveTokens
      (fun hs => by
        have hl : (tokens exampleFiveTokens).length = 5 := by decide
        obtain ⟨_, _, t2, h | h⟩ := hs
        · rw [h] at hl; simp at hl
        · rw [h] at hl; simp at hl)).mpr
      ⟨by decide, by decide, Token.mk 0x4c (List.replicate 19 0), by decide⟩,
   IsNormalPaymentScript_five_tokens.2.1 exampleSixTokens (by decide),
   IsNormalPaymentScript_five_tokens.2.2.2.2.2.2.1 (List.replicate 20 0) 24 0xad (by decide)
      (by decide) (by decide),
   IsNormalPaymentScript_five_tokens.2.2.2.2.2.2.2 (List.replicate 20 0) 0x15 (by decide)
      (by decide) (by decide) (by decide)⟩


/-- C4: for a scriptPubKey that is not pay-to-script-hash, the two-argument
`GetSigOpCount` returns the accurate count of the scriptPubKey itself, and
the result is the same for every scriptSig. -/
theorem GetSigOpCountP2SH_not_p2sh (scriptPubKey scriptSig : Script)
    (h : IsPayToScriptHash scriptPubKey ≠ some true) :
    GetSigOpCountP2SH scriptPubKey scriptSig = some (GetSigOpCount scriptPubKey true) ∧
    ∀ scriptSig2 : Script,
      GetSigOpCountP2SH scriptPubKey scriptSig2 = GetSigOpCountP2SH scriptPubKey scriptSig := by
  have hf : IsPayToScriptHash scriptPubKey = some false := by
    rcases IsPayToScriptHash_total scriptPubKey with h1 | h1
    · exact absurd h1 h
    · exact h1
  have key : ∀ sig : Script,
      GetSigOpCountP2SH scriptPubKey sig = some (GetSigOpCount scriptPubKey true) := by
    intro sig
    simp [GetSigOpCountP2SH, hf]
  exact ⟨key scriptSig, fun sig2 => by rw [key sig2, key scriptSig]⟩

/-- C4 at a pay-to-pubkey-hash scriptPubKey. -/
theorem GetSigOpCountP2SH_not_p2sh_witness :
    IsPayToScriptHash (p2pkhTemplate (List.replicate 20 0)) ≠ some true ∧
    GetSigOpCountP2SH (p2pkhTemplate (List.replicate 20 0)) exampleScriptSig = some 1 :=
  ⟨by decide,
   (GetSigOpCountP2SH_not_p2sh (p2pkhTemplate (List.replicate 20 0)) exampleScriptSig
      (by decide)).1.trans (by decide)⟩

/-- C5: for a pay-to-script-hash scriptPubKey and a scriptSig made of a
push-only prefix `S` followed by one well-formed push token `t` with payload
`R`, the two-argument `GetSigOpCount` returns the accurate count of `R`: the
cost is that of the payload of the last token, not of the wrapper and not of
earlier pushes. -/
theorem GetSigOpCountP2SH_redeem (scriptPubKey S t R : Script)
    (hp : IsPayToScriptHash scriptPubKey = some true) (hS : IsPushOnly S = true)
    (ht : pushTokenPayload t = some R) :
    GetSigOpCountP2SH scriptPubKey (S ++ t) = some (GetSigOpCount R true) := by
  obtain ⟨op, hg, hop⟩ := pushTokenPayload_some ht
  obtain ⟨data1, h1⟩ := GetSigOpCountP2SH_run_append hS t []
  have h2 : GetSigOpCountP2SH.run t data1 = some R := by
    rw [GetSigOpCountP2SH_run_ok data1 hg, if_neg (by omega), GetSigOpCountP2SH_run_nil]
  simp [GetSigOpCountP2SH, hp, h1, h2]

/-- C5 at a scriptSig `OP_0 <ac> <redeem script>`: the count is that of the
redeem script, 3. -/
theorem GetSigOpCountP2SH_redeem_witness :
    GetSigOpCountP2SH exampleP2SH exampleScriptSig = some 3 :=
  (GetSigOpCountP2SH_redeem exampleP2SH [0x00, 0x01, 0xac] (0x09 :: exampleRedeem)
    exampleRedeem (by decide) (by decide) (by decide)).trans (by decide)

/-- C6: for a pay-to-script-hash scriptPubKey and a scriptSig that is not
push-only, the two-argument `GetSigOpCount` returns 0, whatever redeem script
is pushed before or after the offending token. -/
theorem GetSigOpCountP2SH_not_push_only (scriptPubKey scriptSig : Script)
    (hp : IsPayToScriptHash scriptPubKey = some true) (hs : IsPushOnly scriptSig = false) :
    GetSigOpCountP2SH scriptPubKey scriptSig = some 0 := by
  have h1 : GetSigOpCountP2SH.run scriptSig [] = none :=
    (GetSigOpCountP2SH_run_none_iff scriptSig []).mpr hs
  simp [GetSigOpCountP2SH, hp, h1]

/-- C6 at a scriptSig with `OP_ADD` between two pushes of a redeem script of
count 3. -/
theorem GetSigOpCountP2SH_not_push_only_witness :
    GetSigOpCount exampleRedeem true = 3 ∧
    GetSigOpCountP2SH exampleP2SH exampleScriptSigAdd = some 0 :=
  ⟨by decide, GetSigOpCountP2SH_not_push_only exampleP2SH exampleScriptSigAdd
    (by decide) (by decide)⟩

/-- C7: for `1 ≤ n ≤ 16` the script `[OP_n, OP_CHECKMULTISIG]`, and likewise
`[OP_n, OP_CHECKMULTISIGVERIFY]`, has accurate count `n` and conservative
count 20. -/
theorem GetSigOpCount_multisig (n : Nat) (h1 : 1 ≤ n) (h16 : n ≤ 16) :
    GetSigOpCount [opN n, 0xae] true = n ∧ GetSigOpCount [opN n, 0xae] false = 20 ∧
    GetSigOpCount [opN n, 0xaf] true = n ∧ GetSigOpCount [opN n, 0xaf] false = 20 := by
  interval_cases n <;> decide

/-- C7 at `n = 3`, the instance of the specification. -/
theorem GetSigOpCount_multisig_witness :
    GetSigOpCount [0x53, 0xae] true = 3 ∧ GetSigOpCount [0x53, 0xae] false = 20 :=
  ⟨(GetSigOpCount_multisig 3 (by decide) (by decide)).1,
   (GetSigOpCount_multisig 3 (by decide) (by decide)).2.1⟩

/-- C8, refuted as stated: on the script of 214748365 `OP_CHECKMULTISIG` bytes
the `unsigned int` tally wraps around: `GetSigOpCount` returns 4 for both
values of `fAccurate`, while the sum of the token weights is
`20 * 214748365 = 4294967300`. -/
theorem GetSigOpCount_wraps_counterexample :
    GetSigOpCount exampleMultisigRun false = 4 ∧
    GetSigOpCount exampleMultisigRun true = 4 ∧
    sigOpSum false none (tokens exampleMultisigRun) = 4294967300 ∧
    sigOpSum true none (tokens exampleMultisigRun) = 4294967300 := by
  have ht : tokens exampleMultisigRun
      = List.replicate 214748365 (Token.mk OP_CHECKMULTISIG []) :=
    tokens_replicate_opcode 0xae (by decide) 214748365
  have hs : ∀ acc : Bool, sigOpSum acc none (tokens exampleMultisigRun) = 4294967300 := by
    intro acc
    rw [ht, sigOpSum_replicate_multisig acc 214748365 none (Or.inl rfl)]
  refine ⟨?_, ?_, hs false, hs true⟩
  · rw [GetSigOpCount_eq_sumMod, hs false]; norm_num
  · rw [GetSigOpCount_eq_sumMod, hs true]; norm_num

/-- C8 (amended): for both values of `fAccurate`, `GetSigOpCount` equals,
modulo `2^32`, the sum over the tokens decoded up to the first malformed
token of: 1 for `OP_CHECKSIG(VERIFY)`; for `OP_CHECKMULTISIG(VERIFY)` the
numeral `n` when the count is accurate and the preceding token is `OP_n` with
`1 ≤ n ≤ 16`, and 20 otherwise; 0 for every other token (payload bytes
contribute nothing).  For a script with `20 * len < 2^32` it equals the sum
itself. -/
theorem GetSigOpCount_eq_sum (s : Script) (acc : Bool) :
    GetSigOpCount s acc = sigOpSum acc none (tokens s) % 2 ^ 32 ∧
    (20 * s.length < 2 ^ 32 → GetSigOpCount s acc = sigOpSum acc none (tokens s)) := by
  refine ⟨GetSigOpCount_eq_sumMod s acc, fun hlen => ?_⟩
  rw [GetSigOpCount_eq_sumMod]
  apply Nat.mod_eq_of_lt
  have h1 := sigOpSum_le acc (tokens s) none
  have h2 := tokens_length_le s
  omega

/-- C8 (amended) at a script with a push of two `OP_CHECKSIG` bytes, a
single-signature check, `OP_0 OP_CHECKMULTISIG`, `OP_3 OP_CHECKMULTISIGVERIFY`
and a truncated push: 0 + 1 + 20 + 3 = 24. -/
theorem GetSigOpCount_eq_sum_witness :
    GetSigOpCount [0x02, 0xac, 0xac, 0xac, 0x00, 0xae, 0x53, 0xaf, 0x4b, 0xac] true = 24 :=
  ((GetSigOpCount_eq_sum [0x02, 0xac, 0xac, 0xac, 0x00, 0xae, 0x53, 0xaf, 0x4b, 0xac] true).2
    (by decide)).trans (by decide)

/-- C9: `IsPushOnly(s)` is true exactly when `s` decodes completely and every
decoded token has an opcode of at most `OP_16`; in particular the empty
script and every concatenation of well-formed push tokens is push-only, and
a script that does not decode completely is not. -/
theorem IsPushOnly_iff (s : Script) :
    (IsPushOnly s = true ↔
      decodesCompletely s = true ∧ ∀ t ∈ tokens s, t.opcode ≤ OP_16) ∧
    IsPushOnly [] = true ∧
    (∀ ts : List Script, (∀ t ∈ ts, (pushTokenPayload t).isSome = true) →
      IsPushOnly ts.flatten = true) ∧
    (decodesCompletely s = false → IsPushOnly s = false) := by
  refine ⟨IsPushOnly_iff_tokens s, IsPushOnly_nil, IsPushOnly_join, fun hd => ?_⟩
  cases hp : IsPushOnly s with
  | false => rfl
  | true =>
    rw [((IsPushOnly_iff_tokens s).mp hp).1] at hd
    cases hd

/-- C9 at a concatenation of four push tokens and at a script that ends in a
truncated `OP_PUSHDATA2`. -/
theorem IsPushOnly_iff_witness :
    IsPushOnly [[0x00], [0x02, 0xac, 0x93], [0x4c, 0x01, 0xff], [0x60]].flatten = true ∧
    IsPushOnly [0x01, 0xac, 0x4d, 0x02] = false :=
  ⟨(IsPushOnly_iff []).2.2.1 [[0x00], [0x02, 0xac, 0x93], [0x4c, 0x01, 0xff], [0x60]]
      (by decide),
   (IsPushOnly_iff [0x01, 0xac, 0x4d, 0x02]).2.2.2 (by decide)⟩

/-- C10: appending one opcode byte above `OP_16` to a push-only script gives
a script that is not push-only. -/
theorem IsPushOnly_append_opcode (s : Script) (c : Byte) (hs : IsPushOnly s = true)
    (hc : c.val > OP_16) : IsPushOnly (s ++ [c]) = false := by
  have hc1 : c.val > OP_PUSHDATA4 := by
    simp only [OP_16, OP_PUSHDATA4] at *
    omega
  rw [IsPushOnly_append hs, IsPushOnly_ok (GetOp_opcode [] hc1), if_pos hc]

/-- C10 at `OP_ADD` appended to a push-only script. -/
theorem IsPushOnly_append_opcode_witness :
    IsPushOnly [0x02, 0xac, 0x93, 0x51] = true ∧
    IsPushOnly ([0x02, 0xac, 0x93, 0x51] ++ [0x93]) = false :=
  ⟨by decide, IsPushOnly_append_opcode [0x02, 0xac, 0x93, 0x51] 0x93 (by decide) (by decide)⟩


/-- C11: for a buffer of at least 7 bytes whose first byte is `OP_DUP`,
`IsQuicksended` returns the name of the first table entry, in declaration
order, whose inclusive range contains the big-endian value of bytes 3..6,
and `NULL` when no entry contains it; the result does not depend on the
output-pattern solver or on the bare-multisig flag. -/
theorem IsQuicksended_first_match (Solver : Script → txnouttype) (fIsBareMultisigStd : Bool)
    (s : Script) (hlen : 7 ≤ s.length) (h0 : s[0]? = some 0x76) :
    IsQuicksended Solver fIsBareMultisigStd s =
      some ((QuicksendedPrefixes.find? (fun e => decide
        (e.begin_ ≤ s[3].val * 2 ^ 24 + s[4].val * 2 ^ 16 + s[5].val * 2 ^ 8 + s[6].val ∧
          s[3].val * 2 ^ 24 + s[4].val * 2 ^ 16 + s[5].val * 2 ^ 8 + s[6].val ≤ e.end_))).map
        QuicksendEntry.name) ∧
    ∀ (Solver2 : Script → txnouttype) (flag2 : Bool),
      IsQuicksended Solver2 flag2 s = IsQuicksended Solver fIsBareMultisigStd s := by
  constructor
  · rw [IsQuicksended_prefilter Solver fIsBareMultisigStd s hlen h0, QuicksendedLookup_eq_find]
  · intro Solver2 flag2
    rw [IsQuicksended_prefilter Solver fIsBareMultisigStd s hlen h0,
      IsQuicksended_prefilter Solver2 flag2 s hlen h0]

/-- C11 at a pay-to-pubkey-hash script whose hash starts with `33 89 58 96`. -/
theorem IsQuicksended_first_match_witness :
    IsQuicksended (fun _ => txnouttype.TX_MULTISIG) false exampleFlagged
      = some (some "QuickSend1") :=
  (IsQuicksended_first_match (fun _ => txnouttype.TX_MULTISIG) false exampleFlagged
    (by decide) (by decide)).1.trans (by decide)

/-- C12: for every entry `e` of the table and every buffer of at least 7
bytes that starts with `OP_DUP` and carries the big-endian encoding of
`e.begin` in bytes 3..6, `IsQuicksended` returns exactly `e.name`; the table
has 311 entries. -/
theorem IsQuicksended_own_label (Solver : Script → txnouttype) (fIsBareMultisigStd : Bool)
    (e : QuicksendEntry) (s : Script) (he : e ∈ QuicksendedPrefixes) (hlen : 7 ≤ s.length)
    (h0 : s[0]? = some 0x76) (hp : (s.drop 3).take 4 = encodeBE32 e.begin_) :
    IsQuicksended Solver fIsBareMultisigStd s = some (some e.name) ∧
    QuicksendedPrefixes.length = 311 := by
  have hb := QuicksendedPrefixes_neighbours e he
  have hv : e.begin_ < 2 ^ 32 := by omega
  rw [IsQuicksended_prefilter Solver fIsBareMultisigStd s hlen h0,
    prefix_of_encodeBE32 s e.begin_ hlen hv hp, QuicksendedPrefixes_own_label e he]
  exact ⟨rfl, QuicksendedPrefixes_length⟩

/-- C12 at the first table entry and a 7-byte buffer. -/
theorem IsQuicksended_own_label_witness :
    IsQuicksended (fun _ => txnouttype.TX_NONSTANDARD) true exampleFlaggedShort
      = some (some "QuickSend1") :=
  (IsQuicksended_own_label (fun _ => txnouttype.TX_NONSTANDARD) true
    (QuicksendEntry.mk 0x33895896 0x33895896 "QuickSend1") exampleFlaggedShort
    (List.Mem.head _) (by decide) (by decide) (by decide)).1

/-- C13: for every entry `e` of the table, a buffer of at least 7 bytes that
starts with `OP_DUP` and carries `e.begin - 1`, or `e.end + 1`, in bytes 3..6
is not flagged: `IsQuicksended` returns `NULL`. -/
theorem IsQuicksended_neighbours (Solver : Script → txnouttype) (fIsBareMultisigStd : Bool)
    (e : QuicksendEntry) (s : Script) (he : e ∈ QuicksendedPrefixes) (hlen : 7 ≤ s.length)
    (h0 : s[0]? = some 0x76)
    (hp : (s.drop 3).take 4 = encodeBE32 (e.begin_ - 1) ∨
      (s.drop 3).take 4 = encodeBE32 (e.end_ + 1)) :
    IsQuicksended Solver fIsBareMultisigStd s = some none := by
  have hb := QuicksendedPrefixes_neighbours e he
  rw [IsQuicksended_prefilter Solver fIsBareMultisigStd s hlen h0]
  rcases hp with hp | hp
  · rw [prefix_of_encodeBE32 s (e.begin_ - 1) hlen (by omega) hp, hb.1]
  · rw [prefix_of_encodeBE32 s (e.end_ + 1) hlen (by omega) hp, hb.2.1]

/-- C13 at the value just below the first table entry. -/
theorem IsQuicksended_neighbours_witness :
    IsQuicksended (fun _ => txnouttype.TX_MULTISIG) false exampleNotFlagged = some none :=
  IsQuicksended_neighbours (fun _ => txnouttype.TX_MULTISIG) false
    (QuicksendEntry.mk 0x33895896 0x33895896 "QuickSend1") exampleNotFlagged
    (List.Mem.head _) (by decide) (by decide) (Or.inl (by decide))

/-- C14: for every byte buffer `ToString` returns a string: the loop leaves by
a `return` (with any fuel of at least the length of the buffer), every
successful read advances the cursor by at least one byte, `ValueString`
never throws, and the numeric decode, which is applied to payloads of at
most 4 bytes only, does not raise its size error on them. -/
theorem ToString_terminates (b : Script) :
    (∃ str, ToString b = ToStringResult.returned str) ∧
    (∀ fuel, b.length ≤ fuel → ToString.loop fuel b "" = ToString b) ∧
    (∀ (pc : Script) (op : Nat) (d rest : Script),
      GetOp pc = ReadResult.ok op d rest → rest.length < pc.length) ∧
    (∀ vch : Script, ∃ v, ValueString vch = some v) ∧
    (∀ vch : Script, vch.length ≤ 4 → ∃ num, CScriptNum vch 4 = some num) ∧
    (∀ vch : Script, 4 < vch.length → ValueString vch = some (HexStr vch)) := by
  refine ⟨ToString_run_returns b "", ?_, ?_, ?_, ?_, ?_⟩
  · intro fuel hf
    exact ToString_loop_fuel fuel b.length b "" hf (Nat.le_refl _)
  · intro pc op d rest hg
    exact GetOp_ok_length hg
  · intro vch
    obtain ⟨v, hv, _⟩ := ValueString_clean vch
    exact ⟨v, hv⟩
  · intro vch h
    exact ⟨CScriptNum.set_vch vch, by simp [CScriptNum, Nat.not_lt.mpr h]⟩
  · intro vch h
    simp [ValueString, Nat.not_le.mpr h]

/-- C14 at a script of four tokens. -/
theorem ToString_terminates_witness :
    ToString exampleDisasm = ToStringResult.returned "0 -1 01020304ff OP_DUP" ∧
    ToString.loop 1000 exampleDisasm "" = ToString exampleDisasm :=
  ⟨by decide, (ToString_terminates exampleDisasm).2.1 1000 (by decide)⟩

/-- C15: for a script that is a single well-formed data push (opcode at most
`OP_PUSHDATA4`) with payload `p`, `ToString` renders the decimal numeral of
the sign-magnitude little-endian integer of `p` when `p` has at most 4
bytes (the empty payload is 0, `81` is -1, `00 00 00 80` is 0), and
`2 * len(p)` lowercase hexadecimal digits when it has more. -/
theorem ToString_single_push (t p : Script) (op : Nat)
    (ht : GetOp t = ReadResult.ok op p []) (hop : op ≤ OP_PUSHDATA4) :
    (p.length ≤ 4 → ToString t = ToStringResult.returned (toString (signMagnitude p))) ∧
    (4 < p.length → ToString t = ToStringResult.returned (HexStr p) ∧
      (HexStr p).length = 2 * p.length ∧ ∀ ch ∈ (HexStr p).data, ch ∈ hexmap) ∧
    signMagnitude [] = 0 ∧ signMagnitude [0x81] = -1 ∧
    signMagnitude [0x00, 0x00, 0x00, 0x80] = 0 := by
  have hne : op ≠ OP_ZEROCOINSPEND := by
    simp only [OP_PUSHDATA4, OP_ZEROCOINSPEND] at *
    omega
  have key : ToString t = ToStringResult.returned (renderToken (Token.mk op p)) := by
    rw [ToString, ToString_run_ok _ ht, if_neg hne, ToString_run_nil, separated_empty,
      String.empty_append]
  refine ⟨?_, ?_, by decide, by decide, by decide⟩
  · intro hp
    rw [key, renderToken, if_pos hop, ValueString_small p hp]
    rfl
  · intro hp
    refine ⟨?_, HexStr_length p, HexStr_digits p⟩
    rw [key, renderToken, if_pos hop]
    simp [ValueString, Nat.not_le.mpr hp]

/-- C15 at the payloads `81`, `00 00 00 80` and a payload of five bytes. -/
theorem ToString_single_push_witness :
    ToString [0x01, 0x81] = ToStringResult.returned "-1" ∧
    ToString [0x4c, 0x04, 0x00, 0x00, 0x00, 0x80] = ToStringResult.returned "0" ∧
    ToString [0x05, 0x00, 0x1f, 0xa0, 0xff, 0x0b] = ToStringResult.returned "001fa0ff0b" :=
  ⟨((ToString_single_push [0x01, 0x81] [0x81] 0x01 (by decide) (by decide)).1
      (by decide)).trans (by decide),
   ((ToString_single_push [0x4c, 0x04, 0x00, 0x00, 0x00, 0x80] [0x00, 0x00, 0x00, 0x80] 0x4c
      (by decide) (by decide)).1 (by decide)).trans (by decide),
   (((ToString_single_push [0x05, 0x00, 0x1f, 0xa0, 0xff, 0x0b] [0x00, 0x1f, 0xa0, 0xff, 0x0b]
      0x05 (by decide) (by decide)).2.1 (by decide)).1).trans (by decide)⟩

/-- C16: for non-empty scripts `A` and `B`, where `A` decodes completely and
has no `OP_ZEROCOINSPEND` token, `ToString(A ++ B)` is `ToString(A)`, one
space and `ToString(B)`; `ToString(A)` is the texts of the tokens of `A`
joined by single spaces; no rendered token is empty or contains a space, and
neither output is empty or starts or ends with a space. -/
theorem ToString_append (A B : Script) (hA : A ≠ []) (hB : B ≠ [])
    (hd : decodesCompletely A = true)
    (hsp : ∀ t ∈ tokens A, t.opcode ≠ OP_ZEROCOINSPEND) :
    ∃ a b : String, ToString A = ToStringResult.returned a ∧
      ToString B = ToStringResult.returned b ∧
      ToString (A ++ B) = ToStringResult.returned (a ++ " " ++ b) ∧
      a = " ".intercalate ((tokens A).map renderToken) ∧
      (∀ t ∈ tokens (A ++ B), renderToken t ≠ "" ∧ ' ' ∉ (renderToken t).data) ∧
      a ≠ "" ∧ a.data.head? ≠ some ' ' ∧ a.data.getLast? ≠ some ' ' ∧
      b ≠ "" ∧ b.data.head? ≠ some ' ' ∧ b.data.getLast? ≠ some ' ' := by
  obtain ⟨hA1, hA2⟩ := ToString_complete A hd hsp
  obtain ⟨b, hb⟩ := ToString_run_returns B ""
  have ha := ToString_head hA hA1
  have hbh := ToString_head hB hb
  refine ⟨_, b, hA1, hb, ?_, rfl, tokens_clean (A ++ B), ha.1, ha.2,
    ToString_last A "" _ (by decide) hA1, hbh.1, hbh.2, ToString_last B "" _ (by decide) hb⟩
  rw [ToString, hA2 B, ToString_run_from B _ hB ha.1, hb]
  rfl

/-- C16 at `A = OP_0 <81> OP_DUP` and `B = OP_CHECKSIG` followed by a truncated
push. -/
theorem ToString_append_witness :
    ToString ([0x00, 0x01, 0x81, 0x76] ++ [0xac, 0x4c]) =
      ToStringResult.returned ("0 -1 OP_DUP" ++ " " ++ "OP_CHECKSIG [error]") := by
  obtain ⟨a, b, h1, h2, h3, _⟩ := ToString_append [0x00, 0x01, 0x81, 0x76] [0xac, 0x4c]
    (by decide) (by decide) (by decide) (by decide)
  have e1 : ToString [0x00, 0x01, 0x81, 0x76] = ToStringResult.returned "0 -1 OP_DUP" := by
    decide
  have e2 : ToString [0xac, 0x4c] = ToStringResult.returned "OP_CHECKSIG [error]" := by decide
  rw [e1] at h1
  rw [e2] at h2
  cases h1
  cases h2
  exact h3

/-- C17: for a script `P` that decodes completely and has no
`OP_ZEROCOINSPEND` token, and a malformed tail `T` (a non-empty script whose
first read fails), `ToString(P ++ T)` is `ToString(P)` followed by
`" [error]"` when `P` is not empty, and `"[error]"` when `P` is empty. -/
theorem ToString_malformed_tail (P T r : Script) (hd : decodesCompletely P = true)
    (hsp : ∀ t ∈ tokens P, t.opcode ≠ OP_ZEROCOINSPEND) (hT : T ≠ [])
    (hg : GetOp T = ReadResult.bad r) :
    ∃ a : String, ToString P = ToStringResult.returned a ∧
      ToString (P ++ T) =
        ToStringResult.returned (if P = [] then "[error]" else a ++ " [error]") := by
  obtain ⟨hP1, hP2⟩ := ToString_complete P hd hsp
  refine ⟨_, hP1, ?_⟩
  rw [ToString, hP2 T, ToString_run_bad _ hT hg]
  by_cases hP : P = []
  · subst hP
    simp [tokens_nil, String.intercalate, separated_empty]
  · rw [if_neg hP, separated_of_ne (ToString_head hP hP1).1, String.append_assoc]
    rfl

/-- C17 at `P = OP_1 <ac ac>` and a truncated `OP_PUSHDATA2`. -/
theorem ToString_malformed_tail_witness :
    ToString ([0x51, 0x02, 0xac, 0xac] ++ [0x4d, 0xac]) =
      ToStringResult.returned "1 -11436 [error]" := by
  obtain ⟨a, h1, h2⟩ := ToString_malformed_tail [0x51, 0x02, 0xac, 0xac] [0x4d, 0xac] [0xac]
    (by decide) (by decide) (by decide) (by decide)
  have e1 : ToString [0x51, 0x02, 0xac, 0xac] = ToStringResult.returned "1 -11436" := by decide
  rw [e1] at h1
  cases h1
  exact h2

/-- C18: for a script `P` that decodes completely and has no
`OP_ZEROCOINSPEND` token, and any bytes `R`, `ToString(P ++ [0xc2] ++ R)` is
`ToString(P ++ [0xc2])`, whose last rendered token is `OP_ZEROCOINSPEND`. -/
theorem ToString_spend_stops (P R : Script) (hd : decodesCompletely P = true)
    (hsp : ∀ t ∈ tokens P, t.opcode ≠ OP_ZEROCOINSPEND) :
    ToString (P ++ [0xc2] ++ R) = ToString (P ++ [0xc2]) ∧
    ∃ a : String, ToString P = ToStringResult.returned a ∧
      ToString (P ++ [0xc2]) = ToStringResult.returned
        (if P = [] then "OP_ZEROCOINSPEND" else a ++ " OP_ZEROCOINSPEND") := by
  obtain ⟨hP1, hP2⟩ := ToString_complete P hd hsp
  have hg : ∀ pc : Script, GetOp ((0xc2 : Byte) :: pc) = ReadResult.ok 0xc2 [] pc :=
    fun pc => GetOp_opcode pc (by decide)
  have hr : renderToken (Token.mk 0xc2 []) = "OP_ZEROCOINSPEND" := by decide
  have key : ∀ pc : Script, ToString.run (P ++ ((0xc2 : Byte) :: pc)) "" =
      ToStringResult.returned (if P = [] then "OP_ZEROCOINSPEND"
        else " ".intercalate ((tokens P).map renderToken) ++ " OP_ZEROCOINSPEND") := by
    intro pc
    rw [hP2, ToString_run_ok _ (hg pc), if_pos rfl, hr]
    by_cases hP : P = []
    · subst hP
      simp [tokens_nil, String.intercalate, separated_empty]
    · rw [if_neg hP, separated_of_ne (ToString_head hP hP1).1, String.append_assoc]
      rfl
  constructor
  · rw [List.append_assoc]
    exact (key R).trans (key []).symm
  · exact ⟨_, hP1, key []⟩

/-- C18 at `P = OP_1 OP_DUP` and a malformed `R`. -/
theorem ToString_spend_stops_witness :
    ToString ([0x51, 0x76] ++ [0xc2] ++ [0x4d, 0xac]) =
      ToStringResult.returned "1 OP_DUP OP_ZEROCOINSPEND" :=
  (ToString_spend_stops [0x51, 0x76] [0x4d, 0xac] (by decide) (by decide)).1.trans (by decide)

/-- C19: `IsZerocoinMint(b)` is true exactly when `b` is not empty and
`b[0] = 0xc1`, `IsZerocoinSpend(b)` exactly when `b` is not empty and
`b[0] = 0xc2`; neither throws, both are false on the empty buffer, and no
buffer satisfies both. -/
theorem IsZerocoin_iff (b : Script) :
    (IsZerocoinMint b = some true ↔ b ≠ [] ∧ b[0]? = some 0xc1) ∧
    (IsZerocoinSpend b = some true ↔ b ≠ [] ∧ b[0]? = some 0xc2) ∧
    (IsZerocoinMint b = some true ∨ IsZerocoinMint b = some false) ∧
    (IsZerocoinSpend b = some true ∨ IsZerocoinSpend b = some false) ∧
    IsZerocoinMint [] = some false ∧ IsZerocoinSpend [] = some false ∧
    ¬ (IsZerocoinMint b = some true ∧ IsZerocoinSpend b = some true) := by
  have e1 : ((0xc1 : Fin 256) : Nat) = 193 := rfl
  have e2 : ((0xc2 : Fin 256) : Nat) = 194 := rfl
  cases b with
  | nil => simp [IsZerocoinMint, IsZerocoinSpend]
  | cons x rest =>
    simp only [IsZerocoinMint, IsZerocoinSpend, vectorAt, OP_ZEROCOINMINT, OP_ZEROCOINSPEND]
    by_cases h1 : x.val = 193
    · simp [h1, Fin.ext_iff, e1, e2]
    · by_cases h2 : x.val = 194
      · simp [h2, Fin.ext_iff, e1, e2]
      · simp [h1, h2, Fin.ext_iff, e1, e2]

/-- C20: `GetOpName` returns `"OP_UNKNOWN"` for every byte without a `case` in
its `switch`: in particular for the template-matching pseudo-opcodes and for
every byte in `0xba..0xc0` and `0xc3..0xfe`; `0xff` is
`"OP_INVALIDOPCODE"`. -/
theorem GetOpName_unknown :
    (∀ x : Byte, x.val ∉ GetOpName.cases.map Prod.fst → GetOpName x.val = "OP_UNKNOWN") ∧
    GetOpName OP_SMALLINTEGER = "OP_UNKNOWN" ∧ GetOpName OP_PUBKEYS = "OP_UNKNOWN" ∧
    GetOpName OP_PUBKEYHASH = "OP_UNKNOWN" ∧ GetOpName OP_PUBKEY = "OP_UNKNOWN" ∧
    (∀ x : Byte, (0xba ≤ x.val ∧ x.val ≤ 0xc0) ∨ (0xc3 ≤ x.val ∧ x.val ≤ 0xfe) →
      GetOpName x.val = "OP_UNKNOWN") ∧
    GetOpName OP_INVALIDOPCODE = "OP_INVALIDOPCODE" := by
  refine ⟨fun x h => GetOpName_default h, ?_, ?_, ?_, ?_, fun x h => GetOpName_unassigned h, ?_⟩
  · exact GetOpName_unassigned (Or.inr (by decide))
  · exact GetOpName_unassigned (Or.inr (by decide))
  · exact GetOpName_unassigned (Or.inr (by decide))
  · exact GetOpName_unassigned (Or.inr (by decide))
  · decide!

/-- C20 at the unassigned byte `0xbb`. -/
theorem GetOpName_unknown_witness : GetOpName 0xbb = "OP_UNKNOWN" :=
  GetOpName_unknown.2.2.2.2.2.1 0xbb (by decide)

/-- C19 at the buffers `c1 00` and `c2`. -/
theorem IsZerocoin_iff_witness :
    IsZerocoinMint [0xc1, 0x00] = some true ∧ IsZerocoinSpend [0xc2] = some true :=
  ⟨(IsZerocoin_iff [0xc1, 0x00]).1.mpr (by decide),
   (IsZerocoin_iff [0xc2]).2.1.mpr (by decide)⟩


/-- C21: `GetOpName` renders the small-integer opcodes as decimal numerals:
`OP_0` as `"0"`, `OP_1NEGATE` as `"-1"`, and `OP_n` (byte `0x50 + n`,
`1 ≤ n ≤ 16`) as the decimal numeral of `n`, which is also the numeral of
`DecodeOP_N(OP_n)`. -/
theorem GetOpName_small_integers :
    GetOpName OP_0 = "0" ∧ GetOpName OP_1NEGATE = "-1" ∧
    ∀ n : Nat, 1 ≤ n → n ≤ 16 →
      GetOpName (0x50 + n) = toString n ∧
      toString (DecodeOP_N (0x50 + n)) = toString n := by
  refine ⟨by decide, by decide, ?_⟩
  intro n h1 h16
  interval_cases n <;> decide

/-- C21 at `OP_16`: the name is `"16"`, the numeral of `DecodeOP_N(OP_16)`. -/
theorem GetOpName_small_integers_witness :
    GetOpName OP_16 = "16" ∧ toString (DecodeOP_N OP_16) = "16" :=
  ⟨(GetOpName_small_integers.2.2 16 (by decide) (by decide)).1,
   (GetOpName_small_integers.2.2 16 (by decide) (by decide)).2⟩

/-- C22: on every byte buffer `IsPayToScriptHash`, `IsZerocoinMint`,
`IsZerocoinSpend` and `IsQuicksended` return a value, that is, no indexed
access is out of range: under the size checks that guard them, `at(0)`,
`at(1)`, `at(22)` and the four-byte read of bytes 3..6 are all inside the
buffer. -/
theorem no_read_outside (b : Script) :
    (IsPayToScriptHash b).isSome = true ∧ (IsZerocoinMint b).isSome = true ∧
    (IsZerocoinSpend b).isSome = true ∧
    (∀ (Solver : Script → txnouttype) (fIsBareMultisigStd : Bool),
      (IsQuicksended Solver fIsBareMultisigStd b).isSome = true) ∧
    (b.length = 23 → (vectorAt b 0).isSome = true ∧ (vectorAt b 1).isSome = true ∧
      (vectorAt b 22).isSome = true) ∧
    (b.length > 0 → (vectorAt b 0).isSome = true) ∧
    (7 ≤ b.length → (vectorAt b 0).isSome = true ∧ (readBE32 b 3).isSome = true) := by
  refine ⟨?_, IsZerocoinMint_total b, IsZerocoinSpend_total b,
    fun S f => IsQuicksended_total S f b, ?_, ?_, ?_⟩
  · rw [IsPayToScriptHash_eq]; rfl
  · intro h
    simp [vectorAt, List.getElem?_eq_getElem, show 0 < b.length by omega,
      show 1 < b.length by omega, show 22 < b.length by omega]
  · intro h
    simp [vectorAt, List.getElem?_eq_getElem, h]
  · intro h
    rw [readBE32_eq b h]
    simp [vectorAt, List.getElem?_eq_getElem, show 0 < b.length by omega]

/-- C22 at the two-byte buffer `a9 14` and at a seven-byte buffer. -/
theorem no_read_outside_witness :
    (IsPayToScriptHash [0xa9, 0x14]).isSome = true ∧
    (readBE32 exampleFlaggedShort 3).isSome = true :=
  ⟨(no_read_outside [0xa9, 0x14]).1,
   ((no_read_outside exampleFlaggedShort).2.2.2.2.2.2 (by decide)).2⟩

/-- C23: for a script `P` that decodes completely and a malformed tail `T`
(the read at the start of `T` fails), `GetSigOpCount(P ++ T)` equals
`GetSigOpCount(P)` for both values of `fAccurate`: the scan of `T` started
with the tally of `P` returns that tally, so no byte of `T` is counted. -/
theorem GetSigOpCount_malformed_tail (P T r : Script) (acc : Bool)
    (hd : decodesCompletely P = true) (hg : GetOp T = ReadResult.bad r) :
    GetSigOpCount (P ++ T) acc = GetSigOpCount P acc ∧
    GetSigOpCount.run acc T (GetSigOpCount P acc) OP_INVALIDOPCODE = GetSigOpCount P acc := by
  constructor
  · rw [GetSigOpCount_eq_sumMod, GetSigOpCount_eq_sumMod, tokens_append_bad hd hg]
  · exact GetSigOpCount_run_bad acc _ _ hg

/-- C23 at `OP_CHECKSIG OP_3 OP_CHECKMULTISIG` followed by a two-byte push
that has only one byte, an `OP_CHECKSIG` byte, which is not counted. -/
theorem GetSigOpCount_malformed_tail_witness :
    GetSigOpCount ([0xac, 0x53, 0xae] ++ [0x02, 0xac]) true =
      GetSigOpCount [0xac, 0x53, 0xae] true :=
  (GetSigOpCount_malformed_tail [0xac, 0x53, 0xae] [0x02, 0xac] [0xac] true (by decide)
    (by decide)).1

/-- C24: for a script outside the pre-filter (shorter than 7 bytes, or first
byte not `OP_DUP`), `IsQuicksended` returns `"bare multisig"` exactly when the
solver reports `TX_MULTISIG` and `fIsBareMultisigStd` is false; when the flag
is true, or the solver reports another type, it returns no label. -/
theorem IsQuicksended_bare_multisig (Solver : Script → txnouttype) (fIsBareMultisigStd : Bool)
    (s : Script) (h : ¬ (7 ≤ s.length ∧ s[0]? = some 0x76)) :
    (IsQuicksended Solver fIsBareMultisigStd s = some (some "bare multisig") ↔
      Solver s = txnouttype.TX_MULTISIG ∧ fIsBareMultisigStd = false) ∧
    (fIsBareMultisigStd = true ∨ Solver s ≠ txnouttype.TX_MULTISIG →
      IsQuicksended Solver fIsBareMultisigStd s = some none) := by
  rw [IsQuicksended_outside Solver fIsBareMultisigStd s h]
  unfold IsQuicksended.fallback
  cases fIsBareMultisigStd <;> by_cases hs : Solver s = txnouttype.TX_MULTISIG <;> simp [hs]

/-- C24 at a bare multisig script with the flag set, and at a two-byte script
that the solver does not report as multisig. -/
theorem IsQuicksended_bare_multisig_witness :
    IsQuicksended exampleSolver true exampleBareMultisig = some none ∧
    IsQuicksended exampleSolver false [0x76, 0xa9] = some none :=
  ⟨(IsQuicksended_bare_multisig exampleSolver true exampleBareMultisig (by decide)).2
      (Or.inl rfl),
   (IsQuicksended_bare_multisig exampleSolver false [0x76, 0xa9] (by decide)).2
      (Or.inr (by decide))⟩

/-- C26: two buffers of at least 7 bytes that both start with `OP_DUP` and
agree on bytes 3..6 get the same result from `IsQuicksended`. -/
theorem IsQuicksended_depends_on_prefix (Solver : Script → txnouttype)
    (fIsBareMultisigStd : Bool) (s t : Script) (hs : 7 ≤ s.length) (ht : 7 ≤ t.length)
    (hs0 : s[0]? = some 0x76) (ht0 : t[0]? = some 0x76)
    (h : (s.drop 3).take 4 = (t.drop 3).take 4) :
    IsQuicksended Solver fIsBareMultisigStd s = IsQuicksended Solver fIsBareMultisigStd t := by
  have e0 := congrArg (fun l : Script => l[0]?) h
  have e1 := congrArg (fun l : Script => l[1]?) h
  have e2 := congrArg (fun l : Script => l[2]?) h
  have e3 := congrArg (fun l : Script => l[3]?) h
  simp only [List.getElem?_take, List.getElem?_drop] at e0 e1 e2 e3
  simp [List.getElem?_eq_getElem, show 3 < s.length by omega, show 4 < s.length by omega,
    show 5 < s.length by omega, show 6 < s.length by omega, show 3 < t.length by omega,
    show 4 < t.length by omega, show 5 < t.length by omega, show 6 < t.length by omega]
    at e0 e1 e2 e3
  rw [IsQuicksended_prefilter Solver fIsBareMultisigStd s hs hs0,
    IsQuicksended_prefilter Solver fIsBareMultisigStd t ht ht0, e0, e1, e2, e3]

/-- C26 at a seven-byte buffer and the canonical pay-to-pubkey-hash script
carrying the same four bytes at offsets 3..6. -/
theorem IsQuicksended_depends_on_prefix_witness :
    IsQuicksended exampleSolver false exampleFlaggedShort =
      IsQuicksended exampleSolver false exampleFlagged :=
  IsQuicksended_depends_on_prefix exampleSolver false exampleFlaggedShort exampleFlagged
    (by decide) (by decide) (by decide) (by decide) (by decide)

/-- C27, refuted as stated: the script of 214748364 `OP_CHECKMULTISIG` bytes
has the tally `4294967280`; with one more `OP_CHECKMULTISIG` byte appended the
`unsigned int` tally wraps around and `GetSigOpCount` returns 4, for both
values of `fAccurate`. -/
theorem GetSigOpCount_append_counterexample :
    GetSigOpCount exampleMultisigShortRun false = 4294967280 ∧
    GetSigOpCount (exampleMultisigShortRun ++ [0xae]) false = 4 ∧
    GetSigOpCount exampleMultisigShortRun true = 4294967280 ∧
    GetSigOpCount (exampleMultisigShortRun ++ [0xae]) true = 4 := by
  have e : exampleMultisigShortRun ++ [0xae] = List.replicate 214748365 0xae := by
    rw [exampleMultisigShortRun]
    exact (List.replicate_add 214748364 1 (0xae : Byte)).symm
  have ht1 : tokens exampleMultisigShortRun
      = List.replicate 214748364 (Token.mk OP_CHECKMULTISIG []) :=
    tokens_replicate_opcode 0xae (by decide) 214748364
  have ht2 : tokens (List.replicate 214748365 (0xae : Byte))
      = List.replicate 214748365 (Token.mk OP_CHECKMULTISIG []) :=
    tokens_replicate_opcode 0xae (by decide) 214748365
  have h1 : ∀ acc : Bool, GetSigOpCount exampleMultisigShortRun acc = 4294967280 := by
    intro acc
    rw [GetSigOpCount_eq_sumMod, ht1,
      sigOpSum_replicate_multisig acc 214748364 none (Or.inl rfl)]
    norm_num
  have h2 : ∀ acc : Bool, GetSigOpCount (exampleMultisigShortRun ++ [0xae]) acc = 4 := by
    intro acc
    rw [e, GetSigOpCount_eq_sumMod, ht2,
      sigOpSum_replicate_multisig acc 214748365 none (Or.inl rfl)]
    norm_num
  exact ⟨h1 false, h2 false, h1 true, h2 true⟩

/-- C27 (amended): for buffers `A` and `B` with `20 * len(A ++ B) < 2^32` and
both values of `fAccurate`, `GetSigOpCount(A ++ B) ≥ GetSigOpCount(A)`, also
when `A` ends in a truncated push that `B` completes. -/
theorem GetSigOpCount_append_ge (A B : Script) (acc : Bool)
    (hlen : 20 * (A ++ B).length < 2 ^ 32) :
    GetSigOpCount (A ++ B) acc ≥ GetSigOpCount A acc := by
  have hA : 20 * A.length < 2 ^ 32 := by
    rw [List.length_append] at hlen
    omega
  rw [GetSigOpCount_exact _ acc hlen, GetSigOpCount_exact _ acc hA]
  obtain ⟨ts, hts⟩ := tokens_prefix A B
  rw [hts]
  exact sigOpSum_append_ge acc _ _ none

/-- C27 (amended) at `A = ac 02 ac`, which ends in a push that lacks a byte,
and `B = ac ac`, which completes it. -/
theorem GetSigOpCount_append_ge_witness :
    GetSigOpCount ([0xac, 0x02, 0xac] ++ [0xac, 0xac]) true ≥
      GetSigOpCount [0xac, 0x02, 0xac] true :=
  GetSigOpCount_append_ge [0xac, 0x02, 0xac] [0xac, 0xac] true (by decide)

/-- C28: `GetOpName` is injective on the opcodes that have a case: a byte has
a case exactly when its name is not `"OP_UNKNOWN"`, and two different bytes
that both have a case have different names. -/
theorem GetOpName_injective (x y : Byte) :
    (x.val ∈ GetOpName.cases.map Prod.fst ↔ GetOpName x.val ≠ "OP_UNKNOWN") ∧
    (x ≠ y → x.val ∈ GetOpName.cases.map Prod.fst → y.val ∈ GetOpName.cases.map Prod.fst →
      GetOpName x.val ≠ GetOpName y.val) := by
  refine ⟨GetOpName_catalogued x.val, ?_⟩
  intro hxy hx hy e
  obtain ⟨vx, hvx⟩ := GetOpName_lookup_some hx
  obtain ⟨vy, hvy⟩ := GetOpName_lookup_some hy
  unfold GetOpName at e
  rw [hvx, hvy] at e
  simp only at e
  have := GetOpName_cases_names.2 _ (GetOpName_lookup_mem hvx) _ (GetOpName_lookup_mem hvy) e
  exact hxy (Fin.ext (congrArg Prod.fst this))

/-- C28 at `OP_DUP` and `OP_HASH160`. -/
theorem GetOpName_injective_witness :
    GetOpName OP_DUP ≠ GetOpName OP_HASH160 :=
  (GetOpName_injective 0x76 0xa9).2 (by decide) (by decide) (by decide)

/-- C29: `IsPushOnly` treats `OP_RESERVED` (0x50) and `OP_1NEGATE` (0x4f) as
push opcodes: a push-only script stays push-only when either byte is
appended, each byte alone is push-only, and a one-byte opcode above
`OP_PUSHDATA4` appended to a push-only script keeps it push-only exactly when
the opcode is at most `OP_16`. -/
theorem IsPushOnly_reserved (s : Script) (hs : IsPushOnly s = true) :
    IsPushOnly (s ++ [0x50]) = true ∧ IsPushOnly (s ++ [0x4f]) = true ∧
    IsPushOnly [0x50] = true ∧ IsPushOnly [0x4f] = true ∧
    ∀ x : Byte, OP_PUSHDATA4 < x.val → (IsPushOnly (s ++ [x]) = true ↔ x.val ≤ OP_16) := by
  refine ⟨?_, ?_, by decide, by decide, ?_⟩
  · rw [IsPushOnly_append hs]; decide
  · rw [IsPushOnly_append hs]; decide
  · intro x hx
    rw [IsPushOnly_append hs, IsPushOnly_ok (GetOp_opcode [] hx)]
    by_cases h : x.val > OP_16
    · simp only [if_pos h]
      constructor
      · intro e; cases e
      · intro e; omega
    · simp only [if_neg h, IsPushOnly_nil, true_iff]
      omega

/-- C29 at a two-byte push followed by `OP_RESERVED`. -/
theorem IsPushOnly_reserved_witness :
    IsPushOnly ([0x02, 0xac, 0x93] ++ [0x50]) = true :=
  (IsPushOnly_reserved [0x02, 0xac, 0x93] (by decide)).1

/-- C30, refuted as stated: on the pair `OP_16 OP_CHECKMULTISIG` repeated
214748365 times the accurate count is `3435973840`, while the conservative
tally `20 * 214748365` wraps around the `unsigned int` and is 4. -/
theorem GetSigOpCount_accurate_counterexample :
    GetSigOpCount exampleAccurateRun true = 3435973840 ∧
    GetSigOpCount exampleAccurateRun false = 4 := by
  have ht : tokens exampleAccurateRun
      = (List.replicate 214748365 [Token.mk OP_16 [], Token.mk OP_CHECKMULTISIG []]).flatten :=
    tokens_replicate_pair 0x60 0xae (by decide) (by decide) 214748365
  constructor
  · rw [GetSigOpCount_eq_sumMod, ht, sigOpSum_replicate_pair]
    norm_num
  · rw [GetSigOpCount_eq_sumMod, ht, sigOpSum_replicate_pair]
    norm_num

/-- C30 (amended): for a buffer `s` with `20 * len(s) < 2^32` the accurate
count is at most the conservative count. -/
theorem GetSigOpCount_accurate_le (s : Script) (hlen : 20 * s.length < 2 ^ 32) :
    GetSigOpCount s true ≤ GetSigOpCount s false := by
  rw [GetSigOpCount_exact s true hlen, GetSigOpCount_exact s false hlen]
  exact sigOpSum_accurate_le _ none

/-- C30 (amended) at `OP_3 OP_CHECKMULTISIG OP_CHECKSIG OP_0 OP_CHECKMULTISIG`:
3 + 1 + 20 against 20 + 1 + 20. -/
theorem GetSigOpCount_accurate_le_witness :
    GetSigOpCount [0x53, 0xae, 0xac, 0x00, 0xae] true ≤
      GetSigOpCount [0x53, 0xae, 0xac, 0x00, 0xae] false :=
  GetSigOpCount_accurate_le [0x53, 0xae, 0xac, 0x00, 0xae] (by decide)


/-- C31: a script for which `IsPushOnly` is true has the signature-operation
count 0 for both values of `fAccurate`, whatever bytes its payloads contain. -/
theorem GetSigOpCount_push_only (s : Script) (acc : Bool) (h : IsPushOnly s = true) :
    GetSigOpCount s acc = 0 := by
  rw [GetSigOpCount_eq_sumMod,
    sigOpSum_push acc _ ((IsPushOnly_iff_tokens s).mp h).2 none, Nat.zero_mod]

/-- C31 at a push of the four bytes `ac ad ae af` followed by `OP_16`. -/
theorem GetSigOpCount_push_only_witness :
    GetSigOpCount [0x04, 0xac, 0xad, 0xae, 0xaf, 0x60] true = 0 :=
  GetSigOpCount_push_only [0x04, 0xac, 0xad, 0xae, 0xaf, 0x60] true (by decide)

/-- C32, refuted as stated: `A`, 214748364 `OP_CHECKMULTISIG` bytes, decodes
completely and has the conservative count `4294967280`, `B = ae` has the
count 20, and the `unsigned int` tally of `A ++ B` wraps around to 4, not
`4294967300`. -/
theorem GetSigOpCount_additive_counterexample :
    decodesCompletely exampleMultisigShortRun = true ∧
    GetSigOpCount (exampleMultisigShortRun ++ [0xae]) false = 4 ∧
    GetSigOpCount exampleMultisigShortRun false + GetSigOpCount [0xae] false = 4294967300 := by
  have e : exampleMultisigShortRun ++ [0xae] = List.replicate 214748365 0xae := by
    rw [exampleMultisigShortRun]
    exact (List.replicate_add 214748364 1 (0xae : Byte)).symm
  have ht1 : tokens exampleMultisigShortRun
      = List.replicate 214748364 (Token.mk OP_CHECKMULTISIG []) :=
    tokens_replicate_opcode 0xae (by decide) 214748364
  have ht2 : tokens (List.replicate 214748365 (0xae : Byte))
      = List.replicate 214748365 (Token.mk OP_CHECKMULTISIG []) :=
    tokens_replicate_opcode 0xae (by decide) 214748365
  have h1 : GetSigOpCount exampleMultisigShortRun false = 4294967280 := by
    rw [GetSigOpCount_eq_sumMod, ht1,
      sigOpSum_replicate_multisig false 214748364 none (Or.inl rfl)]
    norm_num
  have h2 : GetSigOpCount (exampleMultisigShortRun ++ [0xae]) false = 4 := by
    rw [e, GetSigOpCount_eq_sumMod, ht2,
      sigOpSum_replicate_multisig false 214748365 none (Or.inl rfl)]
    norm_num
  have h3 : GetSigOpCount [0xae] false = 20 := by decide
  refine ⟨decodesCompletely_replicate_opcode 0xae (by decide) 214748364, h2, ?_⟩
  rw [h1, h3]

/-- C32 (amended): for a script `A` that decodes completely and a buffer `B`,
the conservative count of `A ++ B` is the sum of the conservative counts of
`A` and `B` modulo `2^32`, and the sum itself when
`20 * len(A ++ B) < 2^32`. -/
theorem GetSigOpCount_additive (A B : Script) (hA : decodesCompletely A = true) :
    GetSigOpCount (A ++ B) false =
      (GetSigOpCount A false + GetSigOpCount B false) % 2 ^ 32 ∧
    (20 * (A ++ B).length < 2 ^ 32 →
      GetSigOpCount (A ++ B) false = GetSigOpCount A false + GetSigOpCount B false) := by
  have hsum : sigOpSum false none (tokens (A ++ B)) =
      sigOpSum false none (tokens A) + sigOpSum false none (tokens B) := by
    rw [tokens_append hA, sigOpSum_conservative_append _ _ none none]
  constructor
  · rw [GetSigOpCount_eq_sumMod, GetSigOpCount_eq_sumMod, GetSigOpCount_eq_sumMod, hsum,
      Nat.add_mod]
  · intro hlen
    have hl : 20 * A.length < 2 ^ 32 ∧ 20 * B.length < 2 ^ 32 := by
      rw [List.length_append] at hlen
      omega
    rw [GetSigOpCount_exact _ false hlen, GetSigOpCount_exact _ false hl.1,
      GetSigOpCount_exact _ false hl.2, hsum]

/-- C32 (amended) at `A = OP_3 OP_CHECKSIG` and `B = OP_CHECKMULTISIG` followed
by a truncated push: 1 + 20. -/
theorem GetSigOpCount_additive_witness :
    GetSigOpCount ([0x53, 0xac] ++ [0xae, 0x01]) false =
      GetSigOpCount [0x53, 0xac] false + GetSigOpCount [0xae, 0x01] false :=
  (GetSigOpCount_additive [0x53, 0xac] [0xae, 0x01] (by decide)).2 (by decide)

/-- C33, which the code does not satisfy: `IsNormalPaymentScript(b)` is true
exactly when `b` has 25 bytes, starts with `OP_DUP OP_HASH160`, the third
token decodes successfully, and what follows the third token is `88 ac`, `88`
or nothing.  A third token that occupies bytes 2..23 or 2..24 is therefore
accepted without `OP_EQUALVERIFY OP_CHECKSIG` at offsets 23 and 24. -/
theorem IsNormalPaymentScript_shape (b : Script) :
    IsNormalPaymentScript b = true ↔
      b.length = 25 ∧ ∃ (pc : Script) (op : Nat) (d rest : Script),
        b = 0x76 :: 0xa9 :: pc ∧ GetOp pc = ReadResult.ok op d rest ∧
        (rest = [0x88, 0xac] ∨ rest = [0x88] ∨ rest = []) := by
  have g0 : ∀ pc : Script, GetOp ((0x76 : Byte) :: pc) = ReadResult.ok 0x76 [] pc :=
    fun pc => GetOp_opcode pc (by decide)
  have g1 : ∀ pc : Script, GetOp ((0xa9 : Byte) :: pc) = ReadResult.ok 0xa9 [] pc :=
    fun pc => GetOp_opcode pc (by decide)
  have hstep : ∀ pc : Script, IsNormalPaymentScript.loop 25 0 (0x76 :: 0xa9 :: pc) =
      IsNormalPaymentScript.loop 23 2 pc := by
    intro pc
    rw [IsNormalPaymentScript_loop_ok 24 0 (g0 _), IsNormalPaymentScript_loop_ok 23 1 (g1 _)]
    simp [OP_DUP, OP_HASH160]
  constructor
  · intro h
    obtain ⟨hlen, h0, h1⟩ := IsNormalPaymentScript_head h
    refine ⟨hlen, ?_⟩
    match b, hlen, h0, h1 with
    | x0 :: x1 :: pc, hlen, h0, h1 =>
      have f0 : x0 = 0x76 := by simpa using h0
      have f1 : x1 = 0xa9 := by simpa using h1
      subst f0 f1
      have hpc : pc.length = 23 := by simpa using hlen
      unfold IsNormalPaymentScript at h
      rw [if_neg (by rw [hlen]; simp), hlen, hstep] at h
      match pc, hpc with
      | x2 :: pc3, hpc =>
        rw [IsNormalPaymentScript_loop_cons 22 2 x2 pc3] at h
        norm_num at h
        cases hg : GetOp (x2 :: pc3) with
        | ok op d rest =>
          rw [hg] at h
          simp only [ReadResult.pcRet] at h
          exact ⟨_, op, d, rest, rfl, hg, (IsNormalPaymentScript_loop_three 19 rest).mp h⟩
        | bad r =>
          rw [hg] at h
          simp only [ReadResult.pcRet] at h
          have hr := GetOp_bad_length hg
          rcases (IsNormalPaymentScript_loop_three 19 r).mp h with e | e | e <;>
            · rw [e] at hr
              simp only [List.length_cons, List.length_nil] at hr hpc
              omega
  · rintro ⟨hlen, pc, op, d, rest, rfl, hg, hrest⟩
    unfold IsNormalPaymentScript
    rw [if_neg (by rw [hlen]; simp), hlen, hstep, IsNormalPaymentScript_loop_ok 22 2 hg]
    norm_num
    exact (IsNormalPaymentScript_loop_three 19 rest).mpr hrest

/-- C33 at `76 a9 16` followed by 22 zero bytes: the result is true, the bytes
at offsets 23 and 24 are zero, and the script has three tokens, the third
occupying bytes 2..24. -/
theorem IsNormalPaymentScript_shape_witness :
    IsNormalPaymentScript exampleThreeTokens = true ∧
    exampleThreeTokens[23]? = some 0x00 ∧ exampleThreeTokens[24]? = some 0x00 ∧
    tokens exampleThreeTokens =
      [Token.mk OP_DUP [], Token.mk OP_HASH160 [], Token.mk 0x16 (List.replicate 22 0x00)] :=
  ⟨(IsNormalPaymentScript_shape exampleThreeTokens).mpr
      ⟨by decide, 0x16 :: List.replicate 22 0x00, 0x16, List.replicate 22 0x00, [], by decide,
        by decide, Or.inr (Or.inr rfl)⟩,
   by decide, by decide, by decide⟩

/-- C34: for a pay-to-script-hash scriptPubKey and a scriptSig made of one
well-formed push token with payload `R` followed by a single byte from
`OP_1NEGATE` (0x4f) to `OP_16` (0x60), that is `OP_1NEGATE`, `OP_RESERVED` or
`OP_n` with `1 ≤ n ≤ 16`, the two-argument `GetSigOpCount` returns 0: the
payload of the last token is empty.  The empty scriptSig gives 0 as well. -/
theorem GetSigOpCountP2SH_trailing_opcode (scriptPubKey t R : Script) (x : Byte)
    (hp : IsPayToScriptHash scriptPubKey = some true) (ht : pushTokenPayload t = some R)
    (hx : OP_1NEGATE ≤ x.val ∧ x.val ≤ OP_16) :
    GetSigOpCountP2SH scriptPubKey (t ++ [x]) = some 0 ∧
    GetSigOpCountP2SH.run (t ++ [x]) [] = some [] ∧
    GetSigOpCountP2SH scriptPubKey [] = some 0 := by
  obtain ⟨op, hg, hop⟩ := pushTokenPayload_some ht
  have hx1 : x.val > OP_PUSHDATA4 := by
    have := hx.1
    simp only [OP_1NEGATE, OP_PUSHDATA4] at *
    omega
  have h1 : GetSigOpCountP2SH.run (t ++ [x]) [] = some [] := by
    have hg1 := GetOp_append hg [x]
    rw [GetSigOpCountP2SH_run_ok [] hg1, if_neg (by omega), List.nil_append,
      GetSigOpCountP2SH_run_ok R (GetOp_opcode [] hx1), if_neg (by omega),
      GetSigOpCountP2SH_run_nil]
  have h0 : GetSigOpCount [] true = 0 := by decide
  refine ⟨?_, h1, ?_⟩
  · simp [GetSigOpCountP2SH, hp, h1, h0]
  · simp [GetSigOpCountP2SH, hp, GetSigOpCountP2SH_run_nil, h0]

/-- C34 at a push of a redeem script of count 3 followed by `OP_3`. -/
theorem GetSigOpCountP2SH_trailing_opcode_witness :
    GetSigOpCount exampleRedeem true = 3 ∧
    GetSigOpCountP2SH exampleP2SH ((0x09 :: exampleRedeem) ++ [opN 3]) = some 0 :=
  ⟨by decide,
   (GetSigOpCountP2SH_trailing_opcode exampleP2SH (0x09 :: exampleRedeem) exampleRedeem (opN 3)
      (by decide) (by decide) (by decide)).1⟩


end CScript
